import Mathlib

/-!
# A verification development for the Chess engine (ChessEngine.py / SmartMoveFinder.py)

This file gives a shallow embedding of the chess rules engine and the move-search
engine of the repository, and proves (or refutes) the testable properties of its
specification against that embedding.

Modelling conventions:
* a board square holds `Option (PColor × PKind)`; `none` is Python's `'--'`,
  `some (c, k)` is the two-character string `ck` (e.g. `'wP'`);
* board coordinates are `Int`, as in the Python source all arithmetic on
  coordinates is ordinary integer arithmetic.  `getSq`/`setSq` reproduce
  Python list indexing including the wrap-around of negative indices `-8 ≤ i < 0`
  (Python `board[-1]` is the last row); indices outside `[-8, 8)` raise in
  Python and here read as empty / write as no-op, a divergence that is only
  reachable from states the theorems below exclude;
* Python exceptions are modelled with `Option`: `scoreBoard` returns `none`
  exactly where the source raises `TypeError` (the `CHECKMATE()` call);
* mutation of the shared `GameState` is modelled by explicit state passing:
  every Python method that writes to `self` returns the new `GameState`
  (so e.g. `squareUnderAttack` returns `Bool × GameState`);
* `random.shuffle` in `findBestMove` permutes the caller's move list; the model
  takes the move list as given (the identity permutation is one possible
  outcome, and all claims below quantify over the list).
-/

/-- Colour of a piece: the first character `'w'` / `'b'` of a board cell. -/
inductive PColor where
  | w
  | b
deriving DecidableEq, Repr

/-- Kind of a piece: the second character of a board cell. -/
inductive PKind where
  | K
  | Q
  | R
  | B
  | N
  | P
deriving DecidableEq, Repr

/-- A board cell: `none` is `'--'`, `some (c, k)` the piece string. -/
abbrev Cell := Option (PColor × PKind)

/-- The 8×8 board, a list of rows as in the Python 2-d list. -/
abbrev Board := List (List Cell)

/-- Python list index semantics restricted to length-8 lists: `0 ≤ n < 8` is the
plain index, `-8 ≤ n < 0` wraps from the end, anything else raises (here `none`). -/
def idx8 (n : Int) : Option Nat :=
  if 0 ≤ n ∧ n < 8 then some n.toNat
  else if -8 ≤ n ∧ n < 0 then some (n + 8).toNat
  else none

/-- Read `board[r][c]` with Python indexing. -/
def getSq (board : Board) (r c : Int) : Cell :=
  match idx8 r, idx8 c with
  | some i, some j => (board.getD i []).getD j none
  | _, _ => none

/-- Write `board[r][c] = v` with Python indexing. -/
def setSq (board : Board) (r c : Int) (v : Cell) : Board :=
  match idx8 r, idx8 c with
  | some i, some j => board.set i ((board.getD i []).set j v)
  | _, _ => board

/-- The first character `cell[0]` as a colour (`'-'` is neither `'w'` nor `'b'`). -/
def cellColor (cell : Cell) : Option PColor := cell.map Prod.fst

/-- The second character `cell[1]` as a piece kind. -/
def cellKind (cell : Cell) : Option PKind := cell.map Prod.snd

/-- `CastleRights`, four booleans exactly as in the source. -/
structure CastleRights where
  wks : Bool
  bks : Bool
  wqs : Bool
  bqs : Bool
deriving DecidableEq, Repr

/-- `Move`.  `moveID` is not stored: in the source it is always the value
computed in `Move.__init__` from the four coordinates, so here it is the
derived function `Move.moveID` below. -/
structure Move where
  startRow : Int
  startCol : Int
  endRow : Int
  endCol : Int
  pieceMoved : Cell
  pieceCaptured : Cell
  isCastleMove : Bool
  isPawnPromotion : Bool
  isEnPassantMove : Bool
deriving DecidableEq, Repr

/-- `Move.__init__`.  Note the promotion flag: the source computes
`(pieceMoved == 'wP' and endRow == 0) or (pieceMoved and 'bP' and endRow == 7)`;
`self.pieceMoved and 'bP'` is the Python conjunction of two truthy values
(every cell string, including `'--'`, is a non-empty string), so the second
disjunct reduces to `endRow == 7` regardless of the piece. -/
def mkMove (startSq endSq : Int × Int) (board : Board)
    (isEnPassantMove : Bool) (isCastleMove : Bool) : Move :=
  let pieceMoved := getSq board startSq.1 startSq.2
  let pieceCapturedRaw := getSq board endSq.1 endSq.2
  let isPawnPromotion :=
    (decide (pieceMoved = some (PColor.w, PKind.P)) && decide (endSq.1 = 0))
      || decide (endSq.1 = 7)
  let pieceCaptured :=
    if isEnPassantMove then
      (if pieceMoved = some (PColor.b, PKind.P) then some (PColor.w, PKind.P)
       else some (PColor.b, PKind.P))
    else pieceCapturedRaw
  { startRow := startSq.1, startCol := startSq.2
    endRow := endSq.1, endCol := endSq.2
    pieceMoved := pieceMoved, pieceCaptured := pieceCaptured
    isCastleMove := isCastleMove, isPawnPromotion := isPawnPromotion
    isEnPassantMove := isEnPassantMove }

/-- `self.moveID = startRow * 1000 + startCol * 100 + endRow * 10 + endCol`. -/
def Move.moveID (m : Move) : Int :=
  m.startRow * 1000 + m.startCol * 100 + m.endRow * 10 + m.endCol

/-- `Move.__eq__`: `isinstance` always holds for two `Move`s, so equality is
comparison of the `moveID`s. -/
def moveEq (m1 m2 : Move) : Bool :=
  m1.moveID == m2.moveID

/-- `GameState`: every attribute the constructor sets (`moveFunctions` is the
dispatch table, realised below as a `match` in `getAllPossibleMoves`). -/
structure GameState where
  board : Board
  whiteToMove : Bool
  moveLog : List Move
  whiteKingLocation : Int × Int
  blackKingLocation : Int × Int
  checkMate : Bool
  staleMate : Bool
  enPassantPossible : Option (Int × Int)
  currentCastlingRight : CastleRights
  castleRightsLog : List CastleRights
deriving DecidableEq, Repr

/-- A row of eight empty squares. -/
def emptyRow : List Cell := List.replicate 8 none

/-- One home rank of a colour. -/
def homeRank (c : PColor) : List Cell :=
  [some (c, PKind.R), some (c, PKind.N), some (c, PKind.B), some (c, PKind.Q),
   some (c, PKind.K), some (c, PKind.B), some (c, PKind.N), some (c, PKind.R)]

/-- A rank of eight pawns of a colour. -/
def pawnRank (c : PColor) : List Cell := List.replicate 8 (some (c, PKind.P))

/-- `GameState.__init__`: the standard starting arrangement. -/
def initialGameState : GameState :=
  { board := [homeRank PColor.b, pawnRank PColor.b, emptyRow, emptyRow,
              emptyRow, emptyRow, pawnRank PColor.w, homeRank PColor.w]
    whiteToMove := true
    moveLog := []
    whiteKingLocation := (7, 4)
    blackKingLocation := (0, 4)
    checkMate := false
    staleMate := false
    enPassantPossible := none
    currentCastlingRight := ⟨true, true, true, true⟩
    castleRightsLog := [⟨true, true, true, true⟩] }

/-- `GameState.updateCastleRights`, as a pure function on the rights record.
The `if/elif` chain keys on `pieceMoved` only (never on `pieceCaptured`). -/
def updateCastleRights (cr : CastleRights) (move : Move) : CastleRights :=
  if move.pieceMoved = some (PColor.w, PKind.K) then
    { cr with wks := false, wqs := false }
  else if move.pieceMoved = some (PColor.b, PKind.K) then
    { cr with bks := false, bqs := false }
  else if move.pieceMoved = some (PColor.w, PKind.R) then
    (if move.startRow = 7 then
      (if move.startCol = 0 then { cr with wqs := false }
       else if move.startCol = 7 then { cr with wks := false }
       else cr)
     else cr)
  else if move.pieceMoved = some (PColor.b, PKind.R) then
    (if move.startRow = 0 then
      (if move.startCol = 0 then { cr with bqs := false }
       else if move.startCol = 7 then { cr with bks := false }
       else cr)
     else cr)
  else cr

/-- The pawn-promotion rewrite of `makeMove`: guarded by
`pieceMoved[1] == 'P'` and the `isPawnPromotion` flag, the destination square
becomes the mover's queen. -/
def promoStep (b2 : Board) (move : Move) : Board :=
  match move.pieceMoved with
  | some (cl, PKind.P) =>
    if move.isPawnPromotion then
      setSq b2 move.endRow move.endCol (some (cl, PKind.Q))
    else b2
  | _ => b2

/-- The board updates of `GameState.makeMove`, in the source's statement
order: clear the origin, place the moved piece, promotion rewrite, en-passant
pawn removal, castle rook relocation. -/
def makeBoard (B : Board) (move : Move) : Board :=
  let b3 := promoStep (setSq (setSq B move.startRow move.startCol none)
    move.endRow move.endCol move.pieceMoved) move
  let b4 := if move.isEnPassantMove then
      setSq b3 move.startRow move.endCol none
    else b3
  if move.isCastleMove then
    (if move.endCol - move.startCol = 2 then
      setSq (setSq b4 move.endRow (move.endCol - 1)
          (getSq b4 move.endRow (move.endCol + 1)))
        move.endRow (move.endCol + 1) none
     else
      setSq (setSq b4 move.endRow (move.endCol + 1)
          (getSq b4 move.endRow (move.endCol - 2)))
        move.endRow (move.endCol - 2) none)
  else b4

/-- `GameState.makeMove`, in the source's statement order. -/
def makeMove (gs : GameState) (move : Move) : GameState :=
  { board := makeBoard gs.board move
    whiteToMove := !gs.whiteToMove
    moveLog := gs.moveLog ++ [move]
    whiteKingLocation := if move.pieceMoved = some (PColor.w, PKind.K) then
        (move.endRow, move.endCol) else gs.whiteKingLocation
    blackKingLocation := if move.pieceMoved = some (PColor.w, PKind.K) then
        gs.blackKingLocation
      else if move.pieceMoved = some (PColor.b, PKind.K) then
        (move.endRow, move.endCol) else gs.blackKingLocation
    checkMate := gs.checkMate
    staleMate := gs.staleMate
    enPassantPossible := if cellKind move.pieceMoved = some PKind.P ∧
        (move.startRow - move.endRow = 2 ∨ move.endRow - move.startRow = 2) then
        some ((move.startRow + move.endRow).fdiv 2, move.startCol)
      else none
    currentCastlingRight := updateCastleRights gs.currentCastlingRight move
    castleRightsLog := gs.castleRightsLog ++
      [updateCastleRights gs.currentCastlingRight move] }

/-- The board updates of the undo of a move: restore origin and destination,
reverse the en-passant capture, reverse the castle rook relocation. -/
def undoBoard (B : Board) (move : Move) : Board :=
  let b2 := setSq (setSq B move.startRow move.startCol move.pieceMoved)
    move.endRow move.endCol move.pieceCaptured
  let b3 := if move.isEnPassantMove then
      setSq (setSq b2 move.endRow move.endCol none)
        move.startRow move.endCol move.pieceCaptured
    else b2
  if move.isCastleMove then
    (if move.endCol - move.startCol = 2 then
      setSq (setSq b3 move.endRow (move.endCol + 1)
          (getSq b3 move.endRow (move.endCol - 1)))
        move.endRow (move.endCol - 1) none
     else
      setSq (setSq b3 move.endRow (move.endCol - 2)
          (getSq b3 move.endRow (move.endCol + 1)))
        move.endRow (move.endCol + 1) none)
  else b3

/-- The body of `GameState.undoMove` for the last logged move.  After popping
the castle-rights log the source reads `castleRightsLog[-1]`; on an empty list
that raises in Python, modelled here by keeping the current rights (never
reached from the states the theorems use). -/
def undoBody (gs : GameState) (move : Move) : GameState :=
  { board := undoBoard gs.board move
    whiteToMove := !gs.whiteToMove
    moveLog := gs.moveLog.dropLast
    whiteKingLocation := if move.pieceMoved = some (PColor.w, PKind.K) then
        (move.startRow, move.startCol) else gs.whiteKingLocation
    blackKingLocation := if move.pieceMoved = some (PColor.w, PKind.K) then
        gs.blackKingLocation
      else if move.pieceMoved = some (PColor.b, PKind.K) then
        (move.startRow, move.startCol) else gs.blackKingLocation
    checkMate := gs.checkMate
    staleMate := gs.staleMate
    enPassantPossible := if cellKind move.pieceMoved = some PKind.P ∧
        (move.startRow - move.endRow = 2 ∨ move.endRow - move.startRow = 2) then
        none
      else if move.isEnPassantMove then some (move.endRow, move.endCol)
      else gs.enPassantPossible
    currentCastlingRight :=
      ((gs.castleRightsLog.dropLast).getLast?).getD gs.currentCastlingRight
    castleRightsLog := gs.castleRightsLog.dropLast }

/-- `GameState.undoMove`: a no-op when the move log is empty, otherwise undo
the last logged move. -/
def undoMove (gs : GameState) : GameState :=
  match gs.moveLog.getLast? with
  | none => gs
  | some move => undoBody gs move

/-- `GameState.getPawnMoves`, appending in the source's order:
advance (and double advance), then left capture, then right capture. -/
def getPawnMoves (gs : GameState) (r c : Int) : List Move :=
  if gs.whiteToMove then
    (if getSq gs.board (r-1) c = none then
      mkMove (r, c) (r-1, c) gs.board false false ::
        (if r = 6 ∧ getSq gs.board (r-2) c = none then
          [mkMove (r, c) (r-2, c) gs.board false false]
         else [])
     else []) ++
    (if 0 ≤ c - 1 then
      (if cellColor (getSq gs.board (r-1) (c-1)) = some PColor.b then
        [mkMove (r, c) (r-1, c-1) gs.board false false]
       else if gs.enPassantPossible = some (r-1, c-1) then
        [mkMove (r, c) (r-1, c-1) gs.board true false]
       else [])
     else []) ++
    (if c + 1 < 8 then
      (if cellColor (getSq gs.board (r-1) (c+1)) = some PColor.b then
        [mkMove (r, c) (r-1, c+1) gs.board false false]
       else if gs.enPassantPossible = some (r-1, c+1) then
        [mkMove (r, c) (r-1, c+1) gs.board true false]
       else [])
     else [])
  else
    (if getSq gs.board (r+1) c = none then
      mkMove (r, c) (r+1, c) gs.board false false ::
        (if r = 1 ∧ getSq gs.board (r+2) c = none then
          [mkMove (r, c) (r+2, c) gs.board false false]
         else [])
     else []) ++
    (if 0 ≤ c - 1 then
      (if cellColor (getSq gs.board (r+1) (c-1)) = some PColor.w then
        [mkMove (r, c) (r+1, c-1) gs.board false false]
       else if gs.enPassantPossible = some (r+1, c-1) then
        [mkMove (r, c) (r+1, c-1) gs.board true false]
       else [])
     else []) ++
    (if c + 1 < 8 then
      (if cellColor (getSq gs.board (r+1) (c+1)) = some PColor.w then
        [mkMove (r, c) (r+1, c+1) gs.board false false]
       else if gs.enPassantPossible = some (r+1, c+1) then
        [mkMove (r, c) (r+1, c+1) gs.board true false]
       else [])
     else [])

/-- One sliding ray: the source's `for i in range(1, 8)` with `break`s.
`fuel` counts the remaining iterations, `i` is the loop variable. -/
def rayMoves (gs : GameState) (r c dr dc : Int) (enemyColor : PColor) :
    Nat → Int → List Move
  | 0, _ => []
  | fuel + 1, i =>
    let er := r + dr * i
    let ec := c + dc * i
    if 0 ≤ er ∧ er < 8 ∧ 0 ≤ ec ∧ ec < 8 then
      match getSq gs.board er ec with
      | none =>
        mkMove (r, c) (er, ec) gs.board false false ::
          rayMoves gs r c dr dc enemyColor fuel (i + 1)
      | some (pc, _) =>
        if pc = enemyColor then [mkMove (r, c) (er, ec) gs.board false false]
        else []
    else []

/-- `GameState.getBishopMoves`. -/
def getBishopMoves (gs : GameState) (r c : Int) : List Move :=
  let enemyColor := if gs.whiteToMove then PColor.b else PColor.w
  [((-1 : Int), (-1 : Int)), (-1, 1), (1, -1), (1, 1)].flatMap
    (fun d => rayMoves gs r c d.1 d.2 enemyColor 7 1)

/-- `GameState.getRookMoves`. -/
def getRookMoves (gs : GameState) (r c : Int) : List Move :=
  let enemyColor := if gs.whiteToMove then PColor.b else PColor.w
  [((-1 : Int), (0 : Int)), (0, -1), (1, 0), (0, 1)].flatMap
    (fun d => rayMoves gs r c d.1 d.2 enemyColor 7 1)

/-- `GameState.getQueenMoves` = rook moves then bishop moves. -/
def getQueenMoves (gs : GameState) (r c : Int) : List Move :=
  getRookMoves gs r c ++ getBishopMoves gs r c

/-- `GameState.getKnightMoves`. -/
def getKnightMoves (gs : GameState) (r c : Int) : List Move :=
  let allyColor := if gs.whiteToMove then PColor.w else PColor.b
  [((-2 : Int), (-1 : Int)), (-2, 1), (-1, -2), (-1, 2),
   (1, -2), (1, 2), (2, -1), (2, 1)].flatMap
    (fun m =>
      let er := r + m.1
      let ec := c + m.2
      if 0 ≤ er ∧ er < 8 ∧ 0 ≤ ec ∧ ec < 8 then
        (if cellColor (getSq gs.board er ec) ≠ some allyColor then
          [mkMove (r, c) (er, ec) gs.board false false]
         else [])
      else [])

/-- `GameState.getKingMoves`. -/
def getKingMoves (gs : GameState) (r c : Int) : List Move :=
  let allyColor := if gs.whiteToMove then PColor.w else PColor.b
  [((-1 : Int), (-1 : Int)), (-1, 0), (-1, 1), (0, -1),
   (0, 1), (1, -1), (1, 0), (1, 1)].flatMap
    (fun m =>
      let er := r + m.1
      let ec := c + m.2
      if 0 ≤ er ∧ er < 8 ∧ 0 ≤ ec ∧ ec < 8 then
        (if cellColor (getSq gs.board er ec) ≠ some allyColor then
          [mkMove (r, c) (er, ec) gs.board false false]
         else [])
      else [])

/-- `GameState.getAllPossibleMoves`: scan the board row-major, dispatch on the
piece kind when the piece belongs to the side to move.  This reads only
`board`, `whiteToMove` and (through pawn generation) `enPassantPossible`:
it performs no writes, which the model expresses by being a pure function. -/
def getAllPossibleMoves (gs : GameState) : List Move :=
  (List.range 8).flatMap fun ri =>
    (List.range 8).flatMap fun ci =>
      let r : Int := ri
      let c : Int := ci
      match getSq gs.board r c with
      | none => []
      | some (pc, kind) =>
        if (pc = PColor.w ∧ gs.whiteToMove) ∨ (pc = PColor.b ∧ ¬gs.whiteToMove) then
          match kind with
          | PKind.P => getPawnMoves gs r c
          | PKind.N => getKnightMoves gs r c
          | PKind.B => getBishopMoves gs r c
          | PKind.R => getRookMoves gs r c
          | PKind.Q => getQueenMoves gs r c
          | PKind.K => getKingMoves gs r c
        else []

/-- `GameState.squareUnderAttack`: flip the side to move, generate the
opponent's moves, flip back, and test whether any move ends on `(r, c)`.
The returned state is the state after the two flips. -/
def squareUnderAttack (gs : GameState) (r c : Int) : Bool × GameState :=
  let gs1 := { gs with whiteToMove := !gs.whiteToMove }
  let oppMoves := getAllPossibleMoves gs1
  let gs2 := { gs1 with whiteToMove := !gs1.whiteToMove }
  (oppMoves.any fun m => m.endRow == r && m.endCol == c, gs2)

/-- The boolean result of `squareUnderAttack` alone. -/
def underAttack (gs : GameState) (r c : Int) : Bool :=
  (squareUnderAttack gs r c).1

/-- `GameState.inCheck`. -/
def inCheck (gs : GameState) : Bool × GameState :=
  if gs.whiteToMove then
    squareUnderAttack gs gs.whiteKingLocation.1 gs.whiteKingLocation.2
  else
    squareUnderAttack gs gs.blackKingLocation.1 gs.blackKingLocation.2

/-- `GameState.getKingSideCastleMoves`. -/
def getKingSideCastleMoves (gs : GameState) (r c : Int) : List Move :=
  if getSq gs.board r (c+1) = none ∧ getSq gs.board r (c+2) = none then
    (if ¬(underAttack gs r (c+1)) ∧ ¬(underAttack gs r (c+2)) then
      [mkMove (r, c) (r, c+2) gs.board false true]
     else [])
  else []

/-- `GameState.getQueenSideCastleMoves`. -/
def getQueenSideCastleMoves (gs : GameState) (r c : Int) : List Move :=
  if getSq gs.board r (c-1) = none ∧ getSq gs.board r (c-2) = none ∧
      getSq gs.board r (c-3) = none then
    (if ¬(underAttack gs r (c-1)) ∧ ¬(underAttack gs r (c-2)) then
      [mkMove (r, c) (r, c-2) gs.board false true]
     else [])
  else []

/-- `GameState.getCastleMoves`: nothing while in check, otherwise king side
then queen side, each guarded by the corresponding right. -/
def getCastleMoves (gs : GameState) (r c : Int) : List Move :=
  if underAttack gs r c then []
  else
    (if (gs.whiteToMove ∧ gs.currentCastlingRight.wks) ∨
        (¬gs.whiteToMove ∧ gs.currentCastlingRight.bks) then
      getKingSideCastleMoves gs r c
     else []) ++
    (if (gs.whiteToMove ∧ gs.currentCastlingRight.wqs) ∨
        (¬gs.whiteToMove ∧ gs.currentCastlingRight.bqs) then
      getQueenSideCastleMoves gs r c
     else [])

/-- The legality-filter loop of `getValidMoves`: the source iterates the list
backwards (`for i in range(len(moves)-1, -1, -1)`), making each move, flipping
the turn, testing `inCheck`, flipping back, undoing, and removing the move when
the check held.  Removing at index `i` only shifts already-visited elements, so
the iteration visits each element exactly once, last element first; this
recursion processes the tail (whose last element is the list's last) before the
head, threading the mutated state in the same order. -/
def checkFilter (gs : GameState) : List Move → List Move × GameState
  | [] => ([], gs)
  | m :: rest =>
    let p := checkFilter gs rest
    let gs2 := makeMove p.2 m
    let gs3 := { gs2 with whiteToMove := !gs2.whiteToMove }
    let q := inCheck gs3
    let gs5 := { q.2 with whiteToMove := !(q.2).whiteToMove }
    let gs6 := undoMove gs5
    (if q.1 then p.1 else m :: p.1, gs6)

/-- `GameState.getValidMoves`. -/
def getValidMoves (gs : GameState) : List Move × GameState :=
  let tempEnPassantPossible := gs.enPassantPossible
  let tempCastleRights := gs.currentCastlingRight
  let pseudo := getAllPossibleMoves gs
  let kingLoc := if gs.whiteToMove then gs.whiteKingLocation else gs.blackKingLocation
  let moves := pseudo ++ getCastleMoves gs kingLoc.1 kingLoc.2
  let p := checkFilter gs moves
  let gs2 :=
    if p.1.isEmpty then
      (if (inCheck p.2).1 then { p.2 with checkMate := true }
       else { p.2 with staleMate := true })
    else { p.2 with checkMate := false, staleMate := false }
  (p.1, { gs2 with enPassantPossible := tempEnPassantPossible,
                   currentCastlingRight := tempCastleRights })

/-! ## SmartMoveFinder -/

/-- `pieceScore` values. -/
def pieceScoreVal : PKind → Int
  | PKind.K => 0
  | PKind.Q => 10
  | PKind.R => 5
  | PKind.B => 3
  | PKind.N => 3
  | PKind.P => 1

/-- `CHECKMATE = 1000`. -/
def CHECKMATE : Int := 1000

/-- `STALEMATE = 0`. -/
def STALEMATE : Int := 0

/-- `DEPTH = 3`. -/
def DEPTH : Nat := 3

/-- `scoreMaterial`: signed material sum over the whole board. -/
def scoreMaterial (board : Board) : Int :=
  board.foldl (fun acc row =>
    row.foldl (fun acc2 cell =>
      match cell with
      | some (PColor.w, k) => acc2 + pieceScoreVal k
      | some (PColor.b, k) => acc2 - pieceScoreVal k
      | none => acc2) acc) 0

/-- `scoreBoard`.  In the checkmate/Black-wins… branch for White having lost —
i.e. `checkMate` with Black to move — the source executes `return CHECKMATE()`,
calling the integer `1000`, which raises `TypeError`; that crash is `none`. -/
def scoreBoard (gs : GameState) : Option Int :=
  if gs.checkMate then
    (if gs.whiteToMove then some (-CHECKMATE) else none)
  else if gs.staleMate then some STALEMATE
  else some (scoreMaterial gs.board)

/-- The `for move in validMoves` loop body of `findMoveNegaMax`, recursing on
the move list; `child` is the depth-decreased recursive call (supplied by
`negaMaxLoop`), `atMax` is `depth == DEPTH` (the source's test for the root
frame), `mx` the local `maxScore` accumulator, `nm` the global `nextMove`
threaded through.  A `none` result is a propagating Python exception. -/
def negaMaxInner
    (child : GameState → List Move → Option Move →
      Option (Int × GameState × Option Move))
    (atMax : Bool) : GameState → List Move → Int → Option Move →
      Option (Int × GameState × Option Move)
  | gs, [], mx, nm => some (mx, gs, nm)
  | gs, mv :: rest, mx, nm =>
    let g1 := makeMove gs mv
    let p := getValidMoves g1
    match child p.2 p.1 nm with
    | none => none
    | some (sc, g3, nm1) =>
      let score := -sc
      let mx1 := if score > mx then score else mx
      let nm2 := if score > mx ∧ atMax = true then some mv else nm1
      let g4 := undoMove g3
      negaMaxInner child atMax g4 rest mx1 nm2

/-- `findMoveNegaMax`, with the module-level globals made explicit:
`maxD` is the global `DEPTH` constant against which the source compares
`depth == DEPTH`; each frame enters the loop with `maxScore = -CHECKMATE`. -/
def negaMaxLoop : Nat → Nat → Int → GameState → List Move → Int →
    Option Move → Option (Int × GameState × Option Move)
  | 0, _, tm, gs, _, _, nm => (scoreBoard gs).map fun s => (tm * s, gs, nm)
  | d + 1, maxD, tm, gs, moves, mx, nm =>
    negaMaxInner (fun g l n => negaMaxLoop d maxD (-tm) g l (-CHECKMATE) n)
      (decide (d + 1 = maxD)) gs moves mx nm

/-- `findMoveNegaMax(gs, validMoves, depth, turnMultiplier)` (the node
`counter` is not modelled). -/
def findMoveNegaMax (gs : GameState) (validMoves : List Move)
    (depth maxD : Nat) (tm : Int) : Option (Int × GameState × Option Move) :=
  negaMaxLoop depth maxD tm gs validMoves (-CHECKMATE) none

/-- The loop body of `findMoveNegaMaxAlphaBeta`: as `negaMaxInner` plus the
`alpha`/`beta` window; after each move `alpha` is raised to `maxScore` when
`maxScore` exceeds it, and the loop `break`s when `alpha >= beta`.  The
depth-decreased call `child` receives the current `alpha`. -/
def negaMaxABInner
    (child : Int → GameState → List Move → Option Move →
      Option (Int × GameState × Option Move))
    (atMax : Bool) (beta : Int) : Int → GameState → List Move → Int →
      Option Move → Option (Int × GameState × Option Move)
  | _, gs, [], mx, nm => some (mx, gs, nm)
  | alpha, gs, mv :: rest, mx, nm =>
    let g1 := makeMove gs mv
    let p := getValidMoves g1
    match child alpha p.2 p.1 nm with
    | none => none
    | some (sc, g3, nm1) =>
      let score := -sc
      let mx1 := if score > mx then score else mx
      let nm2 := if score > mx ∧ atMax = true then some mv else nm1
      let g4 := undoMove g3
      let alpha1 := if mx1 > alpha then mx1 else alpha
      if alpha1 ≥ beta then some (mx1, g4, nm2)
      else negaMaxABInner child atMax beta alpha1 g4 rest mx1 nm2

/-- `findMoveNegaMaxAlphaBeta`, same conventions as `negaMaxLoop`. -/
def negaMaxABLoop : Nat → Nat → Int → Int → Int → GameState → List Move →
    Int → Option Move → Option (Int × GameState × Option Move)
  | 0, _, _, _, tm, gs, _, _, nm => (scoreBoard gs).map fun s => (tm * s, gs, nm)
  | d + 1, maxD, alpha, beta, tm, gs, moves, mx, nm =>
    negaMaxABInner
      (fun a g l n => negaMaxABLoop d maxD (-beta) (-a) (-tm) g l (-CHECKMATE) n)
      (decide (d + 1 = maxD)) beta alpha gs moves mx nm

/-- `findMoveNegaMaxAlphaBeta(gs, validMoves, depth, alpha, beta, turnMultiplier)`. -/
def findMoveNegaMaxAlphaBeta (gs : GameState) (validMoves : List Move)
    (depth maxD : Nat) (alpha beta tm : Int) :
    Option (Int × GameState × Option Move) :=
  negaMaxABLoop depth maxD alpha beta tm gs validMoves (-CHECKMATE) none

/-- `findBestMove(gs, validMoves)`: reset `nextMove`, run the alpha-beta
search at `DEPTH` with the full window, return `nextMove`.  The state the
search leaves behind is returned alongside; `none` is a propagating crash. -/
def findBestMove (gs : GameState) (validMoves : List Move) :
    Option (Option Move × GameState) :=
  match negaMaxABLoop DEPTH DEPTH (-CHECKMATE) CHECKMATE
      (if gs.whiteToMove then 1 else -1) gs validMoves (-CHECKMATE) none with
  | none => none
  | some (_, gs1, nm) => some (nm, gs1)

/-! ## Concrete positions used by the claim theorems -/

/-- No castling rights, for hand-built endgame positions. -/
def noRights : CastleRights := ⟨false, false, false, false⟩

/-- Black to move with king h8 and knight c1, against the white king h6 and
rook a5.  White has `Ra8#` available, so a search that reaches the position
after it will evaluate a checkmate with Black to move. -/
def negaCmpState : GameState :=
  { board := [
      [none, none, none, none, none, none, none, some (PColor.b, PKind.K)],
      emptyRow,
      [none, none, none, none, none, none, none, some (PColor.w, PKind.K)],
      [some (PColor.w, PKind.R), none, none, none, none, none, none, none],
      emptyRow, emptyRow, emptyRow,
      [none, none, some (PColor.b, PKind.N), none, none, none, none, none]]
    whiteToMove := false
    moveLog := []
    whiteKingLocation := (2, 7)
    blackKingLocation := (0, 7)
    checkMate := false
    staleMate := false
    enPassantPossible := none
    currentCastlingRight := noRights
    castleRightsLog := [noRights] }

/-- The legal moves of `negaCmpState`, in generation order: the king retreat
to g8 followed by the four knight moves. -/
def negaCmpMoves : List Move := (getValidMoves negaCmpState).1

/-- White checkmated (White to move), a valid input state for `scoreBoard`. -/
def gsWhiteMated : GameState :=
  { board := [
      emptyRow, emptyRow, emptyRow, emptyRow, emptyRow,
      [none, none, none, none, none, some (PColor.b, PKind.K), none, none],
      [none, none, none, none, none, none, some (PColor.b, PKind.Q), none],
      [none, none, none, none, none, none, none, some (PColor.w, PKind.K)]]
    whiteToMove := true
    moveLog := []
    whiteKingLocation := (7, 7)
    blackKingLocation := (5, 5)
    checkMate := true
    staleMate := false
    enPassantPossible := none
    currentCastlingRight := noRights
    castleRightsLog := [noRights] }

/-- Black checkmated (Black to move). -/
def gsBlackMated : GameState :=
  { board := [
      [none, none, none, none, none, none, none, some (PColor.b, PKind.K)],
      [none, none, none, none, none, none, some (PColor.w, PKind.Q), none],
      [none, none, none, none, none, some (PColor.w, PKind.K), none, none],
      emptyRow, emptyRow, emptyRow, emptyRow, emptyRow]
    whiteToMove := false
    moveLog := []
    whiteKingLocation := (2, 5)
    blackKingLocation := (0, 7)
    checkMate := true
    staleMate := false
    enPassantPossible := none
    currentCastlingRight := noRights
    castleRightsLog := [noRights] }

/-- Black stalemated (Black to move): king h8 smothered by Qf7/Kh6. -/
def gsStalemate : GameState :=
  { board := [
      [none, none, none, none, none, none, none, some (PColor.b, PKind.K)],
      [none, none, none, none, none, some (PColor.w, PKind.Q), none, none],
      [none, none, none, none, none, none, none, some (PColor.w, PKind.K)],
      emptyRow, emptyRow, emptyRow, emptyRow, emptyRow]
    whiteToMove := false
    moveLog := []
    whiteKingLocation := (2, 7)
    blackKingLocation := (0, 7)
    checkMate := false
    staleMate := true
    enPassantPossible := none
    currentCastlingRight := noRights
    castleRightsLog := [noRights] }

/-- The stalemate position of `gsStalemate`, but entered with a stale
`checkMate = true` left over from a previously analysed position — exactly the
state the search leaves behind after visiting a checkmate node (a node's
`getValidMoves` sets `checkMate := true` and no later make/undo clears it). -/
def staleFlagState : GameState :=
  { gsStalemate with checkMate := true, staleMate := false }

/-- Black to move immediately after White's double pawn advance a2–a4: the
en-passant target square is `(5, 0)`. -/
def epState : GameState :=
  { board := [
      [some (PColor.b, PKind.K), none, none, none, none, none, none, none],
      emptyRow, emptyRow, emptyRow,
      [some (PColor.w, PKind.P), none, none, none, none, none, none, none],
      emptyRow, emptyRow,
      [none, none, none, none, none, none, none, some (PColor.w, PKind.K)]]
    whiteToMove := false
    moveLog := []
    whiteKingLocation := (7, 7)
    blackKingLocation := (0, 0)
    checkMate := false
    staleMate := false
    enPassantPossible := some (5, 0)
    currentCastlingRight := noRights
    castleRightsLog := [noRights] }

/-- The king step a8–b8, a legal move of `epState`. -/
def epMove : Move := mkMove (0, 0) (0, 1) epState.board false false

/-- A game from the initial position: 1. g4 b6 2. a3 Bb7 3. a4 Bxh1.
Every move is legal at the state it is applied to (checked in the C3
counterexample theorem); the final move captures the white king-side rook on
its home square h1. -/
def capM1 : Move := mkMove (6, 6) (4, 6) initialGameState.board false false

/-- Position after 1. g4. -/
def capS1 : GameState := makeMove initialGameState capM1

/-- 1... b6. -/
def capM2 : Move := mkMove (1, 1) (2, 1) capS1.board false false

/-- Position after 1... b6. -/
def capS2 : GameState := makeMove capS1 capM2

/-- 2. a3. -/
def capM3 : Move := mkMove (6, 0) (5, 0) capS2.board false false

/-- Position after 2. a3. -/
def capS3 : GameState := makeMove capS2 capM3

/-- 2... Bb7. -/
def capM4 : Move := mkMove (0, 2) (1, 1) capS3.board false false

/-- Position after 2... Bb7. -/
def capS4 : GameState := makeMove capS3 capM4

/-- 3. a4. -/
def capM5 : Move := mkMove (5, 0) (4, 0) capS4.board false false

/-- Position after 3. a4. -/
def capS5 : GameState := makeMove capS4 capM5

/-- 3... Bxh1, capturing the rook on its home square. -/
def capM6 : Move := mkMove (1, 1) (7, 7) capS5.board false false

/-- Position after 3... Bxh1. -/
def capS6 : GameState := makeMove capS5 capM6

/-- Board with a white rook on a2 and a black pawn on b2, for the promotion
flag of `Move.__init__`. -/
def promoBugState : GameState :=
  { board := [
      [some (PColor.b, PKind.K), none, none, none, none, none, none, none],
      emptyRow, emptyRow, emptyRow, emptyRow, emptyRow,
      [some (PColor.w, PKind.R), some (PColor.b, PKind.P), none, none, none, none, none, none],
      [none, none, none, none, none, none, none, some (PColor.w, PKind.K)]]
    whiteToMove := false
    moveLog := []
    whiteKingLocation := (7, 7)
    blackKingLocation := (0, 0)
    checkMate := false
    staleMate := false
    enPassantPossible := none
    currentCastlingRight := noRights
    castleRightsLog := [noRights] }

/-- Two boards that differ in the piece standing on a8. -/
def eqBugBoardA : Board :=
  [[some (PColor.w, PKind.R), none, none, none, none, none, none, none],
   emptyRow, emptyRow, emptyRow, emptyRow, emptyRow, emptyRow, emptyRow]

/-- As `eqBugBoardA` but with a knight on a8. -/
def eqBugBoardB : Board :=
  [[some (PColor.w, PKind.N), none, none, none, none, none, none, none],
   emptyRow, emptyRow, emptyRow, emptyRow, emptyRow, emptyRow, emptyRow]

/-! ## Derived notions used by the verification -/

/-- The four castling wings, selecting one of the `CastleRights` booleans. -/
inductive Wing where
  | wks
  | wqs
  | bks
  | bqs
deriving DecidableEq, Repr

/-- The castling-rights boolean of a wing. -/
def wingRight (cr : CastleRights) : Wing → Bool
  | Wing.wks => cr.wks
  | Wing.wqs => cr.wqs
  | Wing.bks => cr.bks
  | Wing.bqs => cr.bqs

/-- The rook that belongs to a wing. -/
def wingRookPiece : Wing → Cell
  | Wing.wks => some (PColor.w, PKind.R)
  | Wing.wqs => some (PColor.w, PKind.R)
  | Wing.bks => some (PColor.b, PKind.R)
  | Wing.bqs => some (PColor.b, PKind.R)

/-- Home row of a wing's rook. -/
def wingHomeRow : Wing → Int
  | Wing.wks => 7
  | Wing.wqs => 7
  | Wing.bks => 0
  | Wing.bqs => 0

/-- Home column of a wing's rook. -/
def wingHomeCol : Wing → Int
  | Wing.wks => 7
  | Wing.wqs => 0
  | Wing.bks => 7
  | Wing.bqs => 0

/-- Apply a sequence of moves by `makeMove`, left to right. -/
def applyMoves (gs : GameState) (ms : List Move) : GameState :=
  ms.foldl makeMove gs

/-! ## Well-formedness and move-soundness predicates -/

/-! ## Board update lemmas -/

def boardWF (b : Board) : Prop :=
  b.length = 8 ∧ ∀ row ∈ b, row.length = 8

/-- The facts about a move and the board it is applied to that make the
make/undo pair restore the board exactly.  Every move generated by the move
generator on a well-formed state satisfies them (proved below). -/
structure MoveBoardOK (B : Board) (m : Move) : Prop where
  srlo : 0 ≤ m.startRow
  srhi : m.startRow < 8
  sclo : 0 ≤ m.startCol
  schi : m.startCol < 8
  erlo : 0 ≤ m.endRow
  erhi : m.endRow < 8
  eclo : 0 ≤ m.endCol
  echi : m.endCol < 8
  moved_eq : m.pieceMoved = getSq B m.startRow m.startCol
  cap_eq : m.isEnPassantMove = false → m.pieceCaptured = getSq B m.endRow m.endCol
  ep_dst : m.isEnPassantMove = true → getSq B m.endRow m.endCol = none
  ep_cap : m.isEnPassantMove = true → getSq B m.startRow m.endCol = m.pieceCaptured
  ep_row : m.isEnPassantMove = true → m.startRow ≠ m.endRow
  ep_col : m.isEnPassantMove = true → m.startCol ≠ m.endCol
  ep_not_castle : m.isEnPassantMove = true → m.isCastleMove = false
  castle_king : m.isCastleMove = true → cellKind m.pieceMoved = some PKind.K
  castle_row : m.isCastleMove = true → m.endRow = m.startRow
  castle_col : m.isCastleMove = true → m.startCol = 4
  castle_side : m.isCastleMove = true →
    ((m.endCol = 6 ∧ getSq B m.startRow 5 = none) ∨
     (m.endCol = 2 ∧ getSq B m.startRow 3 = none))

/-- `MoveBoardOK` plus agreement of the cached king locations: everything the
make/undo pair needs in order to restore the state. -/
structure MoveOK (gs : GameState) (m : Move) : Prop where
  boardOK : MoveBoardOK gs.board m
  wk_loc : m.pieceMoved = some (PColor.w, PKind.K) →
    gs.whiteKingLocation = (m.startRow, m.startCol)
  bk_loc : m.pieceMoved = some (PColor.b, PKind.K) →
    gs.blackKingLocation = (m.startRow, m.startCol)

/-- The colour of the side to move. -/
def sideColor (gs : GameState) : PColor :=
  if gs.whiteToMove then PColor.w else PColor.b

/-- King bookkeeping: both cached king locations are on the board, hold the
right king, and are the only squares holding that king. -/
def kingsOK (gs : GameState) : Prop :=
  0 ≤ gs.whiteKingLocation.1 ∧ gs.whiteKingLocation.1 < 8 ∧
  0 ≤ gs.whiteKingLocation.2 ∧ gs.whiteKingLocation.2 < 8 ∧
  0 ≤ gs.blackKingLocation.1 ∧ gs.blackKingLocation.1 < 8 ∧
  0 ≤ gs.blackKingLocation.2 ∧ gs.blackKingLocation.2 < 8 ∧
  getSq gs.board gs.whiteKingLocation.1 gs.whiteKingLocation.2
    = some (PColor.w, PKind.K) ∧
  getSq gs.board gs.blackKingLocation.1 gs.blackKingLocation.2
    = some (PColor.b, PKind.K) ∧
  (∀ i : Nat, i < 8 → ∀ j : Nat, j < 8 →
    (getSq gs.board (i : Int) (j : Int) = some (PColor.w, PKind.K) →
      gs.whiteKingLocation = ((i : Int), (j : Int))) ∧
    (getSq gs.board (i : Int) (j : Int) = some (PColor.b, PKind.K) →
      gs.blackKingLocation = ((i : Int), (j : Int))))

/-- No white pawn on rank 8, no black pawn on rank 1 (they promote on make). -/
def pawnsOK (gs : GameState) : Prop :=
  ∀ j : Nat, j < 8 →
    getSq gs.board 0 (j : Int) ≠ some (PColor.w, PKind.P) ∧
    getSq gs.board 7 (j : Int) ≠ some (PColor.b, PKind.P)

/-- The en-passant target, when set, is the square just behind an enemy pawn
that has just advanced two squares (from the side to move's point of view),
and that target square is empty. -/
def epOKb (gs : GameState) : Bool :=
  match gs.enPassantPossible with
  | none => true
  | some (er, ec) =>
    decide (0 ≤ ec) && decide (ec < 8) &&
    (if gs.whiteToMove then
      decide (er = 2) && decide (getSq gs.board 3 ec = some (PColor.b, PKind.P)) &&
        decide (getSq gs.board 2 ec = none)
     else
      decide (er = 5) && decide (getSq gs.board 4 ec = some (PColor.w, PKind.P)) &&
        decide (getSq gs.board 5 ec = none))

/-- Prop form of `epOKb`. -/
def epOK (gs : GameState) : Prop := epOKb gs = true

/-- While a side still holds a castling right its king is on its home square
(king moves clear both rights). -/
def castleHomeOK (gs : GameState) : Prop :=
  ((gs.currentCastlingRight.wks = true ∨ gs.currentCastlingRight.wqs = true) →
    gs.whiteKingLocation = (7, 4)) ∧
  ((gs.currentCastlingRight.bks = true ∨ gs.currentCastlingRight.bqs = true) →
    gs.blackKingLocation = (0, 4))

/-- The king of the side that just moved is not attacked (the legality filter
guarantees this for every position produced by a valid move). -/
def oppKingSafe (gs : GameState) : Bool :=
  if gs.whiteToMove then
    !(underAttack { gs with whiteToMove := false }
        gs.blackKingLocation.1 gs.blackKingLocation.2)
  else
    !(underAttack { gs with whiteToMove := true }
        gs.whiteKingLocation.1 gs.whiteKingLocation.2)

/-- Well-formedness of a `GameState`: the invariants §3 of the specification
lists for a Position, all maintained by the engine along reachable play.
`reachable` in the claims is formalised as `WF`. -/
def WF (gs : GameState) : Prop :=
  boardWF gs.board ∧ kingsOK gs ∧ epOK gs ∧ pawnsOK gs ∧ castleHomeOK gs ∧
  gs.castleRightsLog.getLast? = some gs.currentCastlingRight ∧
  oppKingSafe gs = true

/-- Equality of two states on every field except `enPassantPossible`: the
make/undo pairs of the legality filter and of the search restore exactly
these fields. -/
def coreEq (gs s : GameState) : Prop :=
  s.board = gs.board ∧ s.whiteToMove = gs.whiteToMove ∧
  s.moveLog = gs.moveLog ∧
  s.whiteKingLocation = gs.whiteKingLocation ∧
  s.blackKingLocation = gs.blackKingLocation ∧
  s.checkMate = gs.checkMate ∧ s.staleMate = gs.staleMate ∧
  s.currentCastlingRight = gs.currentCastlingRight ∧
  s.castleRightsLog = gs.castleRightsLog

/-- The boolean of the in-check test the legality filter runs after making a
move: `inCheck` on the made state with the turn flipped back to the mover. -/
def postMoveCheck (gs : GameState) (m : Move) : Bool :=
  (inCheck { makeMove gs m with
    whiteToMove := !(makeMove gs m).whiteToMove }).1

/-! ## Claim theorems -/

set_option maxRecDepth 1000000
set_option synthInstance.maxSize 5000

/-! ### Helper lemmas -/

theorem idx8_inrange (n : Int) (h0 : 0 ≤ n) (h8 : n < 8) : idx8 n = some n.toNat := by
  unfold idx8
  rw [if_pos ⟨h0, h8⟩]

theorem idx8_lt (n : Int) (i : Nat) (h : idx8 n = some i) : i < 8 := by
  unfold idx8 at h
  split_ifs at h with h1 h2 <;> simp_all <;> omega

theorem getSq_inrange (b : Board) (r c : Int) (hr0 : 0 ≤ r) (hr8 : r < 8)
    (hc0 : 0 ≤ c) (hc8 : c < 8) :
    getSq b r c = (b.getD r.toNat []).getD c.toNat none := by
  unfold getSq
  rw [idx8_inrange r hr0 hr8, idx8_inrange c hc0 hc8]

theorem setSq_inrange (b : Board) (r c : Int) (v : Cell) (hr0 : 0 ≤ r) (hr8 : r < 8)
    (hc0 : 0 ≤ c) (hc8 : c < 8) :
    setSq b r c v = b.set r.toNat ((b.getD r.toNat []).set c.toNat v) := by
  unfold setSq
  rw [idx8_inrange r hr0 hr8, idx8_inrange c hc0 hc8]

theorem getD_set_self_list (b : Board) (i : Nat) (x : List Cell) (hib : i < b.length) :
    (b.set i x).getD i [] = x := by
  rw [List.getD_eq_getElem?_getD, List.getElem?_set_self (by simpa using hib),
      Option.getD_some]

theorem getD_set_ne_list (b : Board) (i i' : Nat) (x : List Cell) (h : i ≠ i') :
    (b.set i x).getD i' [] = b.getD i' [] := by
  rw [List.getD_eq_getElem?_getD, List.getElem?_set_ne h,
      ← List.getD_eq_getElem?_getD]

theorem getD_set_self_cell (row : List Cell) (j : Nat) (v : Cell)
    (hjb : j < row.length) :
    (row.set j v).getD j none = v := by
  rw [List.getD_eq_getElem?_getD, List.getElem?_set_self hjb, Option.getD_some]

theorem getD_set_ne_cell (row : List Cell) (j j' : Nat) (v : Cell) (h : j ≠ j') :
    (row.set j v).getD j' none = row.getD j' none := by
  rw [List.getD_eq_getElem?_getD, List.getElem?_set_ne h,
      ← List.getD_eq_getElem?_getD]

theorem boardWF_setSq (b : Board) (r c : Int) (v : Cell) (h : boardWF b) :
    boardWF (setSq b r c v) := by
  unfold setSq
  rcases h with ⟨hlen, hrow⟩
  match hi : idx8 r, hj : idx8 c with
  | some i, some j =>
    refine ⟨by simpa using hlen, ?_⟩
    intro row hmem
    rcases List.mem_or_eq_of_mem_set hmem with h1 | h2
    · exact hrow row h1
    · subst h2
      have hib : i < b.length := by rw [hlen]; exact idx8_lt r i hi
      simp only [List.length_set]
      rw [List.getD_eq_getElem b [] hib]
      exact hrow _ (List.getElem_mem hib)
  | some _, none => exact ⟨hlen, hrow⟩
  | none, _ => exact ⟨hlen, hrow⟩

theorem getSq_setSq_same (b : Board) (r c : Int) (v : Cell) (hb : boardWF b)
    (hr0 : 0 ≤ r) (hr8 : r < 8) (hc0 : 0 ≤ c) (hc8 : c < 8) :
    getSq (setSq b r c v) r c = v := by
  obtain ⟨hlen, hrow⟩ := hb
  rw [setSq_inrange b r c v hr0 hr8 hc0 hc8,
      getSq_inrange _ r c hr0 hr8 hc0 hc8]
  have hib : r.toNat < b.length := by omega
  have hjb : c.toNat < (b.getD r.toNat []).length := by
    rw [List.getD_eq_getElem b [] hib, hrow _ (List.getElem_mem hib)]; omega
  rw [getD_set_self_list b _ _ hib, getD_set_self_cell _ _ _ hjb]

theorem getSq_setSq_other (b : Board) (r c r' c' : Int) (v : Cell)
    (hr0 : 0 ≤ r) (hr8 : r < 8) (hc0 : 0 ≤ c) (hc8 : c < 8)
    (hr0' : 0 ≤ r') (hr8' : r' < 8) (hc0' : 0 ≤ c') (hc8' : c' < 8)
    (hne : r ≠ r' ∨ c ≠ c') :
    getSq (setSq b r c v) r' c' = getSq b r' c' := by
  rw [setSq_inrange b r c v hr0 hr8 hc0 hc8,
      getSq_inrange _ r' c' hr0' hr8' hc0' hc8',
      getSq_inrange b r' c' hr0' hr8' hc0' hc8']
  by_cases hrr : r.toNat = r'.toNat
  · have hcc : c.toNat ≠ c'.toNat := by omega
    by_cases hib : r.toNat < b.length
    · rw [← hrr, getD_set_self_list b _ _ hib, getD_set_ne_cell _ _ _ _ hcc]
    · rw [List.set_eq_of_length_le (by omega), ← hrr]
  · rw [getD_set_ne_list b _ _ _ hrr]

theorem board_ext (b1 b2 : Board) (h1 : boardWF b1) (h2 : boardWF b2)
    (h : ∀ i j : Nat, i < 8 → j < 8 →
      getSq b1 (i : Int) (j : Int) = getSq b2 (i : Int) (j : Int)) :
    b1 = b2 := by
  obtain ⟨hl1, hr1⟩ := h1
  obtain ⟨hl2, hr2⟩ := h2
  apply List.ext_getElem (by omega)
  intro i hi1 hi2
  have hrow1 : b1[i].length = 8 := hr1 _ (List.getElem_mem hi1)
  have hrow2 : b2[i].length = 8 := hr2 _ (List.getElem_mem hi2)
  apply List.ext_getElem (by omega)
  intro j hj1 hj2
  have hcell := h i j (by omega) (by omega)
  rw [getSq_inrange b1 _ _ (by omega) (by omega) (by omega) (by omega),
      getSq_inrange b2 _ _ (by omega) (by omega) (by omega) (by omega)] at hcell
  simp only [Int.toNat_natCast] at hcell
  rw [List.getD_eq_getElem b1 [] (by omega), List.getD_eq_getElem b2 [] (by omega)] at hcell
  rw [List.getD_eq_getElem _ none (by omega), List.getD_eq_getElem _ none (by omega)] at hcell
  exact hcell

theorem getSq_promoStep_off (b : Board) (m : Move) (x y : Int)
    (her0 : 0 ≤ m.endRow) (her8 : m.endRow < 8)
    (hec0 : 0 ≤ m.endCol) (hec8 : m.endCol < 8)
    (hx0 : 0 ≤ x) (hx8 : x < 8) (hy0 : 0 ≤ y) (hy8 : y < 8)
    (hne : m.endRow ≠ x ∨ m.endCol ≠ y) :
    getSq (promoStep b m) x y = getSq b x y := by
  unfold promoStep
  rcases hpm : m.pieceMoved with _ | ⟨cl, k⟩
  · rfl
  · cases k
    case P =>
      dsimp only
      split
      · exact getSq_setSq_other b m.endRow m.endCol x y _
          her0 her8 hec0 hec8 hx0 hx8 hy0 hy8 hne
      · rfl
    all_goals rfl

theorem boardWF_promoStep (b : Board) (m : Move) (h : boardWF b) :
    boardWF (promoStep b m) := by
  unfold promoStep
  rcases m.pieceMoved with _ | ⟨cl, k⟩
  · exact h
  · cases k
    case P =>
      dsimp only
      split
      · exact boardWF_setSq _ _ _ _ h
      · exact h
    all_goals exact h

theorem boardWF_makeBoard (B : Board) (m : Move) (h : boardWF B) :
    boardWF (makeBoard B m) := by
  unfold makeBoard
  repeat' split
  all_goals repeat first | apply boardWF_setSq | apply boardWF_promoStep
  all_goals exact h

theorem undo_make_plain (B : Board) (m : Move) (hwf : boardWF B)
    (hb : MoveBoardOK B m)
    (hcast : m.isCastleMove = false) (hep : m.isEnPassantMove = false) :
    undoBoard (makeBoard B m) m = B := by
  have hwfM : boardWF (makeBoard B m) := boardWF_makeBoard B m hwf
  have hwfU1 : boardWF (setSq (makeBoard B m) m.startRow m.startCol m.pieceMoved) :=
    boardWF_setSq _ _ _ _ hwfM
  unfold undoBoard
  simp only [hep, hcast, Bool.false_eq_true, if_false]
  apply board_ext _ _ (boardWF_setSq _ _ _ _ hwfU1) hwf
  intro i j hi hj
  have hi0 : (0 : Int) ≤ (i : Int) := by omega
  have hi8 : (i : Int) < 8 := by omega
  have hj0 : (0 : Int) ≤ (j : Int) := by omega
  have hj8 : (j : Int) < 8 := by omega
  by_cases hE : (i : Int) = m.endRow ∧ (j : Int) = m.endCol
  · rw [hE.1, hE.2, getSq_setSq_same _ _ _ _ hwfU1 hb.erlo hb.erhi hb.eclo hb.echi,
        (hb.cap_eq hep)]
  · have hneE : m.endRow ≠ (i : Int) ∨ m.endCol ≠ (j : Int) := by omega
    rw [getSq_setSq_other _ _ _ _ _ _ hb.erlo hb.erhi hb.eclo hb.echi
        hi0 hi8 hj0 hj8 hneE]
    by_cases hS : (i : Int) = m.startRow ∧ (j : Int) = m.startCol
    · rw [hS.1, hS.2, getSq_setSq_same _ _ _ _ hwfM hb.srlo hb.srhi hb.sclo hb.schi,
          hb.moved_eq]
    · have hneS : m.startRow ≠ (i : Int) ∨ m.startCol ≠ (j : Int) := by omega
      rw [getSq_setSq_other _ _ _ _ _ _ hb.srlo hb.srhi hb.sclo hb.schi
          hi0 hi8 hj0 hj8 hneS]
      unfold makeBoard
      simp only [hep, hcast, Bool.false_eq_true, if_false]
      rw [getSq_promoStep_off _ _ _ _ hb.erlo hb.erhi hb.eclo hb.echi
          hi0 hi8 hj0 hj8 hneE]
      rw [getSq_setSq_other _ _ _ _ _ _ hb.erlo hb.erhi hb.eclo hb.echi
          hi0 hi8 hj0 hj8 hneE]
      rw [getSq_setSq_other _ _ _ _ _ _ hb.srlo hb.srhi hb.sclo hb.schi
          hi0 hi8 hj0 hj8 hneS]

theorem promoStep_king (b : Board) (m : Move) (cl : PColor)
    (hpm : m.pieceMoved = some (cl, PKind.K)) : promoStep b m = b := by
  unfold promoStep
  rw [hpm]

theorem undo_make_ep (B : Board) (m : Move) (hwf : boardWF B)
    (hb : MoveBoardOK B m) (hep : m.isEnPassantMove = true) :
    undoBoard (makeBoard B m) m = B := by
  have hcast : m.isCastleMove = false := hb.ep_not_castle hep
  have hrow := hb.ep_row hep
  have hcol := hb.ep_col hep
  have b1 := hb.srlo; have b2 := hb.srhi; have b3 := hb.sclo; have b4 := hb.schi
  have b5 := hb.erlo; have b6 := hb.erhi; have b7 := hb.eclo; have b8 := hb.echi
  have hwfM : boardWF (makeBoard B m) := boardWF_makeBoard B m hwf
  have hwfU1 : boardWF (setSq (makeBoard B m) m.startRow m.startCol m.pieceMoved) :=
    boardWF_setSq _ _ _ _ hwfM
  have hwfU2 : boardWF (setSq (setSq (makeBoard B m) m.startRow m.startCol
      m.pieceMoved) m.endRow m.endCol m.pieceCaptured) := boardWF_setSq _ _ _ _ hwfU1
  have hwfU3 : boardWF (setSq (setSq (setSq (makeBoard B m) m.startRow m.startCol
      m.pieceMoved) m.endRow m.endCol m.pieceCaptured) m.endRow m.endCol none) :=
    boardWF_setSq _ _ _ _ hwfU2
  unfold undoBoard
  simp only [hep, hcast, Bool.false_eq_true, if_false, if_true]
  apply board_ext _ _ (boardWF_setSq _ _ _ _ hwfU3) hwf
  intro i j hi hj
  have hi0 : (0 : Int) <= (i : Int) := by omega
  have hi8 : (i : Int) < 8 := by omega
  have hj0 : (0 : Int) <= (j : Int) := by omega
  have hj8 : (j : Int) < 8 := by omega
  by_cases hP : (i : Int) = m.startRow ∧ (j : Int) = m.endCol
  · rw [hP.1, hP.2,
        getSq_setSq_same _ _ _ _ hwfU3 b1 b2 b7 b8,
        hb.ep_cap hep]
  · rw [getSq_setSq_other _ m.startRow m.endCol (i : Int) (j : Int) _
        b1 b2 b7 b8 hi0 hi8 hj0 hj8 (by omega)]
    by_cases hE : (i : Int) = m.endRow ∧ (j : Int) = m.endCol
    · rw [hE.1, hE.2,
          getSq_setSq_same _ _ _ _ hwfU2 b5 b6 b7 b8,
          hb.ep_dst hep]
    · rw [getSq_setSq_other _ m.endRow m.endCol (i : Int) (j : Int) _
          b5 b6 b7 b8 hi0 hi8 hj0 hj8 (by omega)]
      by_cases hS : (i : Int) = m.startRow ∧ (j : Int) = m.startCol
      · rw [hS.1, hS.2,
            getSq_setSq_other _ m.endRow m.endCol m.startRow m.startCol _
              b5 b6 b7 b8 b1 b2 b3 b4 (by omega),
            getSq_setSq_same _ _ _ _ hwfM b1 b2 b3 b4,
            hb.moved_eq]
      · rw [getSq_setSq_other _ m.endRow m.endCol (i : Int) (j : Int) _
            b5 b6 b7 b8 hi0 hi8 hj0 hj8 (by omega)]
        rw [getSq_setSq_other _ m.startRow m.startCol (i : Int) (j : Int) _
            b1 b2 b3 b4 hi0 hi8 hj0 hj8 (by omega)]
        unfold makeBoard
        simp only [hep, hcast, Bool.false_eq_true, if_false, if_true]
        rw [getSq_setSq_other _ m.startRow m.endCol (i : Int) (j : Int) _
            b1 b2 b7 b8 hi0 hi8 hj0 hj8 (by omega)]
        rw [getSq_promoStep_off _ _ _ _ b5 b6 b7 b8 hi0 hi8 hj0 hj8 (by omega)]
        rw [getSq_setSq_other _ m.endRow m.endCol (i : Int) (j : Int) _
            b5 b6 b7 b8 hi0 hi8 hj0 hj8 (by omega)]
        rw [getSq_setSq_other _ m.startRow m.startCol (i : Int) (j : Int) _
            b1 b2 b3 b4 hi0 hi8 hj0 hj8 (by omega)]

theorem undo_make_castle (B : Board) (m : Move) (hwf : boardWF B)
    (hb : MoveBoardOK B m) (hcast : m.isCastleMove = true) :
    undoBoard (makeBoard B m) m = B := by
  have hep : m.isEnPassantMove = false := by
    cases h : m.isEnPassantMove
    · rfl
    · exact absurd hcast (by simp [hb.ep_not_castle h])
  obtain ⟨cl, hpm⟩ : ∃ cl, m.pieceMoved = some (cl, PKind.K) := by
    have hk := hb.castle_king hcast
    rcases hp : m.pieceMoved with _ | ⟨c2, k⟩
    · rw [hp] at hk; simp [cellKind] at hk
    · rw [hp] at hk
      have hkk : k = PKind.K := by simpa [cellKind] using hk
      exact ⟨c2, by rw [hkk]⟩
  have hrow : m.endRow = m.startRow := hb.castle_row hcast
  have hcol4 : m.startCol = 4 := hb.castle_col hcast
  have b1 := hb.srlo; have b2 := hb.srhi
  have hmv : m.pieceMoved = getSq B m.startRow 4 := by rw [hb.moved_eq, hcol4]
  rcases hb.castle_side hcast with ⟨hec, hemp⟩ | ⟨hec, hemp⟩
  · -- king side: king e→g, rook h→f
    have hcap : m.pieceCaptured = getSq B m.startRow 6 := by
      rw [hb.cap_eq hep, hrow, hec]
    have hM : makeBoard B m =
        setSq (setSq (setSq (setSq B m.startRow 4 none) m.startRow 6 m.pieceMoved)
            m.startRow 5
            (getSq (setSq (setSq B m.startRow 4 none) m.startRow 6 m.pieceMoved)
              m.startRow 7))
          m.startRow 7 none := by
      unfold makeBoard
      rw [promoStep_king _ _ _ hpm]
      simp only [hep, hcast, hrow, hec, hcol4, Bool.false_eq_true, if_false, if_true]
      norm_num
    have hrookM : getSq (setSq (setSq B m.startRow 4 none) m.startRow 6 m.pieceMoved)
        m.startRow 7 = getSq B m.startRow 7 := by
      rw [getSq_setSq_other _ m.startRow 6 m.startRow 7 _ b1 b2 (by norm_num)
            (by norm_num) b1 b2 (by norm_num) (by norm_num) (by omega),
          getSq_setSq_other _ m.startRow 4 m.startRow 7 _ b1 b2 (by norm_num)
            (by norm_num) b1 b2 (by norm_num) (by norm_num) (by omega)]
    rw [hM, hrookM]
    unfold undoBoard
    simp only [hep, hcast, hrow, hec, hcol4, Bool.false_eq_true, if_false, if_true]
    norm_num
    have hrookU : getSq (setSq (setSq (setSq (setSq (setSq (setSq B
        m.startRow 4 none) m.startRow 6 m.pieceMoved) m.startRow 5
        (getSq B m.startRow 7)) m.startRow 7 none) m.startRow 4 m.pieceMoved)
        m.startRow 6 m.pieceCaptured) m.startRow 5 = getSq B m.startRow 7 := by
      rw [getSq_setSq_other _ m.startRow 6 m.startRow 5 _ b1 b2 (by norm_num)
            (by norm_num) b1 b2 (by norm_num) (by norm_num) (by omega),
          getSq_setSq_other _ m.startRow 4 m.startRow 5 _ b1 b2 (by norm_num)
            (by norm_num) b1 b2 (by norm_num) (by norm_num) (by omega),
          getSq_setSq_other _ m.startRow 7 m.startRow 5 _ b1 b2 (by norm_num)
            (by norm_num) b1 b2 (by norm_num) (by norm_num) (by omega),
          getSq_setSq_same _ m.startRow 5 _
            (by repeat first | apply boardWF_setSq | exact hwf)
            b1 b2 (by norm_num) (by norm_num)]
    rw [hrookU]
    apply board_ext _ _ (by repeat first | apply boardWF_setSq | exact hwf) hwf
    intro i j hi hj
    have hi0 : (0 : Int) ≤ (i : Int) := by omega
    have hi8 : (i : Int) < 8 := by omega
    have hj0 : (0 : Int) ≤ (j : Int) := by omega
    have hj8 : (j : Int) < 8 := by omega
    by_cases hx : (i : Int) = m.startRow
    · rw [hx]
      by_cases h5 : (j : Int) = 5
      · rw [h5, getSq_setSq_same _ m.startRow 5 _
            (by repeat first | apply boardWF_setSq | exact hwf)
            b1 b2 (by norm_num) (by norm_num), hemp]
      · rw [getSq_setSq_other _ m.startRow 5 m.startRow (j : Int) _ b1 b2
            (by norm_num) (by norm_num) b1 b2 hj0 hj8 (by omega)]
        by_cases h7 : (j : Int) = 7
        · rw [h7, getSq_setSq_same _ m.startRow 7 _
              (by repeat first | apply boardWF_setSq | exact hwf)
              b1 b2 (by norm_num) (by norm_num)]
        · rw [getSq_setSq_other _ m.startRow 7 m.startRow (j : Int) _ b1 b2
              (by norm_num) (by norm_num) b1 b2 hj0 hj8 (by omega)]
          by_cases h6 : (j : Int) = 6
          · rw [h6, getSq_setSq_same _ m.startRow 6 _
                (by repeat first | apply boardWF_setSq | exact hwf)
                b1 b2 (by norm_num) (by norm_num), hcap]
          · rw [getSq_setSq_other _ m.startRow 6 m.startRow (j : Int) _ b1 b2
                (by norm_num) (by norm_num) b1 b2 hj0 hj8 (by omega)]
            by_cases h4 : (j : Int) = 4
            · rw [h4, getSq_setSq_same _ m.startRow 4 _
                  (by repeat first | apply boardWF_setSq | exact hwf)
                  b1 b2 (by norm_num) (by norm_num), hmv]
            · rw [getSq_setSq_other _ m.startRow 4 m.startRow (j : Int) _ b1 b2
                  (by norm_num) (by norm_num) b1 b2 hj0 hj8 (by omega),
                  getSq_setSq_other _ m.startRow 7 m.startRow (j : Int) _ b1 b2
                    (by norm_num) (by norm_num) b1 b2 hj0 hj8 (by omega),
                  getSq_setSq_other _ m.startRow 5 m.startRow (j : Int) _ b1 b2
                    (by norm_num) (by norm_num) b1 b2 hj0 hj8 (by omega),
                  getSq_setSq_other _ m.startRow 6 m.startRow (j : Int) _ b1 b2
                    (by norm_num) (by norm_num) b1 b2 hj0 hj8 (by omega),
                  getSq_setSq_other _ m.startRow 4 m.startRow (j : Int) _ b1 b2
                    (by norm_num) (by norm_num) b1 b2 hj0 hj8 (by omega)]
    · rw [getSq_setSq_other _ m.startRow 5 (i : Int) (j : Int) _ b1 b2
            (by norm_num) (by norm_num) hi0 hi8 hj0 hj8 (by omega),
          getSq_setSq_other _ m.startRow 7 (i : Int) (j : Int) _ b1 b2
            (by norm_num) (by norm_num) hi0 hi8 hj0 hj8 (by omega),
          getSq_setSq_other _ m.startRow 6 (i : Int) (j : Int) _ b1 b2
            (by norm_num) (by norm_num) hi0 hi8 hj0 hj8 (by omega),
          getSq_setSq_other _ m.startRow 4 (i : Int) (j : Int) _ b1 b2
            (by norm_num) (by norm_num) hi0 hi8 hj0 hj8 (by omega),
          getSq_setSq_other _ m.startRow 7 (i : Int) (j : Int) _ b1 b2
            (by norm_num) (by norm_num) hi0 hi8 hj0 hj8 (by omega),
          getSq_setSq_other _ m.startRow 5 (i : Int) (j : Int) _ b1 b2
            (by norm_num) (by norm_num) hi0 hi8 hj0 hj8 (by omega),
          getSq_setSq_other _ m.startRow 6 (i : Int) (j : Int) _ b1 b2
            (by norm_num) (by norm_num) hi0 hi8 hj0 hj8 (by omega),
          getSq_setSq_other _ m.startRow 4 (i : Int) (j : Int) _ b1 b2
            (by norm_num) (by norm_num) hi0 hi8 hj0 hj8 (by omega)]
  · -- queen side: king e→c, rook a→d
    have hcap : m.pieceCaptured = getSq B m.startRow 2 := by
      rw [hb.cap_eq hep, hrow, hec]
    have hM : makeBoard B m =
        setSq (setSq (setSq (setSq B m.startRow 4 none) m.startRow 2 m.pieceMoved)
            m.startRow 3
            (getSq (setSq (setSq B m.startRow 4 none) m.startRow 2 m.pieceMoved)
              m.startRow 0))
          m.startRow 0 none := by
      unfold makeBoard
      rw [promoStep_king _ _ _ hpm]
      simp only [hep, hcast, hrow, hec, hcol4, Bool.false_eq_true, if_false, if_true]
      norm_num
    have hrookM : getSq (setSq (setSq B m.startRow 4 none) m.startRow 2 m.pieceMoved)
        m.startRow 0 = getSq B m.startRow 0 := by
      rw [getSq_setSq_other _ m.startRow 2 m.startRow 0 _ b1 b2 (by norm_num)
            (by norm_num) b1 b2 (by norm_num) (by norm_num) (by omega),
          getSq_setSq_other _ m.startRow 4 m.startRow 0 _ b1 b2 (by norm_num)
            (by norm_num) b1 b2 (by norm_num) (by norm_num) (by omega)]
    rw [hM, hrookM]
    unfold undoBoard
    simp only [hep, hcast, hrow, hec, hcol4, Bool.false_eq_true, if_false, if_true]
    norm_num
    have hrookU : getSq (setSq (setSq (setSq (setSq (setSq (setSq B
        m.startRow 4 none) m.startRow 2 m.pieceMoved) m.startRow 3
        (getSq B m.startRow 0)) m.startRow 0 none) m.startRow 4 m.pieceMoved)
        m.startRow 2 m.pieceCaptured) m.startRow 3 = getSq B m.startRow 0 := by
      rw [getSq_setSq_other _ m.startRow 2 m.startRow 3 _ b1 b2 (by norm_num)
            (by norm_num) b1 b2 (by norm_num) (by norm_num) (by omega),
          getSq_setSq_other _ m.startRow 4 m.startRow 3 _ b1 b2 (by norm_num)
            (by norm_num) b1 b2 (by norm_num) (by norm_num) (by omega),
          getSq_setSq_other _ m.startRow 0 m.startRow 3 _ b1 b2 (by norm_num)
            (by norm_num) b1 b2 (by norm_num) (by norm_num) (by omega),
          getSq_setSq_same _ m.startRow 3 _
            (by repeat first | apply boardWF_setSq | exact hwf)
            b1 b2 (by norm_num) (by norm_num)]
    rw [hrookU]
    apply board_ext _ _ (by repeat first | apply boardWF_setSq | exact hwf) hwf
    intro i j hi hj
    have hi0 : (0 : Int) ≤ (i : Int) := by omega
    have hi8 : (i : Int) < 8 := by omega
    have hj0 : (0 : Int) ≤ (j : Int) := by omega
    have hj8 : (j : Int) < 8 := by omega
    by_cases hx : (i : Int) = m.startRow
    · rw [hx]
      by_cases h3 : (j : Int) = 3
      · rw [h3, getSq_setSq_same _ m.startRow 3 _
            (by repeat first | apply boardWF_setSq | exact hwf)
            b1 b2 (by norm_num) (by norm_num), hemp]
      · rw [getSq_setSq_other _ m.startRow 3 m.startRow (j : Int) _ b1 b2
            (by norm_num) (by norm_num) b1 b2 hj0 hj8 (by omega)]
        by_cases h0 : (j : Int) = 0
        · rw [h0, getSq_setSq_same _ m.startRow 0 _
              (by repeat first | apply boardWF_setSq | exact hwf)
              b1 b2 (by norm_num) (by norm_num)]
        · rw [getSq_setSq_other _ m.startRow 0 m.startRow (j : Int) _ b1 b2
              (by norm_num) (by norm_num) b1 b2 hj0 hj8 (by omega)]
          by_cases h2 : (j : Int) = 2
          · rw [h2, getSq_setSq_same _ m.startRow 2 _
                (by repeat first | apply boardWF_setSq | exact hwf)
                b1 b2 (by norm_num) (by norm_num), hcap]
          · rw [getSq_setSq_other _ m.startRow 2 m.startRow (j : Int) _ b1 b2
                (by norm_num) (by norm_num) b1 b2 hj0 hj8 (by omega)]
            by_cases h4 : (j : Int) = 4
            · rw [h4, getSq_setSq_same _ m.startRow 4 _
                  (by repeat first | apply boardWF_setSq | exact hwf)
                  b1 b2 (by norm_num) (by norm_num), hmv]
            · rw [getSq_setSq_other _ m.startRow 4 m.startRow (j : Int) _ b1 b2
                  (by norm_num) (by norm_num) b1 b2 hj0 hj8 (by omega),
                  getSq_setSq_other _ m.startRow 0 m.startRow (j : Int) _ b1 b2
                    (by norm_num) (by norm_num) b1 b2 hj0 hj8 (by omega),
                  getSq_setSq_other _ m.startRow 3 m.startRow (j : Int) _ b1 b2
                    (by norm_num) (by norm_num) b1 b2 hj0 hj8 (by omega),
                  getSq_setSq_other _ m.startRow 2 m.startRow (j : Int) _ b1 b2
                    (by norm_num) (by norm_num) b1 b2 hj0 hj8 (by omega),
                  getSq_setSq_other _ m.startRow 4 m.startRow (j : Int) _ b1 b2
                    (by norm_num) (by norm_num) b1 b2 hj0 hj8 (by omega)]
    · rw [getSq_setSq_other _ m.startRow 3 (i : Int) (j : Int) _ b1 b2
            (by norm_num) (by norm_num) hi0 hi8 hj0 hj8 (by omega),
          getSq_setSq_other _ m.startRow 0 (i : Int) (j : Int) _ b1 b2
            (by norm_num) (by norm_num) hi0 hi8 hj0 hj8 (by omega),
          getSq_setSq_other _ m.startRow 2 (i : Int) (j : Int) _ b1 b2
            (by norm_num) (by norm_num) hi0 hi8 hj0 hj8 (by omega),
          getSq_setSq_other _ m.startRow 4 (i : Int) (j : Int) _ b1 b2
            (by norm_num) (by norm_num) hi0 hi8 hj0 hj8 (by omega),
          getSq_setSq_other _ m.startRow 0 (i : Int) (j : Int) _ b1 b2
            (by norm_num) (by norm_num) hi0 hi8 hj0 hj8 (by omega),
          getSq_setSq_other _ m.startRow 3 (i : Int) (j : Int) _ b1 b2
            (by norm_num) (by norm_num) hi0 hi8 hj0 hj8 (by omega),
          getSq_setSq_other _ m.startRow 2 (i : Int) (j : Int) _ b1 b2
            (by norm_num) (by norm_num) hi0 hi8 hj0 hj8 (by omega),
          getSq_setSq_other _ m.startRow 4 (i : Int) (j : Int) _ b1 b2
            (by norm_num) (by norm_num) hi0 hi8 hj0 hj8 (by omega)]

theorem undoBoard_makeBoard (B : Board) (m : Move) (hwf : boardWF B)
    (hb : MoveBoardOK B m) : undoBoard (makeBoard B m) m = B := by
  by_cases hep : m.isEnPassantMove = true
  · exact undo_make_ep B m hwf hb hep
  · have hep' : m.isEnPassantMove = false := by
      cases h : m.isEnPassantMove
      · rfl
      · exact absurd h hep
    by_cases hcast : m.isCastleMove = true
    · exact undo_make_castle B m hwf hb hcast
    · have hcast' : m.isCastleMove = false := by
        cases h : m.isCastleMove
        · rfl
        · exact absurd h hcast
      exact undo_make_plain B m hwf hb hcast' hep'

theorem make_undo_core (gs : GameState) (m : Move) (hwf : boardWF gs.board)
    (hok : MoveOK gs m)
    (hlog : gs.castleRightsLog.getLast? = some gs.currentCastlingRight) :
    (undoMove (makeMove gs m)).board = gs.board ∧
    (undoMove (makeMove gs m)).whiteToMove = gs.whiteToMove ∧
    (undoMove (makeMove gs m)).whiteKingLocation = gs.whiteKingLocation ∧
    (undoMove (makeMove gs m)).blackKingLocation = gs.blackKingLocation ∧
    (undoMove (makeMove gs m)).currentCastlingRight = gs.currentCastlingRight ∧
    (undoMove (makeMove gs m)).castleRightsLog = gs.castleRightsLog ∧
    (undoMove (makeMove gs m)).moveLog = gs.moveLog ∧
    (undoMove (makeMove gs m)).checkMate = gs.checkMate ∧
    (undoMove (makeMove gs m)).staleMate = gs.staleMate := by
  have hundo : undoMove (makeMove gs m) = undoBody (makeMove gs m) m := by
    unfold undoMove
    have hlast : (makeMove gs m).moveLog.getLast? = some m := by
      show (gs.moveLog ++ [m]).getLast? = some m
      simp
    rw [hlast]
  rw [hundo]
  simp only [undoBody, makeMove]
  refine ⟨?_, by simp, ?_, ?_, ?_, by simp, by simp, by trivial, by trivial⟩
  · exact undoBoard_makeBoard _ _ hwf hok.boardOK
  · split_ifs with h
    · exact (hok.wk_loc h).symm
    · rfl
  · split_ifs with h1 h2
    · rfl
    · exact (hok.bk_loc h2).symm
    · rfl
  · simp only [List.dropLast_concat]
    rw [hlog]
    rfl

theorem epOK_white (gs : GameState) (er ec : Int) (h : epOK gs)
    (hw : gs.whiteToMove = true) (he : gs.enPassantPossible = some (er, ec)) :
    er = 2 ∧ 0 ≤ ec ∧ ec < 8 ∧ getSq gs.board 3 ec = some (PColor.b, PKind.P) ∧
      getSq gs.board 2 ec = none := by
  unfold epOK epOKb at h
  rw [he] at h
  simp only [hw, if_true, Bool.and_eq_true, decide_eq_true_eq] at h
  tauto

theorem epOK_black (gs : GameState) (er ec : Int) (h : epOK gs)
    (hw : gs.whiteToMove = false) (he : gs.enPassantPossible = some (er, ec)) :
    er = 5 ∧ 0 ≤ ec ∧ ec < 8 ∧ getSq gs.board 4 ec = some (PColor.w, PKind.P) ∧
      getSq gs.board 5 ec = none := by
  unfold epOK epOKb at h
  rw [he] at h
  simp only [hw, Bool.false_eq_true, if_false, Bool.and_eq_true, decide_eq_true_eq] at h
  tauto

theorem mkMove_normal_boardOK (B : Board) (r c er ec : Int)
    (h1 : 0 ≤ r) (h2 : r < 8) (h3 : 0 ≤ c) (h4 : c < 8)
    (h5 : 0 ≤ er) (h6 : er < 8) (h7 : 0 ≤ ec) (h8 : ec < 8) :
    MoveBoardOK B (mkMove (r, c) (er, ec) B false false) := by
  refine ⟨h1, h2, h3, h4, h5, h6, h7, h8, rfl, fun _ => rfl,
    ?_, ?_, ?_, ?_, ?_, ?_, ?_, ?_, ?_⟩ <;>
    · intro h
      simp [mkMove] at h

theorem rayMoves_ok (gs : GameState) (r c dr dc : Int) (enemy : PColor) :
    ∀ (fuel : Nat) (i : Int) (m : Move), m ∈ rayMoves gs r c dr dc enemy fuel i →
      ∃ er ec, 0 ≤ er ∧ er < 8 ∧ 0 ≤ ec ∧ ec < 8 ∧
        m = mkMove (r, c) (er, ec) gs.board false false := by
  intro fuel
  induction fuel with
  | zero =>
    intro i m hm
    simp [rayMoves] at hm
  | succ n ih =>
    intro i m hm
    unfold rayMoves at hm
    dsimp only at hm
    split_ifs at hm with hbound
    · rcases hcell : getSq gs.board (r + dr * i) (c + dc * i) with _ | ⟨pc, k⟩
      · rw [hcell] at hm
        dsimp only at hm
        rcases List.mem_cons.1 hm with h | h
        · exact ⟨r + dr * i, c + dc * i, hbound.1, hbound.2.1, hbound.2.2.1,
            hbound.2.2.2, h⟩
        · exact ih (i + 1) m h
      · rw [hcell] at hm
        dsimp only at hm
        split_ifs at hm with hpc
        · rcases List.mem_cons.1 hm with h | h
          · exact ⟨r + dr * i, c + dc * i, hbound.1, hbound.2.1, hbound.2.2.1,
              hbound.2.2.2, h⟩
          · simp at h
        · simp at hm
    · simp at hm

theorem offsetMoves_ok (gs : GameState) (r c : Int) (ally : PColor)
    (offs : List (Int × Int)) (m : Move)
    (hm : m ∈ offs.flatMap (fun o =>
      let er := r + o.1
      let ec := c + o.2
      if 0 ≤ er ∧ er < 8 ∧ 0 ≤ ec ∧ ec < 8 then
        (if cellColor (getSq gs.board er ec) ≠ some ally then
          [mkMove (r, c) (er, ec) gs.board false false]
         else [])
      else [])) :
    ∃ er ec, 0 ≤ er ∧ er < 8 ∧ 0 ≤ ec ∧ ec < 8 ∧
      m = mkMove (r, c) (er, ec) gs.board false false := by
  rcases List.mem_flatMap.1 hm with ⟨o, _, hmo⟩
  dsimp only at hmo
  by_cases hbnd : 0 ≤ r + o.1 ∧ r + o.1 < 8 ∧ 0 ≤ c + o.2 ∧ c + o.2 < 8
  · rw [if_pos hbnd] at hmo
    split_ifs at hmo with hcol
    · exact ⟨r + o.1, c + o.2, hbnd.1, hbnd.2.1, hbnd.2.2.1, hbnd.2.2.2,
        List.mem_singleton.1 hmo⟩
    · simp at hmo
  · rw [if_neg hbnd] at hmo
    simp at hmo

theorem mkMove_ep_boardOK (B : Board) (r c er ec : Int)
    (h1 : 0 ≤ r) (h2 : r < 8) (h3 : 0 ≤ c) (h4 : c < 8)
    (h5 : 0 ≤ er) (h6 : er < 8) (h7 : 0 ≤ ec) (h8 : ec < 8)
    (hner : r ≠ er) (hnec : c ≠ ec)
    (hdst : getSq B er ec = none)
    (hcap : getSq B r ec = (if getSq B r c = some (PColor.b, PKind.P) then
      some (PColor.w, PKind.P) else some (PColor.b, PKind.P))) :
    MoveBoardOK B (mkMove (r, c) (er, ec) B true false) := by
  refine ⟨h1, h2, h3, h4, h5, h6, h7, h8, rfl, ?_, ?_, ?_, ?_, ?_, ?_, ?_, ?_, ?_, ?_⟩
  · intro h; simp [mkMove] at h
  · intro _; exact hdst
  · intro _; exact hcap
  · intro _; exact hner
  · intro _; exact hnec
  · intro _; rfl
  · intro h; simp [mkMove] at h
  · intro h; simp [mkMove] at h
  · intro h; simp [mkMove] at h
  · intro h; simp [mkMove] at h

theorem pawnMoves_ok (gs : GameState) (r c : Int)
    (hr0 : 0 ≤ r) (hr8 : r < 8) (hc0 : 0 ≤ c) (hc8 : c < 8)
    (hpawns : pawnsOK gs) (hep : epOK gs)
    (hcell : getSq gs.board r c = some (sideColor gs, PKind.P)) :
    ∀ m ∈ getPawnMoves gs r c, MoveBoardOK gs.board m := by
  intro m hm
  unfold getPawnMoves at hm
  by_cases hw : gs.whiteToMove = true
  · rw [if_pos hw] at hm
    have hcw : getSq gs.board r c = some (PColor.w, PKind.P) := by
      unfold sideColor at hcell
      rwa [if_pos hw] at hcell
    have hr1 : 1 ≤ r := by
      by_contra hcon
      have hr00 : r = 0 := by omega
      have hnp := (hpawns c.toNat (by omega)).1
      rw [Int.toNat_of_nonneg hc0] at hnp
      exact hnp (hr00 ▸ hcw)
    rcases List.mem_append.1 hm with hABC | hC
    · rcases List.mem_append.1 hABC with hA | hB
      · by_cases hadv : getSq gs.board (r-1) c = none
        · rw [if_pos hadv] at hA
          rcases List.mem_cons.1 hA with h | h
          · subst h
            exact mkMove_normal_boardOK _ _ _ _ _ hr0 hr8 hc0 hc8
              (by omega) (by omega) hc0 hc8
          · split_ifs at h with hdbl
            · have hme := List.mem_singleton.1 h
              subst hme
              exact mkMove_normal_boardOK _ _ _ _ _ hr0 hr8 hc0 hc8
                (by omega) (by omega) hc0 hc8
            · simp at h
        · rw [if_neg hadv] at hA
          simp at hA
      · split_ifs at hB with hcl hcap hepm
        · have hme := List.mem_singleton.1 hB
          subst hme
          exact mkMove_normal_boardOK _ _ _ _ _ hr0 hr8 hc0 hc8
            (by omega) (by omega) (by omega) (by omega)
        · have hme := List.mem_singleton.1 hB
          subst hme
          obtain ⟨he2, hle, hlt, hbp, hnone⟩ :=
            epOK_white gs (r - 1) (c - 1) hep hw hepm
          refine mkMove_ep_boardOK gs.board r c (r-1) (c-1)
            hr0 hr8 hc0 hc8 (by omega) (by omega) (by omega) (by omega)
            (by omega) (by omega) ?_ ?_
          · rw [show r - 1 = (2 : Int) from he2]
            exact hnone
          · rw [hcw]
            have hr3 : r = 3 := by omega
            rw [hr3]
            simpa using hbp
        · simp at hB
        · simp at hB
    · split_ifs at hC with hcl hcap hepm
      · have hme := List.mem_singleton.1 hC
        subst hme
        exact mkMove_normal_boardOK _ _ _ _ _ hr0 hr8 hc0 hc8
          (by omega) (by omega) (by omega) (by omega)
      · have hme := List.mem_singleton.1 hC
        subst hme
        obtain ⟨he2, hle, hlt, hbp, hnone⟩ :=
          epOK_white gs (r - 1) (c + 1) hep hw hepm
        refine mkMove_ep_boardOK gs.board r c (r-1) (c+1)
          hr0 hr8 hc0 hc8 (by omega) (by omega) (by omega) (by omega)
          (by omega) (by omega) ?_ ?_
        · rw [show r - 1 = (2 : Int) from he2]
          exact hnone
        · rw [hcw]
          have hr3 : r = 3 := by omega
          rw [hr3]
          simpa using hbp
      · simp at hC
      · simp at hC
  · rw [if_neg hw] at hm
    have hwf : gs.whiteToMove = false := by
      cases h : gs.whiteToMove
      · rfl
      · exact absurd h hw
    have hcb : getSq gs.board r c = some (PColor.b, PKind.P) := by
      unfold sideColor at hcell
      rwa [if_neg hw] at hcell
    have hr6 : r ≤ 6 := by
      by_contra hcon
      have hr77 : r = 7 := by omega
      have hnp := (hpawns c.toNat (by omega)).2
      rw [Int.toNat_of_nonneg hc0] at hnp
      exact hnp (hr77 ▸ hcb)
    rcases List.mem_append.1 hm with hABC | hC
    · rcases List.mem_append.1 hABC with hA | hB
      · by_cases hadv : getSq gs.board (r+1) c = none
        · rw [if_pos hadv] at hA
          rcases List.mem_cons.1 hA with h | h
          · subst h
            exact mkMove_normal_boardOK _ _ _ _ _ hr0 hr8 hc0 hc8
              (by omega) (by omega) hc0 hc8
          · split_ifs at h with hdbl
            · have hme := List.mem_singleton.1 h
              subst hme
              exact mkMove_normal_boardOK _ _ _ _ _ hr0 hr8 hc0 hc8
                (by omega) (by omega) hc0 hc8
            · simp at h
        · rw [if_neg hadv] at hA
          simp at hA
      · split_ifs at hB with hcl hcap hepm
        · have hme := List.mem_singleton.1 hB
          subst hme
          exact mkMove_normal_boardOK _ _ _ _ _ hr0 hr8 hc0 hc8
            (by omega) (by omega) (by omega) (by omega)
        · have hme := List.mem_singleton.1 hB
          subst hme
          obtain ⟨he5, hle, hlt, hwp, hnone⟩ :=
            epOK_black gs (r + 1) (c - 1) hep hwf hepm
          refine mkMove_ep_boardOK gs.board r c (r+1) (c-1)
            hr0 hr8 hc0 hc8 (by omega) (by omega) (by omega) (by omega)
            (by omega) (by omega) ?_ ?_
          · rw [show r + 1 = (5 : Int) from he5]
            exact hnone
          · rw [hcb]
            have hr4 : r = 4 := by omega
            rw [hr4]
            simpa using hwp
        · simp at hB
        · simp at hB
    · split_ifs at hC with hcl hcap hepm
      · have hme := List.mem_singleton.1 hC
        subst hme
        exact mkMove_normal_boardOK _ _ _ _ _ hr0 hr8 hc0 hc8
          (by omega) (by omega) (by omega) (by omega)
      · have hme := List.mem_singleton.1 hC
        subst hme
        obtain ⟨he5, hle, hlt, hwp, hnone⟩ :=
          epOK_black gs (r + 1) (c + 1) hep hwf hepm
        refine mkMove_ep_boardOK gs.board r c (r+1) (c+1)
          hr0 hr8 hc0 hc8 (by omega) (by omega) (by omega) (by omega)
          (by omega) (by omega) ?_ ?_
        · rw [show r + 1 = (5 : Int) from he5]
          exact hnone
        · rw [hcb]
          have hr4 : r = 4 := by omega
          rw [hr4]
          simpa using hwp
      · simp at hC
      · simp at hC

theorem mkMove_ks_castle_boardOK (B : Board) (kr : Int) (cl : PColor)
    (hkr0 : 0 ≤ kr) (hkr8 : kr < 8)
    (hcell : getSq B kr 4 = some (cl, PKind.K))
    (hemp : getSq B kr 5 = none) :
    MoveBoardOK B (mkMove (kr, 4) (kr, 6) B false true) := by
  refine ⟨hkr0, hkr8, by simp [mkMove], by simp [mkMove], hkr0, hkr8,
    by simp [mkMove], by simp [mkMove],
    rfl, fun _ => rfl, ?_, ?_, ?_, ?_, ?_, ?_, ?_, ?_, ?_⟩
  · intro h; simp [mkMove] at h
  · intro h; simp [mkMove] at h
  · intro h; simp [mkMove] at h
  · intro h; simp [mkMove] at h
  · intro h; simp [mkMove] at h
  · intro _
    rw [show (mkMove (kr, 4) (kr, 6) B false true).pieceMoved = getSq B kr 4 from rfl,
      hcell]
    rfl
  · intro _; rfl
  · intro _; rfl
  · intro _
    left
    exact ⟨rfl, hemp⟩

theorem mkMove_qs_castle_boardOK (B : Board) (kr : Int) (cl : PColor)
    (hkr0 : 0 ≤ kr) (hkr8 : kr < 8)
    (hcell : getSq B kr 4 = some (cl, PKind.K))
    (hemp : getSq B kr 3 = none) :
    MoveBoardOK B (mkMove (kr, 4) (kr, 2) B false true) := by
  refine ⟨hkr0, hkr8, by simp [mkMove], by simp [mkMove], hkr0, hkr8,
    by simp [mkMove], by simp [mkMove],
    rfl, fun _ => rfl, ?_, ?_, ?_, ?_, ?_, ?_, ?_, ?_, ?_⟩
  · intro h; simp [mkMove] at h
  · intro h; simp [mkMove] at h
  · intro h; simp [mkMove] at h
  · intro h; simp [mkMove] at h
  · intro h; simp [mkMove] at h
  · intro _
    rw [show (mkMove (kr, 4) (kr, 2) B false true).pieceMoved = getSq B kr 4 from rfl,
      hcell]
    rfl
  · intro _; rfl
  · intro _; rfl
  · intro _
    right
    exact ⟨rfl, hemp⟩

theorem ksCastle_ok (gs : GameState) (hwf : WF gs) (kr kc : Int)
    (hloc : (kr, kc) = if gs.whiteToMove = true then gs.whiteKingLocation
      else gs.blackKingLocation)
    (hside : (gs.whiteToMove = true ∧ gs.currentCastlingRight.wks = true) ∨
      (¬gs.whiteToMove = true ∧ gs.currentCastlingRight.bks = true)) :
    ∀ m ∈ getKingSideCastleMoves gs kr kc, MoveOK gs m := by
  intro m hm
  obtain ⟨hbwf, hkings, hepo, hpawns, hcas, hlog, hsafe⟩ := hwf
  obtain ⟨wk1, wk2, wk3, wk4, bk1, bk2, bk3, bk4, hwc, hbc, huniq⟩ := hkings
  unfold getKingSideCastleMoves at hm
  split_ifs at hm with hemp hatk2
  · have hme := List.mem_singleton.1 hm
    by_cases hw : gs.whiteToMove = true
    · have hwks : gs.currentCastlingRight.wks = true := by
        rcases hside with ⟨_, h⟩ | ⟨hnw, _⟩
        · exact h
        · exact absurd hw hnw
      have hk4 : gs.whiteKingLocation = (7, 4) := hcas.1 (Or.inl hwks)
      rw [if_pos hw, hk4] at hloc
      have hkr : kr = 7 := congrArg Prod.fst hloc
      have hkc : kc = 4 := congrArg Prod.snd hloc
      subst hkr; subst hkc
      subst hme
      have hwc7 : getSq gs.board 7 4 = some (PColor.w, PKind.K) := by
        rw [hk4] at hwc
        exact hwc
      refine ⟨?_, ?_, ?_⟩
      · exact mkMove_ks_castle_boardOK gs.board 7 PColor.w (by norm_num)
          (by norm_num) hwc7 hemp.1
      · intro _
        exact hk4
      · intro h
        rw [show (mkMove ((7 : Int), (4 : Int)) (7, 4 + 2) gs.board false
            true).pieceMoved = getSq gs.board 7 4 from rfl, hwc7] at h
        simp at h
    · have hbks : gs.currentCastlingRight.bks = true := by
        rcases hside with ⟨hw2, _⟩ | ⟨_, h⟩
        · exact absurd hw2 hw
        · exact h
      have hk4 : gs.blackKingLocation = (0, 4) := hcas.2 (Or.inl hbks)
      rw [if_neg hw, hk4] at hloc
      have hkr : kr = 0 := congrArg Prod.fst hloc
      have hkc : kc = 4 := congrArg Prod.snd hloc
      subst hkr; subst hkc
      subst hme
      have hbc0 : getSq gs.board 0 4 = some (PColor.b, PKind.K) := by
        rw [hk4] at hbc
        exact hbc
      refine ⟨?_, ?_, ?_⟩
      · exact mkMove_ks_castle_boardOK gs.board 0 PColor.b (by norm_num)
          (by norm_num) hbc0 hemp.1
      · intro h
        rw [show (mkMove ((0 : Int), (4 : Int)) (0, 4 + 2) gs.board false
            true).pieceMoved = getSq gs.board 0 4 from rfl, hbc0] at h
        simp at h
      · intro _
        exact hk4
  · simp at hm
  · simp at hm

theorem qsCastle_ok (gs : GameState) (hwf : WF gs) (kr kc : Int)
    (hloc : (kr, kc) = if gs.whiteToMove = true then gs.whiteKingLocation
      else gs.blackKingLocation)
    (hside : (gs.whiteToMove = true ∧ gs.currentCastlingRight.wqs = true) ∨
      (¬gs.whiteToMove = true ∧ gs.currentCastlingRight.bqs = true)) :
    ∀ m ∈ getQueenSideCastleMoves gs kr kc, MoveOK gs m := by
  intro m hm
  obtain ⟨hbwf, hkings, hepo, hpawns, hcas, hlog, hsafe⟩ := hwf
  obtain ⟨wk1, wk2, wk3, wk4, bk1, bk2, bk3, bk4, hwc, hbc, huniq⟩ := hkings
  unfold getQueenSideCastleMoves at hm
  split_ifs at hm with hemp hatk2
  · have hme := List.mem_singleton.1 hm
    by_cases hw : gs.whiteToMove = true
    · have hwqs : gs.currentCastlingRight.wqs = true := by
        rcases hside with ⟨_, h⟩ | ⟨hnw, _⟩
        · exact h
        · exact absurd hw hnw
      have hk4 : gs.whiteKingLocation = (7, 4) := hcas.1 (Or.inr hwqs)
      rw [if_pos hw, hk4] at hloc
      have hkr : kr = 7 := congrArg Prod.fst hloc
      have hkc : kc = 4 := congrArg Prod.snd hloc
      subst hkr; subst hkc
      subst hme
      have hwc7 : getSq gs.board 7 4 = some (PColor.w, PKind.K) := by
        rw [hk4] at hwc
        exact hwc
      refine ⟨?_, ?_, ?_⟩
      · exact mkMove_qs_castle_boardOK gs.board 7 PColor.w (by norm_num)
          (by norm_num) hwc7 hemp.1
      · intro _
        exact hk4
      · intro h
        rw [show (mkMove ((7 : Int), (4 : Int)) (7, 4 - 2) gs.board false
            true).pieceMoved = getSq gs.board 7 4 from rfl, hwc7] at h
        simp at h
    · have hbqs : gs.currentCastlingRight.bqs = true := by
        rcases hside with ⟨hw2, _⟩ | ⟨_, h⟩
        · exact absurd hw2 hw
        · exact h
      have hk4 : gs.blackKingLocation = (0, 4) := hcas.2 (Or.inr hbqs)
      rw [if_neg hw, hk4] at hloc
      have hkr : kr = 0 := congrArg Prod.fst hloc
      have hkc : kc = 4 := congrArg Prod.snd hloc
      subst hkr; subst hkc
      subst hme
      have hbc0 : getSq gs.board 0 4 = some (PColor.b, PKind.K) := by
        rw [hk4] at hbc
        exact hbc
      refine ⟨?_, ?_, ?_⟩
      · exact mkMove_qs_castle_boardOK gs.board 0 PColor.b (by norm_num)
          (by norm_num) hbc0 hemp.1
      · intro h
        rw [show (mkMove ((0 : Int), (4 : Int)) (0, 4 - 2) gs.board false
            true).pieceMoved = getSq gs.board 0 4 from rfl, hbc0] at h
        simp at h
      · intro _
        exact hk4
  · simp at hm
  · simp at hm

theorem castleMoves_ok (gs : GameState) (hwf : WF gs) (kr kc : Int)
    (hloc : (kr, kc) = if gs.whiteToMove = true then gs.whiteKingLocation
      else gs.blackKingLocation) :
    ∀ m ∈ getCastleMoves gs kr kc, MoveOK gs m := by
  intro m hm
  unfold getCastleMoves at hm
  split_ifs at hm with hatk h1 h2 h3
  · simp at hm
  · rcases List.mem_append.1 hm with hK | hQ
    · exact ksCastle_ok gs hwf kr kc hloc h1 m hK
    · exact qsCastle_ok gs hwf kr kc hloc h2 m hQ
  · rcases List.mem_append.1 hm with hK | hQ
    · exact ksCastle_ok gs hwf kr kc hloc h1 m hK
    · simp at hQ
  · rcases List.mem_append.1 hm with hK | hQ
    · simp at hK
    · exact qsCastle_ok gs hwf kr kc hloc h3 m hQ
  · simp at hm

theorem pawnMoves_start (gs : GameState) (r c : Int) :
    ∀ m ∈ getPawnMoves gs r c, m.startRow = r ∧ m.startCol = c := by
  intro m hm
  unfold getPawnMoves at hm
  split_ifs at hm <;>
    simp only [List.mem_append, List.mem_cons, List.mem_singleton,
      List.not_mem_nil, or_false, false_or] at hm
  all_goals repeat' rcases hm with hm | rfl
  all_goals first
    | exact ⟨rfl, rfl⟩
    | (subst hm; exact ⟨rfl, rfl⟩)

theorem normalExists_MoveOK (gs : GameState) (m : Move) (r c : Int)
    (pc : PColor) (kind : PKind)
    (hr0 : 0 ≤ r) (hr8 : r < 8) (hc0 : 0 ≤ c) (hc8 : c < 8)
    (hcell : getSq gs.board r c = some (pc, kind))
    (hnk : kind ≠ PKind.K)
    (hex : ∃ er ec, 0 ≤ er ∧ er < 8 ∧ 0 ≤ ec ∧ ec < 8 ∧
      m = mkMove (r, c) (er, ec) gs.board false false) :
    MoveOK gs m := by
  obtain ⟨er, ec, e1, e2, e3, e4, hmeq⟩ := hex
  subst hmeq
  refine ⟨mkMove_normal_boardOK _ _ _ _ _ hr0 hr8 hc0 hc8 e1 e2 e3 e4, ?_, ?_⟩
  · intro h
    rw [show (mkMove (r, c) (er, ec) gs.board false false).pieceMoved
        = getSq gs.board r c from rfl, hcell] at h
    simp at h
    exact (hnk h.2).elim
  · intro h
    rw [show (mkMove (r, c) (er, ec) gs.board false false).pieceMoved
        = getSq gs.board r c from rfl, hcell] at h
    simp at h
    exact (hnk h.2).elim

theorem kingExists_MoveOK (gs : GameState) (m : Move) (r c : Int) (pc : PColor)
    (hr0 : 0 ≤ r) (hr8 : r < 8) (hc0 : 0 ≤ c) (hc8 : c < 8)
    (hcell : getSq gs.board r c = some (pc, PKind.K))
    (hwloc : pc = PColor.w → gs.whiteKingLocation = (r, c))
    (hbloc : pc = PColor.b → gs.blackKingLocation = (r, c))
    (hex : ∃ er ec, 0 ≤ er ∧ er < 8 ∧ 0 ≤ ec ∧ ec < 8 ∧
      m = mkMove (r, c) (er, ec) gs.board false false) :
    MoveOK gs m := by
  obtain ⟨er, ec, e1, e2, e3, e4, hmeq⟩ := hex
  subst hmeq
  refine ⟨mkMove_normal_boardOK _ _ _ _ _ hr0 hr8 hc0 hc8 e1 e2 e3 e4, ?_, ?_⟩
  · intro h
    rw [show (mkMove (r, c) (er, ec) gs.board false false).pieceMoved
        = getSq gs.board r c from rfl, hcell] at h
    simp at h
    exact hwloc h
  · intro h
    rw [show (mkMove (r, c) (er, ec) gs.board false false).pieceMoved
        = getSq gs.board r c from rfl, hcell] at h
    simp at h
    exact hbloc h

theorem rayFlatMap_exists (gs : GameState) (r c : Int) (enemy : PColor)
    (dirs : List (Int × Int)) (m : Move)
    (hm : m ∈ dirs.flatMap (fun d => rayMoves gs r c d.1 d.2 enemy 7 1)) :
    ∃ er ec, 0 ≤ er ∧ er < 8 ∧ 0 ≤ ec ∧ ec < 8 ∧
      m = mkMove (r, c) (er, ec) gs.board false false := by
  rcases List.mem_flatMap.1 hm with ⟨d, _, hmr⟩
  exact rayMoves_ok gs r c d.1 d.2 enemy 7 1 m hmr

theorem getAllPossibleMoves_ok (gs : GameState) (hwf : WF gs) :
    ∀ m ∈ getAllPossibleMoves gs, MoveOK gs m := by
  intro m hm
  obtain ⟨hbwf, hkings, hepo, hpawns, hcas, hlog, hsafe⟩ := hwf
  obtain ⟨wk1, wk2, wk3, wk4, bk1, bk2, bk3, bk4, hwc, hbc, huniq⟩ := hkings
  unfold getAllPossibleMoves at hm
  rcases List.mem_flatMap.1 hm with ⟨ri, hri, hm2⟩
  rcases List.mem_flatMap.1 hm2 with ⟨ci, hci, hm3⟩
  have hri8 : ri < 8 := List.mem_range.1 hri
  have hci8 : ci < 8 := List.mem_range.1 hci
  dsimp only at hm3
  rcases hcell : getSq gs.board (ri : Int) (ci : Int) with _ | ⟨pc, kind⟩
  · rw [hcell] at hm3
    simp at hm3
  · rw [hcell] at hm3
    dsimp only at hm3
    split_ifs at hm3 with hside
    · have hcolmatch : pc = sideColor gs := by
        unfold sideColor
        rcases hside with ⟨h1, h2⟩ | ⟨h1, h2⟩
        · rw [if_pos h2, h1]
        · rw [if_neg h2, h1]
      cases kind
      · unfold getKingMoves at hm3
        refine kingExists_MoveOK gs m _ _ pc (by omega) (by omega)
          (by omega) (by omega) hcell ?_ ?_
          (offsetMoves_ok gs _ _ _ _ m hm3)
        · intro hpcw
          exact (huniq ri hri8 ci hci8).1 (by rw [hcell, hpcw])
        · intro hpcb
          exact (huniq ri hri8 ci hci8).2 (by rw [hcell, hpcb])
      · unfold getQueenMoves getRookMoves getBishopMoves at hm3
        rcases List.mem_append.1 hm3 with hq | hq
        · exact normalExists_MoveOK gs m _ _ pc PKind.Q (by omega) (by omega)
            (by omega) (by omega) hcell (by simp)
            (rayFlatMap_exists gs _ _ _ _ m hq)
        · exact normalExists_MoveOK gs m _ _ pc PKind.Q (by omega) (by omega)
            (by omega) (by omega) hcell (by simp)
            (rayFlatMap_exists gs _ _ _ _ m hq)
      · unfold getRookMoves at hm3
        exact normalExists_MoveOK gs m _ _ pc PKind.R (by omega) (by omega)
          (by omega) (by omega) hcell (by simp)
          (rayFlatMap_exists gs _ _ _ _ m hm3)
      · unfold getBishopMoves at hm3
        exact normalExists_MoveOK gs m _ _ pc PKind.B (by omega) (by omega)
          (by omega) (by omega) hcell (by simp)
          (rayFlatMap_exists gs _ _ _ _ m hm3)
      · unfold getKnightMoves at hm3
        exact normalExists_MoveOK gs m _ _ pc PKind.N (by omega) (by omega)
          (by omega) (by omega) hcell (by simp)
          (offsetMoves_ok gs _ _ _ _ m hm3)
      · have hcell' : getSq gs.board (ri : Int) (ci : Int)
            = some (sideColor gs, PKind.P) := by
          rw [hcell, hcolmatch]
        have hb := pawnMoves_ok gs _ _ (by omega) (by omega) (by omega)
          (by omega) hpawns hepo hcell' m hm3
        have hst := pawnMoves_start gs _ _ m hm3
        refine ⟨hb, ?_, ?_⟩
        · intro h
          rw [hb.moved_eq, hst.1, hst.2, hcell] at h
          simp at h
        · intro h
          rw [hb.moved_eq, hst.1, hst.2, hcell] at h
          simp at h
    · simp at hm3

theorem checkFilter_subset (gs : GameState) (l : List Move) :
    ∀ m ∈ (checkFilter gs l).1, m ∈ l := by
  induction l with
  | nil =>
    intro m hm
    simp [checkFilter] at hm
  | cons a rest ih =>
    intro m hm
    unfold checkFilter at hm
    dsimp only at hm
    split at hm
    · exact List.mem_cons_of_mem a (ih m hm)
    · rcases List.mem_cons.1 hm with rfl | h
      · exact List.mem_cons_self _ _
      · exact List.mem_cons_of_mem a (ih m h)

theorem getValidMoves_ok (gs : GameState) (hwf : WF gs) :
    ∀ m ∈ (getValidMoves gs).1, MoveOK gs m := by
  intro m hm
  unfold getValidMoves at hm
  dsimp only at hm
  have hsub := checkFilter_subset gs _ m hm
  rcases List.mem_append.1 hsub with h | h
  · exact getAllPossibleMoves_ok gs hwf m h
  · exact castleMoves_ok gs hwf _ _ rfl m h

theorem valid_make_undo (gs : GameState) (m : Move)
    (hwf : WF gs) (hm : m ∈ (getValidMoves gs).1) :
    (undoMove (makeMove gs m)).board = gs.board ∧
    (undoMove (makeMove gs m)).whiteToMove = gs.whiteToMove ∧
    (undoMove (makeMove gs m)).whiteKingLocation = gs.whiteKingLocation ∧
    (undoMove (makeMove gs m)).blackKingLocation = gs.blackKingLocation ∧
    (undoMove (makeMove gs m)).currentCastlingRight = gs.currentCastlingRight := by
  have hok := getValidMoves_ok gs hwf m hm
  have h := make_undo_core gs m hwf.1 hok hwf.2.2.2.2.2.1
  exact ⟨h.1, h.2.1, h.2.2.1, h.2.2.2.1, h.2.2.2.2.1⟩

theorem squareUnderAttack_state (gs : GameState) (r c : Int) :
    (squareUnderAttack gs r c).2 = gs := by
  unfold squareUnderAttack
  dsimp only
  rw [Bool.not_not]

theorem inCheck_state (gs : GameState) : (inCheck gs).2 = gs := by
  unfold inCheck
  split_ifs <;> exact squareUnderAttack_state gs _ _

theorem makeMove_coreEq (gs s : GameState) (m : Move) (h : coreEq gs s) :
    makeMove s m = makeMove gs m := by
  obtain ⟨hb, hw, hml, hwk, hbk, hcm, hsm, hcr, hlog⟩ := h
  unfold makeMove
  rw [hb, hw, hml, hwk, hbk, hcm, hsm, hcr, hlog]

theorem undoMove_makeMove_eq (gs : GameState) (a : Move) :
    undoMove (makeMove gs a) = undoBody (makeMove gs a) a := by
  unfold undoMove
  have hlast : (makeMove gs a).moveLog.getLast? = some a := by
    show (gs.moveLog ++ [a]).getLast? = some a
    simp
  rw [hlast]

theorem undo_make_ep_val (gs : GameState) (a : Move) :
    (undoMove (makeMove gs a)).enPassantPossible = none ∨
    ((undoMove (makeMove gs a)).enPassantPossible = some (a.endRow, a.endCol) ∧
      a.isEnPassantMove = true) := by
  rw [undoMove_makeMove_eq]
  unfold undoBody
  dsimp only
  split_ifs with h1 h2
  · left
    rfl
  · right
    exact ⟨rfl, h2⟩
  · left
    show (makeMove gs a).enPassantPossible = none
    unfold makeMove
    dsimp only
    rw [if_neg h1]

theorem checkFilter_core (gs : GameState) (hwf : boardWF gs.board)
    (hlog : gs.castleRightsLog.getLast? = some gs.currentCastlingRight)
    (hepE : ∀ er ec, gs.enPassantPossible = some (er, ec) →
      getSq gs.board er ec = none)
    (l : List Move) (hl : ∀ m ∈ l, MoveOK gs m) :
    coreEq gs (checkFilter gs l).2 ∧
    (∀ er ec, (checkFilter gs l).2.enPassantPossible = some (er, ec) →
      getSq gs.board er ec = none) := by
  induction l with
  | nil =>
    exact ⟨⟨rfl, rfl, rfl, rfl, rfl, rfl, rfl, rfl, rfl⟩, hepE⟩
  | cons a rest ih =>
    obtain ⟨hc, he⟩ := ih (fun m hm => hl m (List.mem_cons_of_mem a hm))
    have hka : MoveOK gs a := hl a (List.mem_cons_self _ _)
    have hmk : makeMove (checkFilter gs rest).2 a = makeMove gs a :=
      makeMove_coreEq gs _ a hc
    have hstate : (checkFilter gs (a :: rest)).2 = undoMove (makeMove gs a) := by
      show (let p := checkFilter gs rest
            let gs2 := makeMove p.2 a
            let gs3 := { gs2 with whiteToMove := !gs2.whiteToMove }
            let q := inCheck gs3
            let gs5 := { q.2 with whiteToMove := !(q.2).whiteToMove }
            let gs6 := undoMove gs5
            (if q.1 then p.1 else a :: p.1, gs6)).2 = undoMove (makeMove gs a)
      dsimp only
      rw [hmk, inCheck_state, Bool.not_not]
    have hmu := make_undo_core gs a hwf hka hlog
    constructor
    · rw [hstate]
      exact ⟨hmu.1, hmu.2.1, hmu.2.2.2.2.2.2.1, hmu.2.2.1, hmu.2.2.2.1,
        hmu.2.2.2.2.2.2.2.1, hmu.2.2.2.2.2.2.2.2, hmu.2.2.2.2.1,
        hmu.2.2.2.2.2.1⟩
    · rw [hstate]
      intro er ec hep
      rcases undo_make_ep_val gs a with hv | ⟨hv, hepm⟩
      · rw [hv] at hep
        exact absurd hep (by simp)
      · rw [hv] at hep
        have h2 := hka.boardOK.ep_dst hepm
        simp only [Option.some.injEq, Prod.mk.injEq] at hep
        rw [← hep.1, ← hep.2]
        exact h2

theorem checkFilter_mem (gs : GameState) (hwf : boardWF gs.board)
    (hlog : gs.castleRightsLog.getLast? = some gs.currentCastlingRight)
    (hepE : ∀ er ec, gs.enPassantPossible = some (er, ec) →
      getSq gs.board er ec = none)
    (l : List Move) (hl : ∀ m ∈ l, MoveOK gs m) :
    ∀ m ∈ (checkFilter gs l).1, m ∈ l ∧ postMoveCheck gs m = false := by
  induction l with
  | nil =>
    intro m hm
    simp [checkFilter] at hm
  | cons a rest ih =>
    intro m hm
    have hrest : ∀ m ∈ rest, MoveOK gs m :=
      fun m hm => hl m (List.mem_cons_of_mem a hm)
    obtain ⟨hc, he⟩ := checkFilter_core gs hwf hlog hepE rest hrest
    have hmk : makeMove (checkFilter gs rest).2 a = makeMove gs a :=
      makeMove_coreEq gs _ a hc
    have hlist : (checkFilter gs (a :: rest)).1 =
        (if postMoveCheck gs a = true then (checkFilter gs rest).1
         else a :: (checkFilter gs rest).1) := by
      show (let p := checkFilter gs rest
            let gs2 := makeMove p.2 a
            let gs3 := { gs2 with whiteToMove := !gs2.whiteToMove }
            let q := inCheck gs3
            let gs5 := { q.2 with whiteToMove := !(q.2).whiteToMove }
            let gs6 := undoMove gs5
            (if q.1 then p.1 else a :: p.1, gs6)).1 = _
      dsimp only
      rw [hmk]
      rfl
    rw [hlist] at hm
    by_cases hq : postMoveCheck gs a = true
    · rw [if_pos hq] at hm
      obtain ⟨h1, h2⟩ := ih hrest m hm
      exact ⟨List.mem_cons_of_mem a h1, h2⟩
    · rw [if_neg hq] at hm
      rcases List.mem_cons.1 hm with rfl | h
      · exact ⟨List.mem_cons_self _ _, Bool.eq_false_iff.mpr hq⟩
      · obtain ⟨h1, h2⟩ := ih hrest m h
        exact ⟨List.mem_cons_of_mem a h1, h2⟩

theorem rayMoves_congr (s t : GameState) (hb : s.board = t.board)
    (r c dr dc : Int) (enemy : PColor) :
    ∀ fuel i, rayMoves s r c dr dc enemy fuel i
      = rayMoves t r c dr dc enemy fuel i := by
  intro fuel
  induction fuel with
  | zero =>
    intro i
    rfl
  | succ n ih =>
    intro i
    unfold rayMoves
    rw [hb, ih (i + 1)]

theorem getKnightMoves_congr (s t : GameState) (hb : s.board = t.board)
    (hw : s.whiteToMove = t.whiteToMove) (r c : Int) :
    getKnightMoves s r c = getKnightMoves t r c := by
  unfold getKnightMoves
  rw [hb, hw]

theorem getKingMoves_congr (s t : GameState) (hb : s.board = t.board)
    (hw : s.whiteToMove = t.whiteToMove) (r c : Int) :
    getKingMoves s r c = getKingMoves t r c := by
  unfold getKingMoves
  rw [hb, hw]

theorem getBishopMoves_congr (s t : GameState) (hb : s.board = t.board)
    (hw : s.whiteToMove = t.whiteToMove) (r c : Int) :
    getBishopMoves s r c = getBishopMoves t r c := by
  unfold getBishopMoves
  dsimp only
  rw [hw]
  congr 1
  funext d
  exact rayMoves_congr s t hb r c d.1 d.2 _ 7 1

theorem getRookMoves_congr (s t : GameState) (hb : s.board = t.board)
    (hw : s.whiteToMove = t.whiteToMove) (r c : Int) :
    getRookMoves s r c = getRookMoves t r c := by
  unfold getRookMoves
  dsimp only
  rw [hw]
  congr 1
  funext d
  exact rayMoves_congr s t hb r c d.1 d.2 _ 7 1

theorem getQueenMoves_congr (s t : GameState) (hb : s.board = t.board)
    (hw : s.whiteToMove = t.whiteToMove) (r c : Int) :
    getQueenMoves s r c = getQueenMoves t r c := by
  unfold getQueenMoves
  rw [getRookMoves_congr s t hb hw, getBishopMoves_congr s t hb hw]

set_option maxHeartbeats 2000000 in
theorem getPawnMoves_transfer (s t : GameState)
    (hb : s.board = t.board) (hw : s.whiteToMove = t.whiteToMove)
    (hes : ∀ er ec, s.enPassantPossible = some (er, ec) →
      getSq s.board er ec = none)
    (r c : Int) (m : Move) (hm : m ∈ getPawnMoves s r c)
    (hocc : getSq s.board m.endRow m.endCol ≠ none) :
    m ∈ getPawnMoves t r c := by
  unfold getPawnMoves at hm ⊢
  rw [← hb, ← hw]
  split_ifs at hm ⊢
  all_goals simp only [List.mem_append, List.mem_cons, List.mem_singleton,
    List.not_mem_nil, or_false, false_or] at hm ⊢
  all_goals repeat' rcases hm with hm | hm
  all_goals
    first
      | simp only [eq_self_iff_true, true_or, or_true]
      | (simp only [mkMove] at hocc
         exact absurd (hes _ _ (by assumption)) hocc)

theorem getAllPossibleMoves_transfer (s t : GameState)
    (hb : s.board = t.board) (hw : s.whiteToMove = t.whiteToMove)
    (hes : ∀ er ec, s.enPassantPossible = some (er, ec) →
      getSq s.board er ec = none)
    (m : Move) (hm : m ∈ getAllPossibleMoves s)
    (hocc : getSq s.board m.endRow m.endCol ≠ none) :
    m ∈ getAllPossibleMoves t := by
  unfold getAllPossibleMoves at hm ⊢
  rcases List.mem_flatMap.1 hm with ⟨ri, hri, hm2⟩
  rcases List.mem_flatMap.1 hm2 with ⟨ci, hci, hm3⟩
  refine List.mem_flatMap.2 ⟨ri, hri, List.mem_flatMap.2 ⟨ci, hci, ?_⟩⟩
  dsimp only at hm3
  dsimp only
  rw [← hb, ← hw]
  rcases hcell : getSq s.board (ri : Int) (ci : Int) with _ | ⟨pc, kind⟩
  · rw [hcell] at hm3
    simp at hm3
  · rw [hcell] at hm3
    dsimp only at hm3 ⊢
    simp only [Bool.not_eq_true] at hm3 ⊢
    split_ifs at hm3 ⊢ with hside
    · cases kind
      · exact (getKingMoves_congr s t hb hw _ _) ▸ hm3
      · exact (getQueenMoves_congr s t hb hw _ _) ▸ hm3
      · exact (getRookMoves_congr s t hb hw _ _) ▸ hm3
      · exact (getBishopMoves_congr s t hb hw _ _) ▸ hm3
      · exact (getKnightMoves_congr s t hb hw _ _) ▸ hm3
      · exact getPawnMoves_transfer s t hb hw hes _ _ m hm3 hocc
    · exact hm3

theorem attackAny_transfer (s t : GameState)
    (hb : s.board = t.board) (hw : s.whiteToMove = t.whiteToMove)
    (hes : ∀ er ec, s.enPassantPossible = some (er, ec) →
      getSq s.board er ec = none)
    (het : ∀ er ec, t.enPassantPossible = some (er, ec) →
      getSq t.board er ec = none)
    (r c : Int) (hocc : getSq s.board r c ≠ none) :
    ((getAllPossibleMoves s).any fun m => m.endRow == r && m.endCol == c)
      = ((getAllPossibleMoves t).any fun m => m.endRow == r && m.endCol == c) := by
  have h1 : ∀ m ∈ getAllPossibleMoves s,
      (m.endRow == r && m.endCol == c) = true → m ∈ getAllPossibleMoves t := by
    intro m hm hend
    simp only [Bool.and_eq_true, beq_iff_eq] at hend
    apply getAllPossibleMoves_transfer s t hb hw hes m hm
    rw [hend.1, hend.2]
    exact hocc
  have h2 : ∀ m ∈ getAllPossibleMoves t,
      (m.endRow == r && m.endCol == c) = true → m ∈ getAllPossibleMoves s := by
    intro m hm hend
    simp only [Bool.and_eq_true, beq_iff_eq] at hend
    apply getAllPossibleMoves_transfer t s hb.symm hw.symm het m hm
    rw [hend.1, hend.2, ← hb]
    exact hocc
  cases hS : ((getAllPossibleMoves s).any fun m => m.endRow == r && m.endCol == c) with
  | true =>
    rcases List.any_eq_true.1 hS with ⟨m, hm, hend⟩
    exact (List.any_eq_true.2 ⟨m, h1 m hm hend, hend⟩).symm
  | false =>
    cases hT : ((getAllPossibleMoves t).any fun m => m.endRow == r && m.endCol == c) with
    | false => rfl
    | true =>
      rcases List.any_eq_true.1 hT with ⟨m, hm, hend⟩
      have h3 : ((getAllPossibleMoves s).any
          fun m => m.endRow == r && m.endCol == c) = true :=
        List.any_eq_true.2 ⟨m, h2 m hm hend, hend⟩
      rw [hS] at h3
      exact absurd h3 (by simp)

theorem underAttack_transfer (s t : GameState)
    (hb : s.board = t.board) (hw : s.whiteToMove = t.whiteToMove)
    (hes : ∀ er ec, s.enPassantPossible = some (er, ec) →
      getSq s.board er ec = none)
    (het : ∀ er ec, t.enPassantPossible = some (er, ec) →
      getSq t.board er ec = none)
    (r c : Int) (hocc : getSq s.board r c ≠ none) :
    underAttack s r c = underAttack t r c := by
  unfold underAttack squareUnderAttack
  dsimp only
  exact attackAny_transfer { s with whiteToMove := !s.whiteToMove }
    { t with whiteToMove := !t.whiteToMove } hb (by dsimp only; rw [hw])
    hes het r c hocc

theorem inCheck_transfer (gs s : GameState) (hc : coreEq gs s)
    (hes : ∀ er ec, s.enPassantPossible = some (er, ec) →
      getSq gs.board er ec = none)
    (heg : ∀ er ec, gs.enPassantPossible = some (er, ec) →
      getSq gs.board er ec = none)
    (hkw : getSq gs.board gs.whiteKingLocation.1 gs.whiteKingLocation.2
      = some (PColor.w, PKind.K))
    (hkb : getSq gs.board gs.blackKingLocation.1 gs.blackKingLocation.2
      = some (PColor.b, PKind.K)) :
    (inCheck s).1 = (inCheck gs).1 := by
  obtain ⟨hb, hw, hml, hwk, hbk, hcm, hsm, hcr, hlog⟩ := hc
  have hes' : ∀ er ec, s.enPassantPossible = some (er, ec) →
      getSq s.board er ec = none := by
    intro er ec h
    rw [hb]
    exact hes er ec h
  have heg' := heg
  unfold inCheck
  by_cases hwt : gs.whiteToMove = true
  · rw [if_pos (by rw [hw]; exact hwt), if_pos hwt, hwk]
    show underAttack s gs.whiteKingLocation.1 gs.whiteKingLocation.2
      = underAttack gs gs.whiteKingLocation.1 gs.whiteKingLocation.2
    apply underAttack_transfer s gs hb hw hes' heg'
    rw [hb, hkw]
    simp
  · rw [if_neg (by rw [hw]; exact hwt), if_neg hwt, hbk]
    show underAttack s gs.blackKingLocation.1 gs.blackKingLocation.2
      = underAttack gs gs.blackKingLocation.1 gs.blackKingLocation.2
    apply underAttack_transfer s gs hb hw hes' heg'
    rw [hb, hkb]
    simp

theorem getValidMoves_eq (gs : GameState) :
    getValidMoves gs =
      (let p := checkFilter gs (getAllPossibleMoves gs ++
         getCastleMoves gs
           (if gs.whiteToMove then gs.whiteKingLocation
            else gs.blackKingLocation).1
           (if gs.whiteToMove then gs.whiteKingLocation
            else gs.blackKingLocation).2)
       let gs2 := if p.1.isEmpty then
           (if (inCheck p.2).1 then { p.2 with checkMate := true }
            else { p.2 with staleMate := true })
         else { p.2 with checkMate := false, staleMate := false }
       (p.1, { gs2 with enPassantPossible := gs.enPassantPossible,
                        currentCastlingRight := gs.currentCastlingRight })) := rfl

/-- C6: from the initial `GameState` produced by the constructor (the standard
starting arrangement, White to move), `getValidMoves` returns exactly 20 moves. -/
theorem claim_C6_initial_twenty_moves :
    (getValidMoves initialGameState).1.length = 20 := by decide

/-- C10: `squareUnderAttack` — and therefore `inCheck` — returns its boolean
while leaving the `GameState` unchanged: the side to move is flipped to
generate the opponent's pseudo-legal moves and flipped back, and pseudo-legal
generation (`getAllPossibleMoves`, a pure function here) performs no state
writes, so the state handed back is exactly the input state. -/
theorem claim_C10_squareUnderAttack_pure : ∀ (gs : GameState) (r c : Int),
    (squareUnderAttack gs r c).2 = gs ∧ (inCheck gs).2 = gs := by
  intro gs r c
  constructor
  · simp [squareUnderAttack, Bool.not_not]
  · unfold inCheck
    split <;> simp [squareUnderAttack, Bool.not_not]

/-- C4: `scoreBoard` on a checkmate with White to move returns `-CHECKMATE`,
and on a stalemate returns `0`, as claimed; but on a checkmate with Black to
move the source executes `return CHECKMATE()`, calling the integer constant
`1000`, which raises `TypeError` (modelled as `none`) instead of returning
`+CHECKMATE`.  The claim is the intended behaviour; the code crashes. -/
theorem claim_C4_scoreboard_eval :
    scoreBoard gsWhiteMated = some (-CHECKMATE) ∧
    scoreBoard gsBlackMated = none ∧
    scoreBoard gsStalemate = some STALEMATE := by decide

/-- C8: the promotion flag of `Move.__init__` is claimed to hold exactly for a
pawn reaching the farthest rank, but the source's
`(self.pieceMoved and 'bP' and self.endRow == 7)` is truthy for every piece,
so a white **rook** moving a2–a1 (to row 7) is flagged `isPawnPromotion`.
The promotion rewrite in `makeMove` is separately guarded by
`pieceMoved[1] == 'P'`, so the rook is not queened, while a genuinely flagged
black pawn b2–b1 is replaced by a black queen, as the claim's second half
states. -/
theorem claim_C8_promotion_flag_eval :
    (mkMove (6, 0) (7, 0) promoBugState.board false false).pieceMoved
        = some (PColor.w, PKind.R) ∧
    (mkMove (6, 0) (7, 0) promoBugState.board false false).isPawnPromotion = true ∧
    getSq (makeMove promoBugState
        (mkMove (6, 1) (7, 1) promoBugState.board false false)).board 7 1
      = some (PColor.b, PKind.Q) ∧
    getSq (makeMove promoBugState
        (mkMove (6, 0) (7, 0) promoBugState.board false false)).board 7 0
      = some (PColor.w, PKind.R) := by decide

/-- C9 counterexample: two `Move`s built from boards holding different pieces
on the same squares are equal under `Move.__eq__` (`moveID` comparison) even
though their piece pairs differ, refuting "equal iff same from/to **and** same
piece pair". -/
theorem claim_C9_counterexample :
    moveEq (mkMove (0, 0) (0, 1) eqBugBoardA false false)
        (mkMove (0, 0) (0, 1) eqBugBoardB false false) = true ∧
    (mkMove (0, 0) (0, 1) eqBugBoardA false false).pieceMoved ≠
      (mkMove (0, 0) (0, 1) eqBugBoardB false false).pieceMoved := by decide

/-- C9 (amended): for moves whose coordinates lie on the board, `Move.__eq__`
holds iff the two moves have the same from-square and the same to-square —
the piece pair plays no part, since only `moveID` is compared. -/
theorem claim_C9_eq_iff_squares (m1 m2 : Move)
    (h1 : 0 ≤ m1.startRow ∧ m1.startRow < 8 ∧ 0 ≤ m1.startCol ∧ m1.startCol < 8 ∧
      0 ≤ m1.endRow ∧ m1.endRow < 8 ∧ 0 ≤ m1.endCol ∧ m1.endCol < 8)
    (h2 : 0 ≤ m2.startRow ∧ m2.startRow < 8 ∧ 0 ≤ m2.startCol ∧ m2.startCol < 8 ∧
      0 ≤ m2.endRow ∧ m2.endRow < 8 ∧ 0 ≤ m2.endCol ∧ m2.endCol < 8) :
    moveEq m1 m2 = true ↔
      m1.startRow = m2.startRow ∧ m1.startCol = m2.startCol ∧
      m1.endRow = m2.endRow ∧ m1.endCol = m2.endCol := by
  simp only [moveEq, Move.moveID, beq_iff_eq]
  omega

/-- C9 witness: the amended equivalence instantiated at the two concrete moves
of the counterexample boards. -/
theorem claim_C9_witness :
    moveEq (mkMove (0, 0) (0, 1) eqBugBoardA false false)
        (mkMove (0, 0) (0, 1) eqBugBoardB false false) = true ↔
      (mkMove (0, 0) (0, 1) eqBugBoardA false false).startRow
          = (mkMove (0, 0) (0, 1) eqBugBoardB false false).startRow ∧
      (mkMove (0, 0) (0, 1) eqBugBoardA false false).startCol
          = (mkMove (0, 0) (0, 1) eqBugBoardB false false).startCol ∧
      (mkMove (0, 0) (0, 1) eqBugBoardA false false).endRow
          = (mkMove (0, 0) (0, 1) eqBugBoardB false false).endRow ∧
      (mkMove (0, 0) (0, 1) eqBugBoardA false false).endCol
          = (mkMove (0, 0) (0, 1) eqBugBoardB false false).endCol :=
  claim_C9_eq_iff_squares _ _ (by decide) (by decide)

/-- C2: plain negamax and alpha-beta negamax diverge on `negaCmpState` (its
own legal move list, depth 2): alpha-beta, entered with the full window
`(-CHECKMATE, CHECKMATE)`, prunes the white reply `Ra8#` inside every
knight-move subtree after the first white reply already meets the window
bound, and returns `-2`; plain negamax explores `Ra8#`, reaches a leaf that is
checkmate with Black to move, and crashes in `scoreBoard` (the `CHECKMATE()`
`TypeError`, modelled as `none`).  The claimed equality is the intended
behaviour; the crash in `scoreBoard` breaks it. -/
theorem claim_C2_alphabeta_divergence :
    negaCmpMoves = (getValidMoves negaCmpState).1 ∧
    findMoveNegaMax negaCmpState negaCmpMoves 2 3 (-1) = none ∧
    (findMoveNegaMaxAlphaBeta negaCmpState negaCmpMoves 2 3
        (-CHECKMATE) CHECKMATE (-1)).map (fun x => x.1) = some (-2) := by decide

/-- C3 counterexample: in the legal game 1. g4 b6 2. a3 Bb7 3. a4 Bxh1 the
black bishop captures the white king-side rook standing on its home square h1,
yet `wks` remains `true` afterwards: `updateCastleRights` inspects only
`pieceMoved`, never the captured rook, so a capture on the rook's home square
does not revoke the right. -/
theorem claim_C3_counterexample :
    capM1 ∈ (getValidMoves initialGameState).1 ∧
    capM2 ∈ (getValidMoves capS1).1 ∧
    capM3 ∈ (getValidMoves capS2).1 ∧
    capM4 ∈ (getValidMoves capS3).1 ∧
    capM5 ∈ (getValidMoves capS4).1 ∧
    capM6 ∈ (getValidMoves capS5).1 ∧
    getSq capS5.board 7 7 = some (PColor.w, PKind.R) ∧
    capM6.pieceCaptured = some (PColor.w, PKind.R) ∧
    capS6.currentCastlingRight.wks = true := by decide

/-- C5 counterexample: `staleFlagState` is a stalemate position (no legal
moves, king not attacked) entered with a stale `checkMate = true` — the state
the search produces after analysing a checkmate node and then this node,
since no make/undo clears the flags.  After `getValidMoves`, `staleMate` is
set but `checkMate` is still `true` while `inCheck` is `false`, refuting
"the checkMate flag is set exactly when the king square is attacked". -/
theorem claim_C5_counterexample :
    (getValidMoves staleFlagState).1 = [] ∧
    (inCheck staleFlagState).1 = false ∧
    (getValidMoves staleFlagState).2.checkMate = true ∧
    (getValidMoves staleFlagState).2.staleMate = true := by decide

/-- C7 counterexample: `findBestMove` on `epState` (en-passant target `(5,0)`)
with the singleton list of the legal move a8–b8 returns with the en-passant
target cleared to `none`: the make/undo pairs of the search do not restore
`enPassantPossible`, so not every field is restored. -/
theorem claim_C7_counterexample :
    epState.enPassantPossible = some (5, 0) ∧
    epMove ∈ (getValidMoves epState).1 ∧
    (findBestMove epState [epMove]).map (fun x => x.2.enPassantPossible)
      = some none := by decide

/-- `updateCastleRights` never grants a right: a wing that holds after the
update held before. -/
theorem updateCastleRights_mono (cr : CastleRights) (mv : Move) (wng : Wing)
    (h : wingRight (updateCastleRights cr mv) wng = true) :
    wingRight cr wng = true := by
  unfold updateCastleRights at h
  split_ifs at h <;> cases wng <;> simp_all [wingRight]

/-- A revoked wing stays revoked across any sequence of `makeMove`s. -/
theorem applyMoves_right_mono (wng : Wing) : ∀ (ms : List Move) (gs : GameState),
    wingRight gs.currentCastlingRight wng = false →
    wingRight (applyMoves gs ms).currentCastlingRight wng = false := by
  intro ms
  induction ms with
  | nil => intro gs h; simpa [applyMoves] using h
  | cons m rest ih =>
    intro gs h
    have hstep : applyMoves gs (m :: rest) = applyMoves (makeMove gs m) rest := rfl
    rw [hstep]
    apply ih
    cases hb : wingRight (makeMove gs m).currentCastlingRight wng with
    | false => rfl
    | true =>
      have : wingRight gs.currentCastlingRight wng = true := by
        have hcr : (makeMove gs m).currentCastlingRight
            = updateCastleRights gs.currentCastlingRight m := rfl
        rw [hcr] at hb
        exact updateCastleRights_mono _ _ _ hb
      rw [this] at h
      cases h

/-- A move whose moving piece is a wing's rook leaving its home square revokes
that wing's right. -/
theorem updateCastleRights_revokes (cr : CastleRights) (mv : Move) (wng : Wing)
    (h1 : mv.pieceMoved = wingRookPiece wng)
    (h2 : mv.startRow = wingHomeRow wng)
    (h3 : mv.startCol = wingHomeCol wng) :
    wingRight (updateCastleRights cr mv) wng = false := by
  cases wng <;>
    simp_all [updateCastleRights, wingRight, wingRookPiece, wingHomeRow, wingHomeCol]

/-- C3 (amended): once a side's rook moves away from its home square, the
castling right of that side and wing is false immediately after that
`makeMove` and remains false after every later sequence of `makeMove` calls
(undo excepted) — `updateCastleRights` only ever clears rights.  (The original
claim's additional case — a rook *captured* on its home square — does not
revoke, see the counterexample.) -/
theorem claim_C3_rook_move_revokes_forever (gs : GameState) (mv : Move)
    (wng : Wing) (ms : List Move)
    (h1 : mv.pieceMoved = wingRookPiece wng)
    (h2 : mv.startRow = wingHomeRow wng)
    (h3 : mv.startCol = wingHomeCol wng) :
    wingRight (applyMoves (makeMove gs mv) ms).currentCastlingRight wng = false := by
  apply applyMoves_right_mono
  have hcr : (makeMove gs mv).currentCastlingRight
      = updateCastleRights gs.currentCastlingRight mv := rfl
  rw [hcr]
  exact updateCastleRights_revokes _ _ _ h1 h2 h3

/-- C3 witness: the white king-side rook lifting from h1 (in a position where
that square holds the rook) kills `wks` through a subsequent move. -/
theorem claim_C3_witness :
    wingRight (applyMoves (makeMove initialGameState
        (mkMove (7, 7) (5, 7) initialGameState.board false false))
      [capM1]).currentCastlingRight Wing.wks = false :=
  claim_C3_rook_move_revokes_forever _ _ _ _ (by decide) (by decide) (by decide)

/-- C1: on a well-formed (reachable) state, making any legal move and undoing
it restores the board, the side to move, both king locations and the current
castling rights exactly. -/
theorem claim_C1_make_undo_roundtrip (gs : GameState) (m : Move)
    (hwf : WF gs) (hm : m ∈ (getValidMoves gs).1) :
    (undoMove (makeMove gs m)).board = gs.board ∧
    (undoMove (makeMove gs m)).whiteToMove = gs.whiteToMove ∧
    (undoMove (makeMove gs m)).whiteKingLocation = gs.whiteKingLocation ∧
    (undoMove (makeMove gs m)).blackKingLocation = gs.blackKingLocation ∧
    (undoMove (makeMove gs m)).currentCastlingRight = gs.currentCastlingRight := by
  have hok := getValidMoves_ok gs hwf m hm
  have h := make_undo_core gs m hwf.1 hok hwf.2.2.2.2.2.1
  exact ⟨h.1, h.2.1, h.2.2.1, h.2.2.2.1, h.2.2.2.2.1⟩

theorem claim_C1_witness :
    (undoMove (makeMove initialGameState
        (mkMove (7, 1) (5, 2) initialGameState.board false false))).board
      = initialGameState.board ∧
    (undoMove (makeMove initialGameState
        (mkMove (7, 1) (5, 2) initialGameState.board false false))).whiteToMove
      = initialGameState.whiteToMove ∧
    (undoMove (makeMove initialGameState
        (mkMove (7, 1) (5, 2) initialGameState.board false false))).whiteKingLocation
      = initialGameState.whiteKingLocation ∧
    (undoMove (makeMove initialGameState
        (mkMove (7, 1) (5, 2) initialGameState.board false false))).blackKingLocation
      = initialGameState.blackKingLocation ∧
    (undoMove (makeMove initialGameState
        (mkMove (7, 1) (5, 2) initialGameState.board false false))).currentCastlingRight
      = initialGameState.currentCastlingRight :=
  claim_C1_make_undo_roundtrip initialGameState
    (mkMove (7, 1) (5, 2) initialGameState.board false false)
    (by
      unfold WF
      refine ⟨?_, ?_, ?_, ?_, ?_, ?_, ?_⟩
      · unfold boardWF
        decide
      · unfold kingsOK
        exact ⟨by decide, by decide, by decide, by decide, by decide, by decide,
          by decide, by decide, by decide, by decide, by decide⟩
      · unfold epOK epOKb
        decide
      · unfold pawnsOK
        decide
      · unfold castleHomeOK
        decide
      · decide
      · unfold oppKingSafe
        decide) (by decide)

/-- C5 (amended): when the incoming flags are clear, `getValidMoves` sets
`checkMate` exactly on empty-list-and-in-check and `staleMate` exactly on
empty-list-and-not-in-check; on stale incoming flags the claimed biconditional
fails. -/
theorem claim_C5_flags_after_getValidMoves (gs : GameState) (hwf : WF gs)
    (hcm : gs.checkMate = false) (hsm : gs.staleMate = false) :
    (getValidMoves gs).2.checkMate
        = ((getValidMoves gs).1.isEmpty && (inCheck gs).1) ∧
    (getValidMoves gs).2.staleMate
        = ((getValidMoves gs).1.isEmpty && !(inCheck gs).1) := by
  obtain ⟨hbwf, hkings, hepo, hpawns, hcas, hlog, hsafe⟩ := hwf
  obtain ⟨wk1, wk2, wk3, wk4, bk1, bk2, bk3, bk4, hwc, hbc, huniq⟩ := hkings
  have hepE : ∀ er ec, gs.enPassantPossible = some (er, ec) →
      getSq gs.board er ec = none := by
    intro er ec h
    by_cases hwt : gs.whiteToMove = true
    · obtain ⟨h1, _, _, _, h5⟩ := epOK_white gs er ec hepo hwt h
      rw [h1]
      exact h5
    · obtain ⟨h1, _, _, _, h5⟩ :=
        epOK_black gs er ec hepo (Bool.not_eq_true _ ▸ hwt) h
      rw [h1]
      exact h5
  have hl : ∀ m ∈ getAllPossibleMoves gs ++
      getCastleMoves gs
        (if gs.whiteToMove then gs.whiteKingLocation
         else gs.blackKingLocation).1
        (if gs.whiteToMove then gs.whiteKingLocation
         else gs.blackKingLocation).2, MoveOK gs m := by
    intro m hm
    rcases List.mem_append.1 hm with h | h
    · exact getAllPossibleMoves_ok gs
        ⟨hbwf, ⟨wk1, wk2, wk3, wk4, bk1, bk2, bk3, bk4, hwc, hbc, huniq⟩,
          hepo, hpawns, hcas, hlog, hsafe⟩ m h
    · exact castleMoves_ok gs
        ⟨hbwf, ⟨wk1, wk2, wk3, wk4, bk1, bk2, bk3, bk4, hwc, hbc, huniq⟩,
          hepo, hpawns, hcas, hlog, hsafe⟩ _ _ rfl m h
  obtain ⟨hcore, hept⟩ := checkFilter_core gs hbwf hlog hepE _ hl
  have hic := inCheck_transfer gs _ hcore hept hepE hwc hbc
  rw [getValidMoves_eq gs]
  dsimp only
  set P := checkFilter gs (getAllPossibleMoves gs ++
      getCastleMoves gs
        (if gs.whiteToMove = true then gs.whiteKingLocation
         else gs.blackKingLocation).1
        (if gs.whiteToMove = true then gs.whiteKingLocation
         else gs.blackKingLocation).2)
  by_cases hE : P.1.isEmpty = true
  · rw [if_pos hE]
    by_cases hC : (inCheck P.2).1 = true
    · rw [if_pos hC]
      refine ⟨?_, ?_⟩
      · show true = _
        rw [hE, ← hic, hC]
        rfl
      · show P.2.staleMate = _
        rw [hE, ← hic, hC, hcore.2.2.2.2.2.2.1, hsm]
        rfl
    · have hCf : (inCheck P.2).1 = false := Bool.eq_false_iff.mpr hC
      rw [if_neg hC]
      refine ⟨?_, ?_⟩
      · show P.2.checkMate = _
        rw [hE, ← hic, hCf, hcore.2.2.2.2.2.1, hcm]
        rfl
      · show true = _
        rw [hE, ← hic, hCf]
        rfl
  · have hEf : P.1.isEmpty = false := Bool.eq_false_iff.mpr hE
    rw [if_neg hE]
    refine ⟨?_, ?_⟩
    · show false = _
      rw [hEf]
      rfl
    · show false = _
      rw [hEf]
      rfl

theorem claim_C5_witness :
    (getValidMoves initialGameState).2.checkMate
        = ((getValidMoves initialGameState).1.isEmpty
            && (inCheck initialGameState).1) ∧
    (getValidMoves initialGameState).2.staleMate
        = ((getValidMoves initialGameState).1.isEmpty
            && !(inCheck initialGameState).1) :=
  claim_C5_flags_after_getValidMoves initialGameState
    (by
      unfold WF
      refine ⟨?_, ?_, ?_, ?_, ?_, ?_, ?_⟩
      · unfold boardWF
        decide
      · unfold kingsOK
        exact ⟨by decide, by decide, by decide, by decide, by decide, by decide,
          by decide, by decide, by decide, by decide, by decide⟩
      · unfold epOK epOKb
        decide
      · unfold pawnsOK
        decide
      · unfold castleHomeOK
        decide
      · decide
      · unfold oppKingSafe
        decide)
    (by decide) (by decide)

theorem promoStep_nonpawn (b : Board) (m : Move)
    (h : cellKind m.pieceMoved ≠ some PKind.P) : promoStep b m = b := by
  unfold promoStep
  rcases hp : m.pieceMoved with _ | ⟨cl, k⟩
  · rfl
  · cases k
    case P => exact absurd (by rw [hp]; rfl) h
    all_goals rfl

theorem promoStep_pawn (b : Board) (m : Move) (cl : PColor)
    (hpm : m.pieceMoved = some (cl, PKind.P)) :
    promoStep b m = (if m.isPawnPromotion then
      setSq b m.endRow m.endCol (some (cl, PKind.Q)) else b) := by
  unfold promoStep
  rw [hpm]

theorem makeBoard_plain (B : Board) (m : Move)
    (hep : m.isEnPassantMove = false) (hcast : m.isCastleMove = false) :
    makeBoard B m = promoStep (setSq (setSq B m.startRow m.startCol none)
      m.endRow m.endCol m.pieceMoved) m := by
  unfold makeBoard
  simp only [hep, hcast, Bool.false_eq_true, if_false]

theorem makeBoard_epm (B : Board) (m : Move)
    (hep : m.isEnPassantMove = true) (hcast : m.isCastleMove = false) :
    makeBoard B m = setSq (promoStep (setSq (setSq B m.startRow m.startCol none)
      m.endRow m.endCol m.pieceMoved) m) m.startRow m.endCol none := by
  unfold makeBoard
  simp only [hep, hcast, Bool.false_eq_true, if_false, if_true]

theorem makeBoard_ks (B : Board) (m : Move) (cl : PColor)
    (hb : MoveBoardOK B m) (hcast : m.isCastleMove = true)
    (hpm : m.pieceMoved = some (cl, PKind.K)) (hec : m.endCol = 6) :
    makeBoard B m = setSq (setSq (setSq (setSq B m.startRow 4 none)
      m.startRow 6 m.pieceMoved) m.startRow 5 (getSq B m.startRow 7))
      m.startRow 7 none := by
  have hep : m.isEnPassantMove = false := by
    cases h : m.isEnPassantMove
    · rfl
    · exact absurd hcast (by simp [hb.ep_not_castle h])
  have hrow : m.endRow = m.startRow := hb.castle_row hcast
  have hcol4 : m.startCol = 4 := hb.castle_col hcast
  have b1 := hb.srlo
  have b2 := hb.srhi
  have hM : makeBoard B m =
      setSq (setSq (setSq (setSq B m.startRow 4 none) m.startRow 6 m.pieceMoved)
          m.startRow 5
          (getSq (setSq (setSq B m.startRow 4 none) m.startRow 6 m.pieceMoved)
            m.startRow 7))
        m.startRow 7 none := by
    unfold makeBoard
    rw [promoStep_king _ _ _ hpm]
    simp only [hep, hcast, hrow, hec, hcol4, Bool.false_eq_true, if_false, if_true]
    norm_num
  rw [hM, getSq_setSq_other _ m.startRow 6 m.startRow 7 _ b1 b2 (by norm_num)
        (by norm_num) b1 b2 (by norm_num) (by norm_num) (by omega),
      getSq_setSq_other _ m.startRow 4 m.startRow 7 _ b1 b2 (by norm_num)
        (by norm_num) b1 b2 (by norm_num) (by norm_num) (by omega)]

theorem makeBoard_qs (B : Board) (m : Move) (cl : PColor)
    (hb : MoveBoardOK B m) (hcast : m.isCastleMove = true)
    (hpm : m.pieceMoved = some (cl, PKind.K)) (hec : m.endCol = 2) :
    makeBoard B m = setSq (setSq (setSq (setSq B m.startRow 4 none)
      m.startRow 2 m.pieceMoved) m.startRow 3 (getSq B m.startRow 0))
      m.startRow 0 none := by
  have hep : m.isEnPassantMove = false := by
    cases h : m.isEnPassantMove
    · rfl
    · exact absurd hcast (by simp [hb.ep_not_castle h])
  have hrow : m.endRow = m.startRow := hb.castle_row hcast
  have hcol4 : m.startCol = 4 := hb.castle_col hcast
  have b1 := hb.srlo
  have b2 := hb.srhi
  have hM : makeBoard B m =
      setSq (setSq (setSq (setSq B m.startRow 4 none) m.startRow 2 m.pieceMoved)
          m.startRow 3
          (getSq (setSq (setSq B m.startRow 4 none) m.startRow 2 m.pieceMoved)
            m.startRow 0))
        m.startRow 0 none := by
    unfold makeBoard
    rw [promoStep_king _ _ _ hpm]
    simp only [hep, hcast, hrow, hec, hcol4, Bool.false_eq_true, if_false, if_true]
    norm_num
  rw [hM, getSq_setSq_other _ m.startRow 2 m.startRow 0 _ b1 b2 (by norm_num)
        (by norm_num) b1 b2 (by norm_num) (by norm_num) (by omega),
      getSq_setSq_other _ m.startRow 4 m.startRow 0 _ b1 b2 (by norm_num)
        (by norm_num) b1 b2 (by norm_num) (by norm_num) (by omega)]

theorem getSq_mb_plain_off (B : Board) (m : Move) (hb : MoveBoardOK B m)
    (hep : m.isEnPassantMove = false) (hcast : m.isCastleMove = false)
    (x y : Int) (hx0 : 0 ≤ x) (hx8 : x < 8) (hy0 : 0 ≤ y) (hy8 : y < 8)
    (hneE : x ≠ m.endRow ∨ y ≠ m.endCol)
    (hneS : x ≠ m.startRow ∨ y ≠ m.startCol) :
    getSq (makeBoard B m) x y = getSq B x y := by
  rw [makeBoard_plain B m hep hcast,
      getSq_promoStep_off _ _ _ _ hb.erlo hb.erhi hb.eclo hb.echi
        hx0 hx8 hy0 hy8 (hneE.imp Ne.symm Ne.symm),
      getSq_setSq_other _ m.endRow m.endCol x y _ hb.erlo hb.erhi hb.eclo
        hb.echi hx0 hx8 hy0 hy8 (hneE.imp Ne.symm Ne.symm),
      getSq_setSq_other _ m.startRow m.startCol x y _ hb.srlo hb.srhi hb.sclo
        hb.schi hx0 hx8 hy0 hy8 (hneS.imp Ne.symm Ne.symm)]

theorem getSq_mb_plain_start (B : Board) (m : Move) (hwf : boardWF B)
    (hb : MoveBoardOK B m)
    (hep : m.isEnPassantMove = false) (hcast : m.isCastleMove = false)
    (hne : m.startRow ≠ m.endRow ∨ m.startCol ≠ m.endCol) :
    getSq (makeBoard B m) m.startRow m.startCol = none := by
  rw [makeBoard_plain B m hep hcast,
      getSq_promoStep_off _ _ _ _ hb.erlo hb.erhi hb.eclo hb.echi
        hb.srlo hb.srhi hb.sclo hb.schi (hne.imp Ne.symm Ne.symm),
      getSq_setSq_other _ m.endRow m.endCol m.startRow m.startCol _ hb.erlo
        hb.erhi hb.eclo hb.echi hb.srlo hb.srhi hb.sclo hb.schi
        (hne.imp Ne.symm Ne.symm),
      getSq_setSq_same _ _ _ _ hwf hb.srlo hb.srhi hb.sclo hb.schi]

theorem getSq_mb_plain_end_nonpawn (B : Board) (m : Move) (hwf : boardWF B)
    (hb : MoveBoardOK B m)
    (hep : m.isEnPassantMove = false) (hcast : m.isCastleMove = false)
    (hk : cellKind m.pieceMoved ≠ some PKind.P) :
    getSq (makeBoard B m) m.endRow m.endCol = m.pieceMoved := by
  rw [makeBoard_plain B m hep hcast, promoStep_nonpawn _ _ hk,
      getSq_setSq_same _ _ _ _ (boardWF_setSq _ _ _ _ hwf) hb.erlo hb.erhi
        hb.eclo hb.echi]

theorem getSq_mb_plain_end_pawn (B : Board) (m : Move) (cl : PColor)
    (hwf : boardWF B) (hb : MoveBoardOK B m)
    (hep : m.isEnPassantMove = false) (hcast : m.isCastleMove = false)
    (hpm : m.pieceMoved = some (cl, PKind.P)) :
    getSq (makeBoard B m) m.endRow m.endCol =
      (if m.isPawnPromotion then some (cl, PKind.Q) else m.pieceMoved) := by
  rw [makeBoard_plain B m hep hcast, promoStep_pawn _ _ cl hpm]
  by_cases hf : m.isPawnPromotion = true
  · rw [if_pos hf, if_pos hf,
        getSq_setSq_same _ _ _ _
          (boardWF_setSq _ _ _ _ (boardWF_setSq _ _ _ _ hwf)) hb.erlo hb.erhi
          hb.eclo hb.echi]
  · rw [if_neg hf, if_neg hf,
        getSq_setSq_same _ _ _ _ (boardWF_setSq _ _ _ _ hwf) hb.erlo hb.erhi
        hb.eclo hb.echi]

theorem getSq_mb_ep_end (B : Board) (m : Move) (cl : PColor) (hwf : boardWF B)
    (hb : MoveBoardOK B m)
    (hep : m.isEnPassantMove = true) (hcast : m.isCastleMove = false)
    (hpm : m.pieceMoved = some (cl, PKind.P)) (hpp : m.isPawnPromotion = false) :
    getSq (makeBoard B m) m.endRow m.endCol = m.pieceMoved := by
  rw [makeBoard_epm B m hep hcast,
      getSq_setSq_other _ m.startRow m.endCol m.endRow m.endCol _ hb.srlo
        hb.srhi hb.eclo hb.echi hb.erlo hb.erhi hb.eclo hb.echi
        (Or.inl (hb.ep_row hep)),
      promoStep_pawn _ _ cl hpm, hpp]
  rw [if_neg (by simp),
      getSq_setSq_same _ _ _ _ (boardWF_setSq _ _ _ _ hwf) hb.erlo hb.erhi
        hb.eclo hb.echi]

theorem getSq_mb_ep_cap (B : Board) (m : Move) (hwf : boardWF B)
    (hb : MoveBoardOK B m)
    (hep : m.isEnPassantMove = true) (hcast : m.isCastleMove = false) :
    getSq (makeBoard B m) m.startRow m.endCol = none := by
  rw [makeBoard_epm B m hep hcast,
      getSq_setSq_same _ _ _ _
        (boardWF_promoStep _ _ (boardWF_setSq _ _ _ _ (boardWF_setSq _ _ _ _ hwf)))
        hb.srlo hb.srhi hb.eclo hb.echi]

theorem getSq_mb_ep_start (B : Board) (m : Move) (hwf : boardWF B)
    (hb : MoveBoardOK B m)
    (hep : m.isEnPassantMove = true) (hcast : m.isCastleMove = false) :
    getSq (makeBoard B m) m.startRow m.startCol = none := by
  rw [makeBoard_epm B m hep hcast,
      getSq_setSq_other _ m.startRow m.endCol m.startRow m.startCol _ hb.srlo
        hb.srhi hb.eclo hb.echi hb.srlo hb.srhi hb.sclo hb.schi
        (Or.inr (Ne.symm (hb.ep_col hep))),
      getSq_promoStep_off _ _ _ _ hb.erlo hb.erhi hb.eclo hb.echi
        hb.srlo hb.srhi hb.sclo hb.schi (Or.inl (Ne.symm (hb.ep_row hep))),
      getSq_setSq_other _ m.endRow m.endCol m.startRow m.startCol _ hb.erlo
        hb.erhi hb.eclo hb.echi hb.srlo hb.srhi hb.sclo hb.schi
        (Or.inl (Ne.symm (hb.ep_row hep))),
      getSq_setSq_same _ _ _ _ hwf hb.srlo hb.srhi hb.sclo hb.schi]

theorem getSq_mb_ep_off (B : Board) (m : Move) (hb : MoveBoardOK B m)
    (hep : m.isEnPassantMove = true) (hcast : m.isCastleMove = false)
    (x y : Int) (hx0 : 0 ≤ x) (hx8 : x < 8) (hy0 : 0 ≤ y) (hy8 : y < 8)
    (hneE : x ≠ m.endRow ∨ y ≠ m.endCol)
    (hneS : x ≠ m.startRow ∨ y ≠ m.startCol)
    (hneC : x ≠ m.startRow ∨ y ≠ m.endCol) :
    getSq (makeBoard B m) x y = getSq B x y := by
  rw [makeBoard_epm B m hep hcast,
      getSq_setSq_other _ m.startRow m.endCol x y _ hb.srlo hb.srhi hb.eclo
        hb.echi hx0 hx8 hy0 hy8 (hneC.imp Ne.symm Ne.symm),
      getSq_promoStep_off _ _ _ _ hb.erlo hb.erhi hb.eclo hb.echi
        hx0 hx8 hy0 hy8 (hneE.imp Ne.symm Ne.symm),
      getSq_setSq_other _ m.endRow m.endCol x y _ hb.erlo hb.erhi hb.eclo
        hb.echi hx0 hx8 hy0 hy8 (hneE.imp Ne.symm Ne.symm),
      getSq_setSq_other _ m.startRow m.startCol x y _ hb.srlo hb.srhi hb.sclo
        hb.schi hx0 hx8 hy0 hy8 (hneS.imp Ne.symm Ne.symm)]

theorem getSq_mb_ks_corner (B : Board) (m : Move) (cl : PColor)
    (hwf : boardWF B) (hb : MoveBoardOK B m) (hcast : m.isCastleMove = true)
    (hpm : m.pieceMoved = some (cl, PKind.K)) (hec : m.endCol = 6) :
    getSq (makeBoard B m) m.startRow 7 = none := by
  rw [makeBoard_ks B m cl hb hcast hpm hec,
      getSq_setSq_same _ _ _ _
        (boardWF_setSq _ _ _ _ (boardWF_setSq _ _ _ _ (boardWF_setSq _ _ _ _ hwf)))
        hb.srlo hb.srhi (by norm_num) (by norm_num)]

theorem getSq_mb_ks_rook (B : Board) (m : Move) (cl : PColor)
    (hwf : boardWF B) (hb : MoveBoardOK B m) (hcast : m.isCastleMove = true)
    (hpm : m.pieceMoved = some (cl, PKind.K)) (hec : m.endCol = 6) :
    getSq (makeBoard B m) m.startRow 5 = getSq B m.startRow 7 := by
  rw [makeBoard_ks B m cl hb hcast hpm hec,
      getSq_setSq_other _ m.startRow 7 m.startRow 5 _ hb.srlo hb.srhi
        (by norm_num) (by norm_num) hb.srlo hb.srhi (by norm_num) (by norm_num)
        (by omega),
      getSq_setSq_same _ _ _ _
        (boardWF_setSq _ _ _ _ (boardWF_setSq _ _ _ _ hwf))
        hb.srlo hb.srhi (by norm_num) (by norm_num)]

theorem getSq_mb_ks_king (B : Board) (m : Move) (cl : PColor)
    (hwf : boardWF B) (hb : MoveBoardOK B m) (hcast : m.isCastleMove = true)
    (hpm : m.pieceMoved = some (cl, PKind.K)) (hec : m.endCol = 6) :
    getSq (makeBoard B m) m.startRow 6 = m.pieceMoved := by
  rw [makeBoard_ks B m cl hb hcast hpm hec,
      getSq_setSq_other _ m.startRow 7 m.startRow 6 _ hb.srlo hb.srhi
        (by norm_num) (by norm_num) hb.srlo hb.srhi (by norm_num) (by norm_num)
        (by omega),
      getSq_setSq_other _ m.startRow 5 m.startRow 6 _ hb.srlo hb.srhi
        (by norm_num) (by norm_num) hb.srlo hb.srhi (by norm_num) (by norm_num)
        (by omega),
      getSq_setSq_same _ _ _ _ (boardWF_setSq _ _ _ _ hwf)
        hb.srlo hb.srhi (by norm_num) (by norm_num)]

theorem getSq_mb_ks_home (B : Board) (m : Move) (cl : PColor)
    (hwf : boardWF B) (hb : MoveBoardOK B m) (hcast : m.isCastleMove = true)
    (hpm : m.pieceMoved = some (cl, PKind.K)) (hec : m.endCol = 6) :
    getSq (makeBoard B m) m.startRow 4 = none := by
  rw [makeBoard_ks B m cl hb hcast hpm hec,
      getSq_setSq_other _ m.startRow 7 m.startRow 4 _ hb.srlo hb.srhi
        (by norm_num) (by norm_num) hb.srlo hb.srhi (by norm_num) (by norm_num)
        (by omega),
      getSq_setSq_other _ m.startRow 5 m.startRow 4 _ hb.srlo hb.srhi
        (by norm_num) (by norm_num) hb.srlo hb.srhi (by norm_num) (by norm_num)
        (by omega),
      getSq_setSq_other _ m.startRow 6 m.startRow 4 _ hb.srlo hb.srhi
        (by norm_num) (by norm_num) hb.srlo hb.srhi (by norm_num) (by norm_num)
        (by omega),
      getSq_setSq_same _ _ _ _ hwf hb.srlo hb.srhi (by norm_num) (by norm_num)]

theorem getSq_mb_ks_off (B : Board) (m : Move) (cl : PColor)
    (hb : MoveBoardOK B m) (hcast : m.isCastleMove = true)
    (hpm : m.pieceMoved = some (cl, PKind.K)) (hec : m.endCol = 6)
    (x y : Int) (hx0 : 0 ≤ x) (hx8 : x < 8) (hy0 : 0 ≤ y) (hy8 : y < 8)
    (h4 : x ≠ m.startRow ∨ y ≠ 4) (h5 : x ≠ m.startRow ∨ y ≠ 5)
    (h6 : x ≠ m.startRow ∨ y ≠ 6) (h7 : x ≠ m.startRow ∨ y ≠ 7) :
    getSq (makeBoard B m) x y = getSq B x y := by
  rw [makeBoard_ks B m cl hb hcast hpm hec,
      getSq_setSq_other _ m.startRow 7 x y _ hb.srlo hb.srhi
        (by norm_num) (by norm_num) hx0 hx8 hy0 hy8 (h7.imp Ne.symm Ne.symm),
      getSq_setSq_other _ m.startRow 5 x y _ hb.srlo hb.srhi
        (by norm_num) (by norm_num) hx0 hx8 hy0 hy8 (h5.imp Ne.symm Ne.symm),
      getSq_setSq_other _ m.startRow 6 x y _ hb.srlo hb.srhi
        (by norm_num) (by norm_num) hx0 hx8 hy0 hy8 (h6.imp Ne.symm Ne.symm),
      getSq_setSq_other _ m.startRow 4 x y _ hb.srlo hb.srhi
        (by norm_num) (by norm_num) hx0 hx8 hy0 hy8 (h4.imp Ne.symm Ne.symm)]

theorem getSq_mb_qs_corner (B : Board) (m : Move) (cl : PColor)
    (hwf : boardWF B) (hb : MoveBoardOK B m) (hcast : m.isCastleMove = true)
    (hpm : m.pieceMoved = some (cl, PKind.K)) (hec : m.endCol = 2) :
    getSq (makeBoard B m) m.startRow 0 = none := by
  rw [makeBoard_qs B m cl hb hcast hpm hec,
      getSq_setSq_same _ _ _ _
        (boardWF_setSq _ _ _ _ (boardWF_setSq _ _ _ _ (boardWF_setSq _ _ _ _ hwf)))
        hb.srlo hb.srhi (by norm_num) (by norm_num)]

theorem getSq_mb_qs_rook (B : Board) (m : Move) (cl : PColor)
    (hwf : boardWF B) (hb : MoveBoardOK B m) (hcast : m.isCastleMove = true)
    (hpm : m.pieceMoved = some (cl, PKind.K)) (hec : m.endCol = 2) :
    getSq (makeBoard B m) m.startRow 3 = getSq B m.startRow 0 := by
  rw [makeBoard_qs B m cl hb hcast hpm hec,
      getSq_setSq_other _ m.startRow 0 m.startRow 3 _ hb.srlo hb.srhi
        (by norm_num) (by norm_num) hb.srlo hb.srhi (by norm_num) (by norm_num)
        (by omega),
      getSq_setSq_same _ _ _ _
        (boardWF_setSq _ _ _ _ (boardWF_setSq _ _ _ _ hwf))
        hb.srlo hb.srhi (by norm_num) (by norm_num)]

theorem getSq_mb_qs_king (B : Board) (m : Move) (cl : PColor)
    (hwf : boardWF B) (hb : MoveBoardOK B m) (hcast : m.isCastleMove = true)
    (hpm : m.pieceMoved = some (cl, PKind.K)) (hec : m.endCol = 2) :
    getSq (makeBoard B m) m.startRow 2 = m.pieceMoved := by
  rw [makeBoard_qs B m cl hb hcast hpm hec,
      getSq_setSq_other _ m.startRow 0 m.startRow 2 _ hb.srlo hb.srhi
        (by norm_num) (by norm_num) hb.srlo hb.srhi (by norm_num) (by norm_num)
        (by omega),
      getSq_setSq_other _ m.startRow 3 m.startRow 2 _ hb.srlo hb.srhi
        (by norm_num) (by norm_num) hb.srlo hb.srhi (by norm_num) (by norm_num)
        (by omega),
      getSq_setSq_same _ _ _ _ (boardWF_setSq _ _ _ _ hwf)
        hb.srlo hb.srhi (by norm_num) (by norm_num)]

theorem getSq_mb_qs_home (B : Board) (m : Move) (cl : PColor)
    (hwf : boardWF B) (hb : MoveBoardOK B m) (hcast : m.isCastleMove = true)
    (hpm : m.pieceMoved = some (cl, PKind.K)) (hec : m.endCol = 2) :
    getSq (makeBoard B m) m.startRow 4 = none := by
  rw [makeBoard_qs B m cl hb hcast hpm hec,
      getSq_setSq_other _ m.startRow 0 m.startRow 4 _ hb.srlo hb.srhi
        (by norm_num) (by norm_num) hb.srlo hb.srhi (by norm_num) (by norm_num)
        (by omega),
      getSq_setSq_other _ m.startRow 3 m.startRow 4 _ hb.srlo hb.srhi
        (by norm_num) (by norm_num) hb.srlo hb.srhi (by norm_num) (by norm_num)
        (by omega),
      getSq_setSq_other _ m.startRow 2 m.startRow 4 _ hb.srlo hb.srhi
        (by norm_num) (by norm_num) hb.srlo hb.srhi (by norm_num) (by norm_num)
        (by omega),
      getSq_setSq_same _ _ _ _ hwf hb.srlo hb.srhi (by norm_num) (by norm_num)]

theorem getSq_mb_qs_off (B : Board) (m : Move) (cl : PColor)
    (hb : MoveBoardOK B m) (hcast : m.isCastleMove = true)
    (hpm : m.pieceMoved = some (cl, PKind.K)) (hec : m.endCol = 2)
    (x y : Int) (hx0 : 0 ≤ x) (hx8 : x < 8) (hy0 : 0 ≤ y) (hy8 : y < 8)
    (h4 : x ≠ m.startRow ∨ y ≠ 4) (h3 : x ≠ m.startRow ∨ y ≠ 3)
    (h2 : x ≠ m.startRow ∨ y ≠ 2) (h0 : x ≠ m.startRow ∨ y ≠ 0) :
    getSq (makeBoard B m) x y = getSq B x y := by
  rw [makeBoard_qs B m cl hb hcast hpm hec,
      getSq_setSq_other _ m.startRow 0 x y _ hb.srlo hb.srhi
        (by norm_num) (by norm_num) hx0 hx8 hy0 hy8 (h0.imp Ne.symm Ne.symm),
      getSq_setSq_other _ m.startRow 3 x y _ hb.srlo hb.srhi
        (by norm_num) (by norm_num) hx0 hx8 hy0 hy8 (h3.imp Ne.symm Ne.symm),
      getSq_setSq_other _ m.startRow 2 x y _ hb.srlo hb.srhi
        (by norm_num) (by norm_num) hx0 hx8 hy0 hy8 (h2.imp Ne.symm Ne.symm),
      getSq_setSq_other _ m.startRow 4 x y _ hb.srlo hb.srhi
        (by norm_num) (by norm_num) hx0 hx8 hy0 hy8 (h4.imp Ne.symm Ne.symm)]

/-- The stored promotion flag of any constructed `Move` satisfies the
(buggy) formula of `Move.__init__`. -/
def flagOK (m : Move) : Prop :=
  m.isPawnPromotion = true ↔
    ((m.pieceMoved = some (PColor.w, PKind.P) ∧ m.endRow = 0) ∨ m.endRow = 7)

theorem mkMove_flagOK (s e : Int × Int) (B : Board) (ep cs : Bool) :
    flagOK (mkMove s e B ep cs) := by
  unfold flagOK mkMove
  dsimp only
  simp [Bool.or_eq_true, Bool.and_eq_true, decide_eq_true_eq]

theorem rayMoves_shape (gs : GameState) (r c dr dc : Int) (enemy : PColor) :
    ∀ fuel i, ∀ m ∈ rayMoves gs r c dr dc enemy fuel i,
      ∃ er ec, m = mkMove (r, c) (er, ec) gs.board false false ∧
        (getSq gs.board er ec = none ∨
         cellColor (getSq gs.board er ec) = some enemy) := by
  intro fuel
  induction fuel with
  | zero =>
    intro i m hm
    simp [rayMoves] at hm
  | succ n ih =>
    intro i m hm
    unfold rayMoves at hm
    dsimp only at hm
    split_ifs at hm with hbnd
    · rcases hcell : getSq gs.board (r + dr * i) (c + dc * i) with _ | ⟨pc, k⟩
      · rw [hcell] at hm
        rcases List.mem_cons.1 hm with rfl | hm2
        · exact ⟨_, _, rfl, Or.inl hcell⟩
        · exact ih (i + 1) m hm2
      · rw [hcell] at hm
        dsimp only at hm
        split_ifs at hm with hpc
        · rw [List.mem_singleton] at hm
          subst hm
          refine ⟨_, _, rfl, Or.inr ?_⟩
          rw [hcell, hpc]
          rfl
        · simp at hm
    · simp at hm

theorem offsetMoves_shape (gs : GameState) (r c : Int) (ally : PColor)
    (offs : List (Int × Int)) (m : Move)
    (hm : m ∈ offs.flatMap (fun o =>
      let er := r + o.1
      let ec := c + o.2
      if 0 ≤ er ∧ er < 8 ∧ 0 ≤ ec ∧ ec < 8 then
        (if cellColor (getSq gs.board er ec) ≠ some ally then
          [mkMove (r, c) (er, ec) gs.board false false]
         else [])
      else [])) :
    ∃ er ec, m = mkMove (r, c) (er, ec) gs.board false false ∧
      cellColor (getSq gs.board er ec) ≠ some ally := by
  rcases List.mem_flatMap.1 hm with ⟨o, ho, hmo⟩
  dsimp only at hmo
  split_ifs at hmo with h1 h2
  · rw [List.mem_singleton] at hmo
    subst hmo
    exact ⟨_, _, rfl, h2⟩
  · simp at hmo
  · simp at hmo

theorem castleMoves_shape (gs : GameState) (kr kc : Int) :
    ∀ m ∈ getCastleMoves gs kr kc,
      m = mkMove (kr, kc) (kr, kc + 2) gs.board false true ∨
      m = mkMove (kr, kc) (kr, kc - 2) gs.board false true := by
  intro m hm
  unfold getCastleMoves getKingSideCastleMoves getQueenSideCastleMoves at hm
  split_ifs at hm
  all_goals simp only [List.mem_append, List.mem_cons, List.mem_singleton,
    List.not_mem_nil, or_false, false_or] at hm
  all_goals repeat' rcases hm with hm | hm
  all_goals
    first
      | exact Or.inl rfl
      | exact Or.inr rfl

theorem pawnMoves_shape (gs : GameState) (r c : Int) :
    ∀ m ∈ getPawnMoves gs r c,
      (∃ er ec, m = mkMove (r, c) (er, ec) gs.board false false ∧
        (er = r - 1 ∨ er = r + 1) ∧
        (getSq gs.board er ec = none ∨
         (gs.whiteToMove = true ∧
            cellColor (getSq gs.board er ec) = some PColor.b) ∨
         (gs.whiteToMove = false ∧
            cellColor (getSq gs.board er ec) = some PColor.w))) ∨
      (∃ er ec, m = mkMove (r, c) (er, ec) gs.board true false ∧
        gs.enPassantPossible = some (er, ec) ∧
        ((gs.whiteToMove = true ∧ er = r - 1) ∨
         (gs.whiteToMove = false ∧ er = r + 1))) ∨
      ((gs.whiteToMove = true ∧ (r = 6 ∧ getSq gs.board (r - 2) c = none) ∧
          getSq gs.board (r - 1) c = none ∧
          m = mkMove (r, c) (r - 2, c) gs.board false false) ∨
       (gs.whiteToMove = false ∧ (r = 1 ∧ getSq gs.board (r + 2) c = none) ∧
          getSq gs.board (r + 1) c = none ∧
          m = mkMove (r, c) (r + 2, c) gs.board false false)) := by
  intro m hm
  unfold getPawnMoves at hm
  split_ifs at hm
  all_goals simp only [List.mem_append, List.mem_cons, List.mem_singleton,
    List.not_mem_nil, or_false, false_or] at hm
  all_goals repeat' rcases hm with hm | hm
  all_goals
    first
      | exact Or.inl ⟨_, _, rfl, by omega, Or.inl (by assumption)⟩
      | exact Or.inl ⟨_, _, rfl, by omega,
          Or.inr (Or.inl ⟨by assumption, by assumption⟩)⟩
      | exact Or.inl ⟨_, _, rfl, by omega,
          Or.inr (Or.inr ⟨Bool.eq_false_iff.mpr (by assumption), by assumption⟩)⟩
      | exact Or.inr (Or.inl ⟨_, _, rfl, by assumption,
          Or.inl ⟨by assumption, by norm_num⟩⟩)
      | exact Or.inr (Or.inl ⟨_, _, rfl, by assumption,
          Or.inr ⟨Bool.eq_false_iff.mpr (by assumption), by norm_num⟩⟩)
      | exact Or.inr (Or.inr (Or.inl ⟨by assumption, by assumption,
          by assumption, rfl⟩))
      | exact Or.inr (Or.inr (Or.inr ⟨Bool.eq_false_iff.mpr (by assumption),
          by assumption, by assumption, rfl⟩))

/-- Extra facts every pseudo-move generated by `getAllPossibleMoves` enjoys,
beyond `MoveOK`: provenance of its flags, its destination cell and the
two-square pawn advance data that `makeMove` turns into the en-passant
target. -/
structure GenFacts (gs : GameState) (m : Move) : Prop where
  not_castle : m.isCastleMove = false
  flag : flagOK m
  moved_side : cellColor m.pieceMoved = some (sideColor gs)
  end_ok : getSq gs.board m.endRow m.endCol = none ∨
    cellColor (getSq gs.board m.endRow m.endCol) ≠ cellColor m.pieceMoved
  ep_pawn : m.isEnPassantMove = true →
    m.pieceMoved = some (sideColor gs, PKind.P) ∧
    gs.enPassantPossible = some (m.endRow, m.endCol) ∧
    ((gs.whiteToMove = true ∧ m.endRow = m.startRow - 1) ∨
     (gs.whiteToMove = false ∧ m.endRow = m.startRow + 1))
  dbl : cellKind m.pieceMoved = some PKind.P →
    (m.startRow - m.endRow = 2 ∨ m.endRow - m.startRow = 2) →
    (m.endCol = m.startCol ∧ m.isEnPassantMove = false ∧
     getSq gs.board ((m.startRow + m.endRow).fdiv 2) m.startCol = none ∧
     ((gs.whiteToMove = true ∧ m.startRow = 6 ∧ m.endRow = 4) ∨
      (gs.whiteToMove = false ∧ m.startRow = 1 ∧ m.endRow = 3)))

theorem enemy_ne_side (gs : GameState) :
    (if gs.whiteToMove then PColor.b else PColor.w) ≠ sideColor gs := by
  unfold sideColor
  by_cases h : gs.whiteToMove = true <;> simp [h]

theorem normalExists_GenFacts (gs : GameState) (m : Move) (r c : Int)
    (pc : PColor) (kind : PKind) (hknp : kind ≠ PKind.P)
    (hcell : getSq gs.board r c = some (pc, kind))
    (hcolmatch : pc = sideColor gs)
    (hex : ∃ er ec, m = mkMove (r, c) (er, ec) gs.board false false ∧
      (getSq gs.board er ec = none ∨
       cellColor (getSq gs.board er ec) ≠ some (sideColor gs))) :
    GenFacts gs m := by
  obtain ⟨er, ec, hmeq, hend⟩ := hex
  subst hmeq
  refine ⟨rfl, mkMove_flagOK _ _ _ _ _, ?_, ?_, ?_, ?_⟩
  · rw [show (mkMove (r, c) (er, ec) gs.board false false).pieceMoved
        = getSq gs.board r c from rfl, hcell, hcolmatch]
    rfl
  · rcases hend with h | h
    · exact Or.inl h
    · refine Or.inr ?_
      rw [show (mkMove (r, c) (er, ec) gs.board false false).pieceMoved
          = getSq gs.board r c from rfl, hcell, hcolmatch]
      exact h
  · intro h
    simp [mkMove] at h
  · intro hk
    rw [show (mkMove (r, c) (er, ec) gs.board false false).pieceMoved
        = getSq gs.board r c from rfl, hcell] at hk
    simp [cellKind] at hk
    exact absurd hk hknp

theorem pawn_GenFacts (gs : GameState) (ri ci : Nat) (m : Move) (pc : PColor)
    (hepE : ∀ er ec, gs.enPassantPossible = some (er, ec) →
      getSq gs.board er ec = none)
    (hcell : getSq gs.board (ri : Int) (ci : Int) = some (pc, PKind.P))
    (hcolmatch : pc = sideColor gs)
    (hm : m ∈ getPawnMoves gs (ri : Int) (ci : Int)) :
    GenFacts gs m := by
  have hmv : ∀ er ec ep,
      (mkMove ((ri : Int), (ci : Int)) (er, ec) gs.board ep false).pieceMoved
        = some (sideColor gs, PKind.P) := by
    intro er ec ep
    rw [show (mkMove ((ri : Int), (ci : Int)) (er, ec) gs.board ep
        false).pieceMoved = getSq gs.board (ri : Int) (ci : Int) from rfl,
      hcell, hcolmatch]
  rcases pawnMoves_shape gs _ _ m hm with
    ⟨er, ec, hmeq, her, htar⟩ | ⟨er, ec, hmeq, heptar, hside⟩ |
    ⟨hw, ⟨hr, hend2⟩, hmid, hmeq⟩ | ⟨hw, ⟨hr, hend2⟩, hmid, hmeq⟩
  · subst hmeq
    refine ⟨rfl, mkMove_flagOK _ _ _ _ _, by rw [hmv]; rfl, ?_, ?_, ?_⟩
    · rcases htar with h | ⟨hww, h⟩ | ⟨hww, h⟩
      · exact Or.inl h
      · refine Or.inr ?_
        show cellColor (getSq gs.board er ec) ≠ cellColor
          ((mkMove ((ri : Int), (ci : Int)) (er, ec) gs.board
            false false).pieceMoved)
        rw [hmv, h]
        unfold sideColor
        rw [hww]
        simp [cellColor]
      · refine Or.inr ?_
        show cellColor (getSq gs.board er ec) ≠ cellColor
          ((mkMove ((ri : Int), (ci : Int)) (er, ec) gs.board
            false false).pieceMoved)
        rw [hmv, h]
        unfold sideColor
        rw [hww]
        simp [cellColor]
    · intro h
      simp [mkMove] at h
    · intro _ habs
      simp only [mkMove] at habs
      omega
  · subst hmeq
    refine ⟨rfl, mkMove_flagOK _ _ _ _ _, by rw [hmv]; rfl, ?_, ?_, ?_⟩
    · exact Or.inl (hepE _ _ heptar)
    · intro _
      exact ⟨hmv _ _ _, heptar, by
        rcases hside with ⟨hww, hee⟩ | ⟨hww, hee⟩
        · exact Or.inl ⟨hww, by simp only [mkMove]; omega⟩
        · exact Or.inr ⟨hww, by simp only [mkMove]; omega⟩⟩
    · intro _ habs
      simp only [mkMove] at habs
      rcases hside with ⟨hww, hee⟩ | ⟨hww, hee⟩ <;> omega
  · subst hmeq
    refine ⟨rfl, mkMove_flagOK _ _ _ _ _, by rw [hmv]; rfl, ?_, ?_, ?_⟩
    · exact Or.inl hend2
    · intro h
      simp [mkMove] at h
    · intro _ _
      refine ⟨rfl, rfl, ?_, Or.inl ⟨hw, hr, by show (ri : Int) - 2 = 4; omega⟩⟩
      show getSq gs.board (((ri : Int) + ((ri : Int) - 2)).fdiv 2) (ci : Int)
        = none
      have hf : ((ri : Int) + ((ri : Int) - 2)).fdiv 2 = (ri : Int) - 1 := by
        have h2 : (ri : Int) + ((ri : Int) - 2) = 2 * ((ri : Int) - 1) := by
          ring
        rw [h2, Int.mul_fdiv_cancel_left _ (by norm_num)]
      rw [hf]
      exact hmid
  · subst hmeq
    refine ⟨rfl, mkMove_flagOK _ _ _ _ _, by rw [hmv]; rfl, ?_, ?_, ?_⟩
    · exact Or.inl hend2
    · intro h
      simp [mkMove] at h
    · intro _ _
      refine ⟨rfl, rfl, ?_, Or.inr ⟨hw, hr, by show (ri : Int) + 2 = 3; omega⟩⟩
      show getSq gs.board (((ri : Int) + ((ri : Int) + 2)).fdiv 2) (ci : Int)
        = none
      have hf : ((ri : Int) + ((ri : Int) + 2)).fdiv 2 = (ri : Int) + 1 := by
        have h2 : (ri : Int) + ((ri : Int) + 2) = 2 * ((ri : Int) + 1) := by
          ring
        rw [h2, Int.mul_fdiv_cancel_left _ (by norm_num)]
      rw [hf]
      exact hmid

theorem getAllPossibleMoves_facts (gs : GameState)
    (hepE : ∀ er ec, gs.enPassantPossible = some (er, ec) →
      getSq gs.board er ec = none) :
    ∀ m ∈ getAllPossibleMoves gs, GenFacts gs m := by
  intro m hm
  unfold getAllPossibleMoves at hm
  rcases List.mem_flatMap.1 hm with ⟨ri, hri, hm2⟩
  rcases List.mem_flatMap.1 hm2 with ⟨ci, hci, hm3⟩
  dsimp only at hm3
  rcases hcell : getSq gs.board (ri : Int) (ci : Int) with _ | ⟨pc, kind⟩
  · rw [hcell] at hm3
    simp at hm3
  · rw [hcell] at hm3
    dsimp only at hm3
    split_ifs at hm3 with hside
    · have hcolmatch : pc = sideColor gs := by
        unfold sideColor
        rcases hside with ⟨h1, h2⟩ | ⟨h1, h2⟩
        · rw [if_pos h2, h1]
        · rw [if_neg h2, h1]
      cases kind
      · unfold getKingMoves at hm3
        obtain ⟨er, ec, hmeq, hne⟩ := offsetMoves_shape gs _ _ _ _ m hm3
        exact normalExists_GenFacts gs m _ _ pc PKind.K (by simp) hcell
          hcolmatch ⟨er, ec, hmeq, Or.inr hne⟩
      · unfold getQueenMoves getRookMoves getBishopMoves at hm3
        rcases List.mem_append.1 hm3 with hq | hq <;>
        · rcases List.mem_flatMap.1 hq with ⟨d, _, hmr⟩
          obtain ⟨er, ec, hmeq, hend⟩ := rayMoves_shape gs _ _ d.1 d.2 _ 7 1 m hmr
          refine normalExists_GenFacts gs m _ _ pc PKind.Q (by simp) hcell
            hcolmatch ⟨er, ec, hmeq, ?_⟩
          rcases hend with h | h
          · exact Or.inl h
          · refine Or.inr ?_
            rw [h]
            intro hcc
            exact enemy_ne_side gs (Option.some.inj hcc)
      · unfold getRookMoves at hm3
        rcases List.mem_flatMap.1 hm3 with ⟨d, _, hmr⟩
        obtain ⟨er, ec, hmeq, hend⟩ := rayMoves_shape gs _ _ d.1 d.2 _ 7 1 m hmr
        refine normalExists_GenFacts gs m _ _ pc PKind.R (by simp) hcell
          hcolmatch ⟨er, ec, hmeq, ?_⟩
        rcases hend with h | h
        · exact Or.inl h
        · refine Or.inr ?_
          rw [h]
          intro hcc
          exact enemy_ne_side gs (Option.some.inj hcc)
      · unfold getBishopMoves at hm3
        rcases List.mem_flatMap.1 hm3 with ⟨d, _, hmr⟩
        obtain ⟨er, ec, hmeq, hend⟩ := rayMoves_shape gs _ _ d.1 d.2 _ 7 1 m hmr
        refine normalExists_GenFacts gs m _ _ pc PKind.B (by simp) hcell
          hcolmatch ⟨er, ec, hmeq, ?_⟩
        rcases hend with h | h
        · exact Or.inl h
        · refine Or.inr ?_
          rw [h]
          intro hcc
          exact enemy_ne_side gs (Option.some.inj hcc)
      · unfold getKnightMoves at hm3
        obtain ⟨er, ec, hmeq, hne⟩ := offsetMoves_shape gs _ _ _ _ m hm3
        exact normalExists_GenFacts gs m _ _ pc PKind.N (by simp) hcell
          hcolmatch ⟨er, ec, hmeq, Or.inr hne⟩
      · exact pawn_GenFacts gs ri ci m pc hepE hcell hcolmatch hm3
    · simp at hm3

theorem WF_epE (gs : GameState) (hwf : WF gs) :
    ∀ er ec, gs.enPassantPossible = some (er, ec) →
      getSq gs.board er ec = none := by
  intro er ec h
  by_cases hwt : gs.whiteToMove = true
  · obtain ⟨h1, _, _, _, h5⟩ := epOK_white gs er ec hwf.2.2.1 hwt h
    rw [h1]
    exact h5
  · obtain ⟨h1, _, _, _, h5⟩ :=
      epOK_black gs er ec hwf.2.2.1 (Bool.eq_false_iff.mpr hwt) h
    rw [h1]
    exact h5

theorem getValidMoves_facts (gs : GameState) (hwf : WF gs) :
    ∀ m ∈ (getValidMoves gs).1,
      MoveOK gs m ∧ postMoveCheck gs m = false ∧
      (m.isCastleMove = false → GenFacts gs m) ∧
      (m.isCastleMove = true →
        m.pieceMoved = some (sideColor gs, PKind.K)) := by
  intro m hm
  have hepE := WF_epE gs hwf
  have hl : ∀ m ∈ getAllPossibleMoves gs ++
      getCastleMoves gs
        (if gs.whiteToMove then gs.whiteKingLocation
         else gs.blackKingLocation).1
        (if gs.whiteToMove then gs.whiteKingLocation
         else gs.blackKingLocation).2, MoveOK gs m := by
    intro m hm
    rcases List.mem_append.1 hm with h | h
    · exact getAllPossibleMoves_ok gs hwf m h
    · exact castleMoves_ok gs hwf _ _ rfl m h
  have hmem := checkFilter_mem gs hwf.1 hwf.2.2.2.2.2.1 hepE _ hl m hm
  obtain ⟨hml, hpost⟩ := hmem
  refine ⟨hl m hml, hpost, ?_, ?_⟩
  · intro hnc
    rcases List.mem_append.1 hml with h | h
    · exact getAllPossibleMoves_facts gs hepE m h
    · rcases castleMoves_shape gs _ _ m h with rfl | rfl <;> simp [mkMove] at hnc
  · intro hc
    rcases List.mem_append.1 hml with h | h
    · exact absurd hc (by
        rw [(getAllPossibleMoves_facts gs hepE m h).not_castle]
        simp)
    · by_cases hwt : gs.whiteToMove = true
      · simp only [hwt, if_true] at h
        rcases castleMoves_shape gs _ _ m h with rfl | rfl <;>
        · rw [show (mkMove (gs.whiteKingLocation.1, gs.whiteKingLocation.2) _
              gs.board false true).pieceMoved
              = getSq gs.board gs.whiteKingLocation.1 gs.whiteKingLocation.2
              from rfl]
          unfold sideColor
          rw [if_pos hwt]
          exact hwf.2.1.2.2.2.2.2.2.2.2.1
      · simp only [hwt, Bool.false_eq_true, if_false] at h
        rcases castleMoves_shape gs _ _ m h with rfl | rfl <;>
        · rw [show (mkMove (gs.blackKingLocation.1, gs.blackKingLocation.2) _
              gs.board false true).pieceMoved
              = getSq gs.board gs.blackKingLocation.1 gs.blackKingLocation.2
              from rfl]
          unfold sideColor
          rw [if_neg hwt]
          exact hwf.2.1.2.2.2.2.2.2.2.2.2.1

theorem makeMove_board (gs : GameState) (m : Move) :
    (makeMove gs m).board = makeBoard gs.board m := rfl

theorem makeMove_w (gs : GameState) (m : Move) :
    (makeMove gs m).whiteToMove = !gs.whiteToMove := rfl

theorem makeMove_wk (gs : GameState) (m : Move) :
    (makeMove gs m).whiteKingLocation =
      if m.pieceMoved = some (PColor.w, PKind.K) then (m.endRow, m.endCol)
      else gs.whiteKingLocation := rfl

theorem makeMove_bk (gs : GameState) (m : Move) :
    (makeMove gs m).blackKingLocation =
      if m.pieceMoved = some (PColor.w, PKind.K) then gs.blackKingLocation
      else if m.pieceMoved = some (PColor.b, PKind.K) then
        (m.endRow, m.endCol)
      else gs.blackKingLocation := rfl

theorem makeMove_rights (gs : GameState) (m : Move) :
    (makeMove gs m).currentCastlingRight =
      updateCastleRights gs.currentCastlingRight m := rfl

theorem makeMove_ep (gs : GameState) (m : Move) :
    (makeMove gs m).enPassantPossible =
      if cellKind m.pieceMoved = some PKind.P ∧
          (m.startRow - m.endRow = 2 ∨ m.endRow - m.startRow = 2) then
        some ((m.startRow + m.endRow).fdiv 2, m.startCol)
      else none := rfl

theorem makeMove_log (gs : GameState) (m : Move) :
    (makeMove gs m).castleRightsLog.getLast?
      = some (makeMove gs m).currentCastlingRight := by
  show (gs.castleRightsLog ++
    [updateCastleRights gs.currentCastlingRight m]).getLast? = _
  simp [makeMove_rights]

theorem updateCastleRights_wkill (cr : CastleRights) (m : Move)
    (hk : m.pieceMoved = some (PColor.w, PKind.K)) :
    (updateCastleRights cr m).wks = false ∧
    (updateCastleRights cr m).wqs = false := by
  unfold updateCastleRights
  rw [if_pos hk]
  exact ⟨rfl, rfl⟩

theorem updateCastleRights_bkill (cr : CastleRights) (m : Move)
    (hk : m.pieceMoved = some (PColor.b, PKind.K)) :
    (updateCastleRights cr m).bks = false ∧
    (updateCastleRights cr m).bqs = false := by
  unfold updateCastleRights
  rw [if_neg (by rw [hk]; simp), if_pos hk]
  exact ⟨rfl, rfl⟩

theorem castleHomeOK_make (gs : GameState) (m : Move)
    (hch : castleHomeOK gs) : castleHomeOK (makeMove gs m) := by
  constructor
  · intro hr
    by_cases hk : m.pieceMoved = some (PColor.w, PKind.K)
    · exfalso
      rw [makeMove_rights] at hr
      rcases hr with hr | hr
      · rw [(updateCastleRights_wkill _ m hk).1] at hr
        cases hr
      · rw [(updateCastleRights_wkill _ m hk).2] at hr
        cases hr
    · rw [makeMove_wk, if_neg hk]
      apply hch.1
      rw [makeMove_rights] at hr
      rcases hr with hr | hr
      · exact Or.inl (updateCastleRights_mono _ m Wing.wks hr)
      · exact Or.inr (updateCastleRights_mono _ m Wing.wqs hr)
  · intro hr
    by_cases hk : m.pieceMoved = some (PColor.b, PKind.K)
    · exfalso
      rw [makeMove_rights] at hr
      rcases hr with hr | hr
      · rw [(updateCastleRights_bkill _ m hk).1] at hr
        cases hr
      · rw [(updateCastleRights_bkill _ m hk).2] at hr
        cases hr
    · rw [makeMove_bk]
      by_cases hwk : m.pieceMoved = some (PColor.w, PKind.K)
      · rw [if_pos hwk]
        apply hch.2
        rw [makeMove_rights] at hr
        rcases hr with hr | hr
        · exact Or.inl (updateCastleRights_mono _ m Wing.bks hr)
        · exact Or.inr (updateCastleRights_mono _ m Wing.bqs hr)
      · rw [if_neg hwk, if_neg hk]
        apply hch.2
        rw [makeMove_rights] at hr
        rcases hr with hr | hr
        · exact Or.inl (updateCastleRights_mono _ m Wing.bks hr)
        · exact Or.inr (updateCastleRights_mono _ m Wing.bqs hr)

theorem pawnsOK_int (gs : GameState) (h : pawnsOK gs) :
    ∀ y : Int, 0 ≤ y → y < 8 →
      getSq gs.board 0 y ≠ some (PColor.w, PKind.P) ∧
      getSq gs.board 7 y ≠ some (PColor.b, PKind.P) := by
  intro y h0 h8
  have h2 := h y.toNat (by omega)
  rwa [show ((y.toNat : Nat) : Int) = y by omega] at h2

theorem castle_cell_cases (B : Board) (m : Move) (cl : PColor)
    (hwfb : boardWF B) (hb : MoveBoardOK B m) (hcast : m.isCastleMove = true)
    (hpm : m.pieceMoved = some (cl, PKind.K)) (x y : Int)
    (hx0 : 0 ≤ x) (hx8 : x < 8) (hy0 : 0 ≤ y) (hy8 : y < 8) :
    getSq (makeBoard B m) x y = none ∨
    getSq (makeBoard B m) x y = m.pieceMoved ∨
    (x = m.startRow ∧ (getSq (makeBoard B m) x y = getSq B x 7 ∨
      getSq (makeBoard B m) x y = getSq B x 0)) ∨
    getSq (makeBoard B m) x y = getSq B x y := by
  rcases hb.castle_side hcast with ⟨hec, _⟩ | ⟨hec, _⟩
  · by_cases hxr : x = m.startRow
    · by_cases h7 : y = 7
      · rw [hxr, h7]
        exact Or.inl (getSq_mb_ks_corner B m cl hwfb hb hcast hpm hec)
      · by_cases h5 : y = 5
        · rw [hxr, h5]
          refine Or.inr (Or.inr (Or.inl ⟨rfl, Or.inl ?_⟩))
          rw [getSq_mb_ks_rook B m cl hwfb hb hcast hpm hec]
        · by_cases h6 : y = 6
          · rw [hxr, h6]
            exact Or.inr (Or.inl (getSq_mb_ks_king B m cl hwfb hb hcast hpm hec))
          · by_cases h4 : y = 4
            · rw [hxr, h4]
              exact Or.inl (getSq_mb_ks_home B m cl hwfb hb hcast hpm hec)
            · refine Or.inr (Or.inr (Or.inr ?_))
              rw [getSq_mb_ks_off B m cl hb hcast hpm hec x y hx0 hx8 hy0 hy8
                (Or.inr h4) (Or.inr h5) (Or.inr h6) (Or.inr h7)]
    · refine Or.inr (Or.inr (Or.inr ?_))
      rw [getSq_mb_ks_off B m cl hb hcast hpm hec x y hx0 hx8 hy0 hy8
        (Or.inl hxr) (Or.inl hxr) (Or.inl hxr) (Or.inl hxr)]
  · by_cases hxr : x = m.startRow
    · by_cases h0 : y = 0
      · rw [hxr, h0]
        exact Or.inl (getSq_mb_qs_corner B m cl hwfb hb hcast hpm hec)
      · by_cases h3 : y = 3
        · rw [hxr, h3]
          refine Or.inr (Or.inr (Or.inl ⟨rfl, Or.inr ?_⟩))
          rw [getSq_mb_qs_rook B m cl hwfb hb hcast hpm hec]
        · by_cases h2 : y = 2
          · rw [hxr, h2]
            exact Or.inr (Or.inl (getSq_mb_qs_king B m cl hwfb hb hcast hpm hec))
          · by_cases h4 : y = 4
            · rw [hxr, h4]
              exact Or.inl (getSq_mb_qs_home B m cl hwfb hb hcast hpm hec)
            · refine Or.inr (Or.inr (Or.inr ?_))
              rw [getSq_mb_qs_off B m cl hb hcast hpm hec x y hx0 hx8 hy0 hy8
                (Or.inr h4) (Or.inr h3) (Or.inr h2) (Or.inr h0)]
    · refine Or.inr (Or.inr (Or.inr ?_))
      rw [getSq_mb_qs_off B m cl hb hcast hpm hec x y hx0 hx8 hy0 hy8
        (Or.inl hxr) (Or.inl hxr) (Or.inl hxr) (Or.inl hxr)]

theorem plain_cell_cases (B : Board) (m : Move)
    (hwfb : boardWF B) (hb : MoveBoardOK B m)
    (hep : m.isEnPassantMove = false) (hcast : m.isCastleMove = false)
    (x y : Int) (hx0 : 0 ≤ x) (hx8 : x < 8) (hy0 : 0 ≤ y) (hy8 : y < 8) :
    getSq (makeBoard B m) x y = getSq B x y ∨
    getSq (makeBoard B m) x y = none ∨
    (x = m.endRow ∧ y = m.endCol ∧
      ((getSq (makeBoard B m) x y = m.pieceMoved ∧
          cellKind m.pieceMoved ≠ some PKind.P) ∨
       (∃ cl, m.pieceMoved = some (cl, PKind.P) ∧
          ((m.isPawnPromotion = true ∧
              getSq (makeBoard B m) x y = some (cl, PKind.Q)) ∨
           (m.isPawnPromotion = false ∧
              getSq (makeBoard B m) x y = m.pieceMoved))))) := by
  by_cases hE : x = m.endRow ∧ y = m.endCol
  · refine Or.inr (Or.inr ⟨hE.1, hE.2, ?_⟩)
    by_cases hP : ∃ cl, m.pieceMoved = some (cl, PKind.P)
    · obtain ⟨cl, hk⟩ := hP
      refine Or.inr ⟨cl, hk, ?_⟩
      by_cases hf : m.isPawnPromotion = true
      · refine Or.inl ⟨hf, ?_⟩
        rw [hE.1, hE.2, getSq_mb_plain_end_pawn B m cl hwfb hb hep hcast hk,
          if_pos hf]
      · refine Or.inr ⟨Bool.eq_false_iff.mpr hf, ?_⟩
        rw [hE.1, hE.2, getSq_mb_plain_end_pawn B m cl hwfb hb hep hcast hk,
          if_neg hf]
    · have hknp : cellKind m.pieceMoved ≠ some PKind.P := by
        intro hc
        rcases hmq : m.pieceMoved with _ | ⟨cl2, k2⟩
        · rw [hmq] at hc
          simp [cellKind] at hc
        · rw [hmq] at hc
          simp [cellKind] at hc
          exact hP ⟨cl2, by rw [hmq, hc]⟩
      refine Or.inl ⟨?_, hknp⟩
      rw [hE.1, hE.2]
      exact getSq_mb_plain_end_nonpawn B m hwfb hb hep hcast hknp
  · by_cases hS : x = m.startRow ∧ y = m.startCol
    · refine Or.inr (Or.inl ?_)
      rw [hS.1, hS.2]
      apply getSq_mb_plain_start B m hwfb hb hep hcast
      rcases not_and_or.1 hE with h | h
      · exact Or.inl (hS.1 ▸ h)
      · exact Or.inr (hS.2 ▸ h)
    · refine Or.inl ?_
      rw [getSq_mb_plain_off B m hb hep hcast x y hx0 hx8 hy0 hy8
        (not_and_or.1 hE) (not_and_or.1 hS)]

theorem ep_cell_cases (B : Board) (m : Move) (cl : PColor)
    (hwfb : boardWF B) (hb : MoveBoardOK B m)
    (hep : m.isEnPassantMove = true) (hcast : m.isCastleMove = false)
    (hpm : m.pieceMoved = some (cl, PKind.P)) (hpp : m.isPawnPromotion = false)
    (x y : Int) (hx0 : 0 ≤ x) (hx8 : x < 8) (hy0 : 0 ≤ y) (hy8 : y < 8) :
    getSq (makeBoard B m) x y = getSq B x y ∨
    getSq (makeBoard B m) x y = none ∨
    (x = m.endRow ∧ y = m.endCol ∧
      getSq (makeBoard B m) x y = m.pieceMoved) := by
  by_cases hE : x = m.endRow ∧ y = m.endCol
  · refine Or.inr (Or.inr ⟨hE.1, hE.2, ?_⟩)
    rw [hE.1, hE.2]
    exact getSq_mb_ep_end B m cl hwfb hb hep hcast hpm hpp
  · by_cases hS : x = m.startRow ∧ y = m.startCol
    · refine Or.inr (Or.inl ?_)
      rw [hS.1, hS.2]
      exact getSq_mb_ep_start B m hwfb hb hep hcast
    · by_cases hC : x = m.startRow ∧ y = m.endCol
      · refine Or.inr (Or.inl ?_)
        rw [hC.1, hC.2]
        exact getSq_mb_ep_cap B m hwfb hb hep hcast
      · refine Or.inl ?_
        rw [getSq_mb_ep_off B m hb hep hcast x y hx0 hx8 hy0 hy8
          (not_and_or.1 hE) (not_and_or.1 hS) (not_and_or.1 hC)]

theorem flagOK_neg (m : Move) (hf : flagOK m) (hfp : m.isPawnPromotion = false) :
    ¬((m.pieceMoved = some (PColor.w, PKind.P) ∧ m.endRow = 0) ∨
      m.endRow = 7) := by
  intro hr
  rw [hf.mpr hr] at hfp
  cases hfp

theorem pawnsOK_make (gs : GameState) (m : Move)
    (hwfb : boardWF gs.board) (hok : MoveOK gs m) (hpw : pawnsOK gs)
    (hgen : m.isCastleMove = false → GenFacts gs m)
    (hcastle : m.isCastleMove = true →
      m.pieceMoved = some (sideColor gs, PKind.K))
    (heprow : m.isEnPassantMove = true →
      m.isPawnPromotion = false ∧ m.endRow ≠ 0 ∧ m.endRow ≠ 7 ∧
      ∃ cl, m.pieceMoved = some (cl, PKind.P)) :
    pawnsOK (makeMove gs m) := by
  have hb := hok.boardOK
  have hPI := pawnsOK_int gs hpw
  intro j hj
  have hj0 : (0 : Int) ≤ (j : Int) := by omega
  have hj8 : (j : Int) < 8 := by omega
  rw [makeMove_board]
  by_cases hcast : m.isCastleMove = true
  · have hpm := hcastle hcast
    constructor
    · rcases castle_cell_cases gs.board m _ hwfb hb hcast hpm 0 (j : Int)
          (by norm_num) (by norm_num) hj0 hj8 with h | h | ⟨hx, h | h⟩ | h
      · rw [h]
        simp
      · rw [h, hpm]
        simp
      · rw [h]
        exact (hPI 7 (by norm_num) (by norm_num)).1
      · rw [h]
        exact (hPI 0 (by norm_num) (by norm_num)).1
      · rw [h]
        exact (hPI _ hj0 hj8).1
    · rcases castle_cell_cases gs.board m _ hwfb hb hcast hpm 7 (j : Int)
          (by norm_num) (by norm_num) hj0 hj8 with h | h | ⟨hx, h | h⟩ | h
      · rw [h]
        simp
      · rw [h, hpm]
        simp
      · rw [h]
        exact (hPI 7 (by norm_num) (by norm_num)).2
      · rw [h]
        exact (hPI 0 (by norm_num) (by norm_num)).2
      · rw [h]
        exact (hPI _ hj0 hj8).2
  · have hnc : m.isCastleMove = false := Bool.eq_false_iff.mpr hcast
    have hg := hgen hnc
    by_cases hepc : m.isEnPassantMove = true
    · obtain ⟨hpp, hne0, hne7, cl, hpm⟩ := heprow hepc
      constructor
      · rcases ep_cell_cases gs.board m cl hwfb hb hepc hnc hpm hpp 0 (j : Int)
            (by norm_num) (by norm_num) hj0 hj8 with h | h | ⟨hx, _, h⟩
        · rw [h]
          exact (hPI _ hj0 hj8).1
        · rw [h]
          simp
        · exact absurd hx.symm hne0
      · rcases ep_cell_cases gs.board m cl hwfb hb hepc hnc hpm hpp 7 (j : Int)
            (by norm_num) (by norm_num) hj0 hj8 with h | h | ⟨hx, _, h⟩
        · rw [h]
          exact (hPI _ hj0 hj8).2
        · rw [h]
          simp
        · exact absurd hx.symm hne7
    · have hepf : m.isEnPassantMove = false := Bool.eq_false_iff.mpr hepc
      constructor
      · rcases plain_cell_cases gs.board m hwfb hb hepf hnc 0 (j : Int)
            (by norm_num) (by norm_num) hj0 hj8 with h | h |
            ⟨hx, hy, ⟨h, hknp⟩ | ⟨cl, hpm, ⟨_, h⟩ | ⟨hfp, h⟩⟩⟩
        · rw [h]
          exact (hPI _ hj0 hj8).1
        · rw [h]
          simp
        · rw [h]
          intro hc
          exact hknp (by rw [hc]; rfl)
        · rw [h]
          simp
        · rw [h, hpm]
          intro hc
          have hclw : cl = PColor.w := by
            have h2 := Option.some.inj hc
            exact congrArg Prod.fst h2
          exact flagOK_neg m hg.flag hfp (Or.inl ⟨by rw [hpm, hclw], hx.symm⟩)
      · rcases plain_cell_cases gs.board m hwfb hb hepf hnc 7 (j : Int)
            (by norm_num) (by norm_num) hj0 hj8 with h | h |
            ⟨hx, hy, ⟨h, hknp⟩ | ⟨cl, hpm, ⟨_, h⟩ | ⟨hfp, h⟩⟩⟩
        · rw [h]
          exact (hPI _ hj0 hj8).2
        · rw [h]
          simp
        · rw [h]
          intro hc
          exact hknp (by rw [hc]; rfl)
        · rw [h]
          simp
        · rw [h, hpm]
          intro hc
          exact flagOK_neg m hg.flag hfp (Or.inr hx.symm)

theorem epOK_make (gs : GameState) (m : Move)
    (hwfb : boardWF gs.board) (hok : MoveOK gs m)
    (hgen : m.isCastleMove = false → GenFacts gs m)
    (hcastle : m.isCastleMove = true →
      m.pieceMoved = some (sideColor gs, PKind.K)) :
    epOK (makeMove gs m) := by
  have hb := hok.boardOK
  unfold epOK epOKb
  by_cases hdc : cellKind m.pieceMoved = some PKind.P ∧
      (m.startRow - m.endRow = 2 ∨ m.endRow - m.startRow = 2)
  · have hnc : m.isCastleMove = false := by
      cases hc : m.isCastleMove
      · rfl
      · exfalso
        have h2 := hdc.1
        rw [hcastle hc] at h2
        simp [cellKind] at h2
    have hg := hgen hnc
    obtain ⟨hcol, hepf, hmid, hsides⟩ := hg.dbl hdc.1 hdc.2
    have hpm : m.pieceMoved = some (sideColor gs, PKind.P) := by
      rcases hq : m.pieceMoved with _ | ⟨c2, k2⟩
      · have h1 := hdc.1
        rw [hq] at h1
        simp [cellKind] at h1
      · have h1 := hdc.1
        rw [hq] at h1
        simp [cellKind] at h1
        have h2 := hg.moved_side
        rw [hq] at h2
        simp [cellColor] at h2
        rw [h1, h2]
    have hfp : m.isPawnPromotion = false := by
      cases hf : m.isPawnPromotion
      · rfl
      · exfalso
        rcases hg.flag.mp hf with ⟨_, h0⟩ | h7 <;>
          rcases hsides with ⟨_, h6, h4⟩ | ⟨_, h1, h3⟩ <;> omega
    have hend : getSq (makeBoard gs.board m) m.endRow m.endCol
        = m.pieceMoved := by
      rw [getSq_mb_plain_end_pawn gs.board m (sideColor gs) hwfb hb hepf hnc
        hpm, if_neg (by rw [hfp]; simp)]
    rw [makeMove_ep, if_pos hdc]
    dsimp only
    rcases hsides with ⟨hwt, h6, h4⟩ | ⟨hwt, h1, h3⟩
    · have hfd : (m.startRow + m.endRow).fdiv 2 = 5 := by
        rw [h6, h4]
        decide
      have hsw : sideColor gs = PColor.w := by
        unfold sideColor
        rw [hwt]
        simp
      have h4end : getSq (makeBoard gs.board m) 4 m.startCol
          = some (PColor.w, PKind.P) := by
        rw [← h4, ← hcol, hend, hpm, hsw]
      have hmid5 : getSq (makeBoard gs.board m) 5 m.startCol = none := by
        rw [getSq_mb_plain_off gs.board m hb hepf hnc 5 m.startCol
          (by norm_num) (by norm_num) hb.sclo hb.schi (Or.inl (by omega))
          (Or.inl (by omega))]
        rw [hfd] at hmid
        exact hmid
      rw [makeMove_w, hwt]
      simp only [Bool.not_true, Bool.false_eq_true, if_false, makeMove_board]
      rw [hfd]
      simp [h4end, hmid5, hb.sclo, hb.schi]
    · have hfd : (m.startRow + m.endRow).fdiv 2 = 2 := by
        rw [h1, h3]
        decide
      have hsb : sideColor gs = PColor.b := by
        unfold sideColor
        rw [hwt]
        simp
      have h3end : getSq (makeBoard gs.board m) 3 m.startCol
          = some (PColor.b, PKind.P) := by
        rw [← h3, ← hcol, hend, hpm, hsb]
      have hmid2 : getSq (makeBoard gs.board m) 2 m.startCol = none := by
        rw [getSq_mb_plain_off gs.board m hb hepf hnc 2 m.startCol
          (by norm_num) (by norm_num) hb.sclo hb.schi (Or.inl (by omega))
          (Or.inl (by omega))]
        rw [hfd] at hmid
        exact hmid
      rw [makeMove_w, hwt]
      simp only [Bool.not_false, if_true, makeMove_board]
      rw [hfd]
      simp [h3end, hmid2, hb.sclo, hb.schi]
  · rw [makeMove_ep, if_neg hdc]

theorem getPawnMoves_congr (s t : GameState) (hb : s.board = t.board)
    (hw : s.whiteToMove = t.whiteToMove)
    (hep : s.enPassantPossible = t.enPassantPossible) (r c : Int) :
    getPawnMoves s r c = getPawnMoves t r c := by
  unfold getPawnMoves
  rw [hb, hw, hep]

theorem gAPM_congr (s t : GameState) (hb : s.board = t.board)
    (hw : s.whiteToMove = t.whiteToMove)
    (hep : s.enPassantPossible = t.enPassantPossible) :
    getAllPossibleMoves s = getAllPossibleMoves t := by
  unfold getAllPossibleMoves
  congr 1
  funext ri
  congr 1
  funext ci
  dsimp only
  rw [hb, hw]
  rcases hcell : getSq t.board (ri : Int) (ci : Int) with _ | ⟨pc, kind⟩
  · rfl
  · dsimp only
    split_ifs
    · cases kind
      · exact getKingMoves_congr s t hb hw _ _
      · exact getQueenMoves_congr s t hb hw _ _
      · exact getRookMoves_congr s t hb hw _ _
      · exact getBishopMoves_congr s t hb hw _ _
      · exact getKnightMoves_congr s t hb hw _ _
      · exact getPawnMoves_congr s t hb hw hep _ _
    · rfl

theorem underAttack_any (s : GameState) (r c : Int) :
    underAttack s r c =
      ((getAllPossibleMoves { s with whiteToMove := !s.whiteToMove }).any
        fun m2 => m2.endRow == r && m2.endCol == c) := rfl

theorem oppKingSafe_no_capture (gs : GameState) (hsafe : oppKingSafe gs = true) :
    ∀ m ∈ getAllPossibleMoves gs,
      (gs.whiteToMove = true →
        ¬(m.endRow = gs.blackKingLocation.1 ∧
          m.endCol = gs.blackKingLocation.2)) ∧
      (gs.whiteToMove = false →
        ¬(m.endRow = gs.whiteKingLocation.1 ∧
          m.endCol = gs.whiteKingLocation.2)) := by
  intro m hm
  constructor
  · intro hwt
    rintro ⟨he1, he2⟩
    unfold oppKingSafe at hsafe
    rw [if_pos hwt] at hsafe
    have hua : underAttack { gs with whiteToMove := false }
        gs.blackKingLocation.1 gs.blackKingLocation.2 = false := by
      simpa using hsafe
    rw [underAttack_any] at hua
    have hlist : getAllPossibleMoves
        ({ { gs with whiteToMove := false } with
           whiteToMove := !({ gs with whiteToMove := false }).whiteToMove })
        = getAllPossibleMoves gs := by
      apply gAPM_congr
      · rfl
      · show (!(false : Bool)) = gs.whiteToMove
        rw [hwt]
        rfl
      · rfl
    rw [hlist] at hua
    have h2 : ((getAllPossibleMoves gs).any fun m2 =>
        m2.endRow == gs.blackKingLocation.1 &&
        m2.endCol == gs.blackKingLocation.2) = true :=
      List.any_eq_true.2 ⟨m, hm, by simp [he1, he2]⟩
    rw [h2] at hua
    cases hua
  · intro hwt
    rintro ⟨he1, he2⟩
    unfold oppKingSafe at hsafe
    rw [if_neg (by rw [hwt]; simp)] at hsafe
    have hua : underAttack { gs with whiteToMove := true }
        gs.whiteKingLocation.1 gs.whiteKingLocation.2 = false := by
      simpa using hsafe
    rw [underAttack_any] at hua
    have hlist : getAllPossibleMoves
        ({ { gs with whiteToMove := true } with
           whiteToMove := !({ gs with whiteToMove := true }).whiteToMove })
        = getAllPossibleMoves gs := by
      apply gAPM_congr
      · rfl
      · show (!(true : Bool)) = gs.whiteToMove
        rw [hwt]
        rfl
      · rfl
    rw [hlist] at hua
    have h2 : ((getAllPossibleMoves gs).any fun m2 =>
        m2.endRow == gs.whiteKingLocation.1 &&
        m2.endCol == gs.whiteKingLocation.2) = true :=
      List.any_eq_true.2 ⟨m, hm, by simp [he1, he2]⟩
    rw [h2] at hua
    cases hua

theorem gAPM_king_intro (gs : GameState) (ri ci : Nat) (hri : ri < 8)
    (hci : ci < 8) (pc : PColor)
    (hcell : getSq gs.board (ri : Int) (ci : Int) = some (pc, PKind.K))
    (hside : (pc = PColor.w ∧ gs.whiteToMove = true) ∨
      (pc = PColor.b ∧ ¬gs.whiteToMove = true))
    (m : Move) (hm : m ∈ getKingMoves gs (ri : Int) (ci : Int)) :
    m ∈ getAllPossibleMoves gs := by
  unfold getAllPossibleMoves
  refine List.mem_flatMap.2 ⟨ri, List.mem_range.2 hri,
    List.mem_flatMap.2 ⟨ci, List.mem_range.2 hci, ?_⟩⟩
  dsimp only
  rw [hcell]
  dsimp only
  rw [if_pos hside]
  exact hm

theorem getKingMoves_mem (gs : GameState) (r c o1 o2 : Int)
    (ho : ((o1, o2) : Int × Int) ∈
      [((-1 : Int), (-1 : Int)), (-1, 0), (-1, 1), (0, -1),
       (0, 1), (1, -1), (1, 0), (1, 1)])
    (hbnd : 0 ≤ r + o1 ∧ r + o1 < 8 ∧ 0 ≤ c + o2 ∧ c + o2 < 8)
    (hc : cellColor (getSq gs.board (r + o1) (c + o2)) ≠
      some (if gs.whiteToMove then PColor.w else PColor.b)) :
    mkMove (r, c) (r + o1, c + o2) gs.board false false ∈
      getKingMoves gs r c := by
  unfold getKingMoves
  refine List.mem_flatMap.2 ⟨(o1, o2), ho, ?_⟩
  dsimp only
  rw [if_pos hbnd, if_pos hc]
  exact List.mem_singleton.2 rfl

theorem castleMoves_cond (gs : GameState) (kr kc : Int) :
    ∀ m ∈ getCastleMoves gs kr kc,
      (m = mkMove (kr, kc) (kr, kc + 2) gs.board false true ∧
        getSq gs.board kr (kc + 1) = none ∧
        getSq gs.board kr (kc + 2) = none) ∨
      (m = mkMove (kr, kc) (kr, kc - 2) gs.board false true ∧
        getSq gs.board kr (kc - 1) = none ∧
        getSq gs.board kr (kc - 2) = none ∧
        getSq gs.board kr (kc - 3) = none) := by
  intro m hm
  unfold getCastleMoves getKingSideCastleMoves getQueenSideCastleMoves at hm
  split_ifs at hm
  all_goals simp only [List.mem_append, List.mem_cons, List.mem_singleton,
    List.not_mem_nil, or_false, false_or] at hm
  all_goals repeat' rcases hm with hm | hm
  all_goals
    first
      | exact Or.inl ⟨rfl, by
          have h := (by assumption : getSq gs.board kr (kc + 1) = none ∧
            getSq gs.board kr (kc + 2) = none)
          exact h.1, by
          have h := (by assumption : getSq gs.board kr (kc + 1) = none ∧
            getSq gs.board kr (kc + 2) = none)
          exact h.2⟩
      | exact Or.inr ⟨rfl, by
          have h := (by assumption : getSq gs.board kr (kc - 1) = none ∧
            getSq gs.board kr (kc - 2) = none ∧
            getSq gs.board kr (kc - 3) = none)
          exact h.1, by
          have h := (by assumption : getSq gs.board kr (kc - 1) = none ∧
            getSq gs.board kr (kc - 2) = none ∧
            getSq gs.board kr (kc - 3) = none)
          exact h.2.1, by
          have h := (by assumption : getSq gs.board kr (kc - 1) = none ∧
            getSq gs.board kr (kc - 2) = none ∧
            getSq gs.board kr (kc - 3) = none)
          exact h.2.2⟩

theorem getValidMoves_castle_cond (gs : GameState) (hwf : WF gs) :
    ∀ m ∈ (getValidMoves gs).1, m.isCastleMove = true →
      ((m.endCol = m.startCol + 2 ∧
          getSq gs.board m.startRow (m.startCol + 1) = none ∧
          getSq gs.board m.startRow (m.startCol + 2) = none) ∨
       (m.endCol = m.startCol - 2 ∧
          getSq gs.board m.startRow (m.startCol - 1) = none ∧
          getSq gs.board m.startRow (m.startCol - 2) = none ∧
          getSq gs.board m.startRow (m.startCol - 3) = none)) := by
  intro m hm hc
  have hepE := WF_epE gs hwf
  have hsub := checkFilter_subset gs _ m hm
  rcases List.mem_append.1 hsub with h | h
  · exact absurd hc (by
      rw [(getAllPossibleMoves_facts gs hepE m h).not_castle]
      simp)
  · rcases castleMoves_cond gs _ _ m h with ⟨rfl, h1, h2⟩ | ⟨rfl, h1, h2, h3⟩
    · exact Or.inl ⟨rfl, h1, h2⟩
    · exact Or.inr ⟨rfl, h1, h2, h3⟩

theorem getKingMoves_mem2 (gs : GameState) (r c er ec o1 o2 : Int)
    (ho : ((o1, o2) : Int × Int) ∈
      [((-1 : Int), (-1 : Int)), (-1, 0), (-1, 1), (0, -1),
       (0, 1), (1, -1), (1, 0), (1, 1)])
    (he1 : er = r + o1) (he2 : ec = c + o2)
    (hbnd : 0 ≤ er ∧ er < 8 ∧ 0 ≤ ec ∧ ec < 8)
    (hc : cellColor (getSq gs.board er ec) ≠
      some (if gs.whiteToMove then PColor.w else PColor.b)) :
    mkMove (r, c) (er, ec) gs.board false false ∈ getKingMoves gs r c := by
  subst he1
  subst he2
  exact getKingMoves_mem gs r c o1 o2 ho hbnd hc

theorem postMoveCheck_of_adjacent_king (gs : GameState) (m : Move)
    (sr yc yl : Int)
    (hsr0 : 0 ≤ sr) (hsr8 : sr < 8) (hyc0 : 0 ≤ yc) (hyc8 : yc < 8)
    (hyl0 : 0 ≤ yl) (hyl8 : yl < 8) (hadj : yl = yc + 1 ∨ yl = yc - 1)
    (hcopy : getSq (makeMove gs m).board sr yc =
      some ((if gs.whiteToMove then PColor.b else PColor.w), PKind.K))
    (hland : cellColor (getSq (makeMove gs m).board sr yl) =
      some (if gs.whiteToMove then PColor.w else PColor.b))
    (hloc : (if gs.whiteToMove then (makeMove gs m).whiteKingLocation
             else (makeMove gs m).blackKingLocation) = (sr, yl)) :
    postMoveCheck gs m = true := by
  unfold postMoveCheck
  by_cases hwt : gs.whiteToMove = true
  · have hu : ({ makeMove gs m with
        whiteToMove := !(makeMove gs m).whiteToMove }).whiteToMove = true := by
      show (!(makeMove gs m).whiteToMove) = true
      rw [makeMove_w, hwt]
      rfl
    unfold inCheck
    rw [if_pos hu]
    have hwk : ({ makeMove gs m with
        whiteToMove := !(makeMove gs m).whiteToMove }).whiteKingLocation
        = ((sr, yl) : Int × Int) := by
      show (makeMove gs m).whiteKingLocation = ((sr, yl) : Int × Int)
      rw [if_pos hwt] at hloc
      exact hloc
    rw [hwk]
    show underAttack { makeMove gs m with
      whiteToMove := !(makeMove gs m).whiteToMove }
      ((sr, yl) : Int × Int).1 ((sr, yl) : Int × Int).2 = true
    rw [underAttack_any]
    have hVe : getAllPossibleMoves
        { { makeMove gs m with whiteToMove := !(makeMove gs m).whiteToMove }
          with whiteToMove := !({ makeMove gs m with
            whiteToMove := !(makeMove gs m).whiteToMove }).whiteToMove }
        = getAllPossibleMoves
            { makeMove gs m with whiteToMove := false } := by
      apply gAPM_congr
      · rfl
      · show (!(!(makeMove gs m).whiteToMove)) = false
        rw [makeMove_w, hwt]
        rfl
      · rfl
    rw [hVe]
    apply List.any_eq_true.2
    refine ⟨mkMove (sr, yc) (sr, yl)
      ({ makeMove gs m with whiteToMove := false }).board false false,
      ?_, ?_⟩
    · apply gAPM_king_intro _ sr.toNat yc.toNat (by omega) (by omega) PColor.b
      · show getSq (makeMove gs m).board ((sr.toNat : Nat) : Int)
          ((yc.toNat : Nat) : Int) = some (PColor.b, PKind.K)
        rw [show (((sr.toNat : Nat) : Int)) = sr by omega,
          show (((yc.toNat : Nat) : Int)) = yc by omega]
        rw [if_pos hwt] at hcopy
        exact hcopy
      · exact Or.inr ⟨rfl, by simp⟩
      · rw [show (((sr.toNat : Nat) : Int)) = sr by omega,
          show (((yc.toNat : Nat) : Int)) = yc by omega]
        apply getKingMoves_mem2 _ sr yc sr yl 0 (yl - yc)
          (by
            rcases hadj with h | h
            · rw [show yl - yc = 1 by omega]
              simp
            · rw [show yl - yc = -1 by omega]
              simp)
          (by ring) (by ring) ⟨hsr0, hsr8, hyl0, hyl8⟩
        show cellColor (getSq (makeMove gs m).board sr yl) ≠
          some (if ({ makeMove gs m with whiteToMove := false }).whiteToMove
            then PColor.w else PColor.b)
        rw [if_pos hwt] at hland
        rw [hland]
        simp
    · simp [mkMove]
  · have hwf2 : gs.whiteToMove = false := Bool.eq_false_iff.mpr hwt
    have hu : ({ makeMove gs m with
        whiteToMove := !(makeMove gs m).whiteToMove }).whiteToMove = false := by
      show (!(makeMove gs m).whiteToMove) = false
      rw [makeMove_w, hwf2]
      rfl
    unfold inCheck
    rw [if_neg (by rw [hu]; simp)]
    have hbk : ({ makeMove gs m with
        whiteToMove := !(makeMove gs m).whiteToMove }).blackKingLocation
        = ((sr, yl) : Int × Int) := by
      show (makeMove gs m).blackKingLocation = ((sr, yl) : Int × Int)
      rw [if_neg (by rw [hwf2]; simp)] at hloc
      exact hloc
    rw [hbk]
    show underAttack { makeMove gs m with
      whiteToMove := !(makeMove gs m).whiteToMove }
      ((sr, yl) : Int × Int).1 ((sr, yl) : Int × Int).2 = true
    rw [underAttack_any]
    have hVe : getAllPossibleMoves
        { { makeMove gs m with whiteToMove := !(makeMove gs m).whiteToMove }
          with whiteToMove := !({ makeMove gs m with
            whiteToMove := !(makeMove gs m).whiteToMove }).whiteToMove }
        = getAllPossibleMoves
            { makeMove gs m with whiteToMove := true } := by
      apply gAPM_congr
      · rfl
      · show (!(!(makeMove gs m).whiteToMove)) = true
        rw [makeMove_w, hwf2]
        rfl
      · rfl
    rw [hVe]
    apply List.any_eq_true.2
    refine ⟨mkMove (sr, yc) (sr, yl)
      ({ makeMove gs m with whiteToMove := true }).board false false,
      ?_, ?_⟩
    · apply gAPM_king_intro _ sr.toNat yc.toNat (by omega) (by omega) PColor.w
      · show getSq (makeMove gs m).board ((sr.toNat : Nat) : Int)
          ((yc.toNat : Nat) : Int) = some (PColor.w, PKind.K)
        rw [show (((sr.toNat : Nat) : Int)) = sr by omega,
          show (((yc.toNat : Nat) : Int)) = yc by omega]
        rw [if_neg (by rw [hwf2]; simp)] at hcopy
        exact hcopy
      · exact Or.inl ⟨rfl, rfl⟩
      · rw [show (((sr.toNat : Nat) : Int)) = sr by omega,
          show (((yc.toNat : Nat) : Int)) = yc by omega]
        apply getKingMoves_mem2 _ sr yc sr yl 0 (yl - yc)
          (by
            rcases hadj with h | h
            · rw [show yl - yc = 1 by omega]
              simp
            · rw [show yl - yc = -1 by omega]
              simp)
          (by ring) (by ring) ⟨hsr0, hsr8, hyl0, hyl8⟩
        show cellColor (getSq (makeMove gs m).board sr yl) ≠
          some (if ({ makeMove gs m with whiteToMove := true }).whiteToMove
            then PColor.w else PColor.b)
        rw [if_neg (by rw [hwf2]; simp)] at hland
        rw [hland]
        simp
    · simp [mkMove]

theorem pair_ne_split (p : Int × Int) (a b : Int) (h : p ≠ (a, b)) :
    p.1 ≠ a ∨ p.2 ≠ b := by
  by_cases h1 : p.1 = a
  · refine Or.inr ?_
    intro h2
    exact h (Prod.ext h1 h2)
  · exact Or.inl h1

theorem ks_king_cells (B : Board) (m : Move) (cl : PColor)
    (hwfb : boardWF B) (hb : MoveBoardOK B m) (hcast : m.isCastleMove = true)
    (hpm : m.pieceMoved = some (cl, PKind.K)) (hec : m.endCol = 6)
    (x y : Int) (hx0 : 0 ≤ x) (hx8 : x < 8) (hy0 : 0 ≤ y) (hy8 : y < 8)
    (cl2 : PColor)
    (h : getSq (makeBoard B m) x y = some (cl2, PKind.K)) :
    (x = m.startRow ∧ y = 6 ∧ cl2 = cl) ∨
    (x = m.startRow ∧ y = 5 ∧ getSq B x 7 = some (cl2, PKind.K)) ∨
    (getSq B x y = some (cl2, PKind.K) ∧
      (x ≠ m.startRow ∨ (y ≠ 4 ∧ y ≠ 5 ∧ y ≠ 6 ∧ y ≠ 7))) := by
  by_cases hxr : x = m.startRow
  · by_cases h7 : y = 7
    · rw [hxr, h7, getSq_mb_ks_corner B m cl hwfb hb hcast hpm hec] at h
      cases h
    · by_cases h5 : y = 5
      · refine Or.inr (Or.inl ⟨hxr, h5, ?_⟩)
        rw [hxr, h5, getSq_mb_ks_rook B m cl hwfb hb hcast hpm hec] at h
        rw [hxr]
        exact h
      · by_cases h6 : y = 6
        · refine Or.inl ⟨hxr, h6, ?_⟩
          rw [hxr, h6, getSq_mb_ks_king B m cl hwfb hb hcast hpm hec, hpm] at h
          exact (congrArg Prod.fst (Option.some.inj h)).symm
        · by_cases h4 : y = 4
          · rw [hxr, h4, getSq_mb_ks_home B m cl hwfb hb hcast hpm hec] at h
            cases h
          · refine Or.inr (Or.inr ⟨?_, Or.inr ⟨h4, h5, h6, h7⟩⟩)
            rw [getSq_mb_ks_off B m cl hb hcast hpm hec x y hx0 hx8 hy0 hy8
              (Or.inr h4) (Or.inr h5) (Or.inr h6) (Or.inr h7)] at h
            exact h
  · refine Or.inr (Or.inr ⟨?_, Or.inl hxr⟩)
    rw [getSq_mb_ks_off B m cl hb hcast hpm hec x y hx0 hx8 hy0 hy8
      (Or.inl hxr) (Or.inl hxr) (Or.inl hxr) (Or.inl hxr)] at h
    exact h

theorem qs_king_cells (B : Board) (m : Move) (cl : PColor)
    (hwfb : boardWF B) (hb : MoveBoardOK B m) (hcast : m.isCastleMove = true)
    (hpm : m.pieceMoved = some (cl, PKind.K)) (hec : m.endCol = 2)
    (x y : Int) (hx0 : 0 ≤ x) (hx8 : x < 8) (hy0 : 0 ≤ y) (hy8 : y < 8)
    (cl2 : PColor)
    (h : getSq (makeBoard B m) x y = some (cl2, PKind.K)) :
    (x = m.startRow ∧ y = 2 ∧ cl2 = cl) ∨
    (x = m.startRow ∧ y = 3 ∧ getSq B x 0 = some (cl2, PKind.K)) ∨
    (getSq B x y = some (cl2, PKind.K) ∧
      (x ≠ m.startRow ∨ (y ≠ 4 ∧ y ≠ 3 ∧ y ≠ 2 ∧ y ≠ 0))) := by
  by_cases hxr : x = m.startRow
  · by_cases h0 : y = 0
    · rw [hxr, h0, getSq_mb_qs_corner B m cl hwfb hb hcast hpm hec] at h
      cases h
    · by_cases h3 : y = 3
      · refine Or.inr (Or.inl ⟨hxr, h3, ?_⟩)
        rw [hxr, h3, getSq_mb_qs_rook B m cl hwfb hb hcast hpm hec] at h
        rw [hxr]
        exact h
      · by_cases h2 : y = 2
        · refine Or.inl ⟨hxr, h2, ?_⟩
          rw [hxr, h2, getSq_mb_qs_king B m cl hwfb hb hcast hpm hec, hpm] at h
          exact (congrArg Prod.fst (Option.some.inj h)).symm
        · by_cases h4 : y = 4
          · rw [hxr, h4, getSq_mb_qs_home B m cl hwfb hb hcast hpm hec] at h
            cases h
          · refine Or.inr (Or.inr ⟨?_, Or.inr ⟨h4, h3, h2, h0⟩⟩)
            rw [getSq_mb_qs_off B m cl hb hcast hpm hec x y hx0 hx8 hy0 hy8
              (Or.inr h4) (Or.inr h3) (Or.inr h2) (Or.inr h0)] at h
            exact h
  · refine Or.inr (Or.inr ⟨?_, Or.inl hxr⟩)
    rw [getSq_mb_qs_off B m cl hb hcast hpm hec x y hx0 hx8 hy0 hy8
      (Or.inl hxr) (Or.inl hxr) (Or.inl hxr) (Or.inl hxr)] at h
    exact h

theorem plain_king_cells (B : Board) (m : Move)
    (hwfb : boardWF B) (hb : MoveBoardOK B m)
    (hep : m.isEnPassantMove = false) (hcast : m.isCastleMove = false)
    (x y : Int) (hx0 : 0 ≤ x) (hx8 : x < 8) (hy0 : 0 ≤ y) (hy8 : y < 8)
    (cl2 : PColor)
    (h : getSq (makeBoard B m) x y = some (cl2, PKind.K)) :
    (x = m.endRow ∧ y = m.endCol ∧ m.pieceMoved = some (cl2, PKind.K)) ∨
    (getSq B x y = some (cl2, PKind.K) ∧
      ¬(x = m.endRow ∧ y = m.endCol) ∧
      ¬(x = m.startRow ∧ y = m.startCol)) := by
  by_cases hE : x = m.endRow ∧ y = m.endCol
  · refine Or.inl ⟨hE.1, hE.2, ?_⟩
    rw [hE.1, hE.2] at h
    by_cases hP : ∃ cl, m.pieceMoved = some (cl, PKind.P)
    · obtain ⟨cl, hpm⟩ := hP
      rw [getSq_mb_plain_end_pawn B m cl hwfb hb hep hcast hpm] at h
      split_ifs at h
      · simp at h
      · rw [hpm] at h
        simp at h
    · have hknp : cellKind m.pieceMoved ≠ some PKind.P := by
        intro hc
        rcases hmq : m.pieceMoved with _ | ⟨cl3, k3⟩
        · rw [hmq] at hc
          simp [cellKind] at hc
        · rw [hmq] at hc
          simp [cellKind] at hc
          exact hP ⟨cl3, by rw [hmq, hc]⟩
      rw [getSq_mb_plain_end_nonpawn B m hwfb hb hep hcast hknp] at h
      exact h
  · by_cases hS : x = m.startRow ∧ y = m.startCol
    · exfalso
      rw [hS.1, hS.2, getSq_mb_plain_start B m hwfb hb hep hcast ?hne] at h
      · cases h
      case hne =>
        rcases not_and_or.1 hE with h2 | h2
        · exact Or.inl (hS.1 ▸ h2)
        · exact Or.inr (hS.2 ▸ h2)
    · refine Or.inr ⟨?_, hE, hS⟩
      rw [getSq_mb_plain_off B m hb hep hcast x y hx0 hx8 hy0 hy8
        (not_and_or.1 hE) (not_and_or.1 hS)] at h
      exact h

theorem ep_king_cells (B : Board) (m : Move) (cl : PColor)
    (hwfb : boardWF B) (hb : MoveBoardOK B m)
    (hep : m.isEnPassantMove = true) (hcast : m.isCastleMove = false)
    (hpm : m.pieceMoved = some (cl, PKind.P)) (hpp : m.isPawnPromotion = false)
    (x y : Int) (hx0 : 0 ≤ x) (hx8 : x < 8) (hy0 : 0 ≤ y) (hy8 : y < 8)
    (cl2 : PColor)
    (h : getSq (makeBoard B m) x y = some (cl2, PKind.K)) :
    getSq B x y = some (cl2, PKind.K) ∧
      ¬(x = m.endRow ∧ y = m.endCol) ∧
      ¬(x = m.startRow ∧ y = m.startCol) ∧
      ¬(x = m.startRow ∧ y = m.endCol) := by
  by_cases hE : x = m.endRow ∧ y = m.endCol
  · exfalso
    rw [hE.1, hE.2, getSq_mb_ep_end B m cl hwfb hb hep hcast hpm hpp, hpm] at h
    simp at h
  · by_cases hS : x = m.startRow ∧ y = m.startCol
    · exfalso
      rw [hS.1, hS.2, getSq_mb_ep_start B m hwfb hb hep hcast] at h
      cases h
    · by_cases hC : x = m.startRow ∧ y = m.endCol
      · exfalso
        rw [hC.1, hC.2, getSq_mb_ep_cap B m hwfb hb hep hcast] at h
        cases h
      · refine ⟨?_, hE, hS, hC⟩
        rw [getSq_mb_ep_off B m hb hep hcast x y hx0 hx8 hy0 hy8
          (not_and_or.1 hE) (not_and_or.1 hS) (not_and_or.1 hC)] at h
        exact h

theorem kingsOK_int (gs : GameState) (hkings : kingsOK gs) :
    ∀ x y : Int, 0 ≤ x → x < 8 → 0 ≤ y → y < 8 →
      (getSq gs.board x y = some (PColor.w, PKind.K) →
        gs.whiteKingLocation = (x, y)) ∧
      (getSq gs.board x y = some (PColor.b, PKind.K) →
        gs.blackKingLocation = (x, y)) := by
  intro x y hx0 hx8 hy0 hy8
  have h2 := hkings.2.2.2.2.2.2.2.2.2.2 x.toNat (by omega) y.toNat (by omega)
  rwa [show ((x.toNat : Nat) : Int) = x by omega,
    show ((y.toNat : Nat) : Int) = y by omega] at h2

theorem kingsOK_castle_wks (gs : GameState) (m : Move)
    (hbwf : boardWF gs.board) (hkings : kingsOK gs)
    (hok : MoveOK gs m) (hcast : m.isCastleMove = true)
    (hkw : m.pieceMoved = some (PColor.w, PKind.K))
    (hwt : gs.whiteToMove = true) (hec : m.endCol = 6)
    (hemp5 : getSq gs.board m.startRow 5 = none)
    (hemp6 : getSq gs.board m.startRow 6 = none)
    (hpost : postMoveCheck gs m = false) :
    kingsOK (makeMove gs m) := by
  obtain ⟨wk1, wk2, wk3, wk4, bk1, bk2, bk3, bk4, hwc, hbc, huniq⟩ := hkings
  have hb := hok.boardOK
  have huniqI := kingsOK_int gs
    ⟨wk1, wk2, wk3, wk4, bk1, bk2, bk3, bk4, hwc, hbc, huniq⟩
  have hcol4 : m.startCol = 4 := hb.castle_col hcast
  have hrow : m.endRow = m.startRow := hb.castle_row hcast
  have hwkp : gs.whiteKingLocation = (m.startRow, m.startCol) := hok.wk_loc hkw
  have hwk4 : gs.whiteKingLocation = (m.startRow, 4) := by rw [hwkp, hcol4]
  have hcell4 : getSq gs.board m.startRow 4 = some (PColor.w, PKind.K) := by
    have h2 := hwc
    rw [hwk4] at h2
    exact h2
  have hcorner : getSq gs.board m.startRow 7 ≠ some (PColor.b, PKind.K) := by
    intro hcornerB
    have hcopy : getSq (makeMove gs m).board m.startRow 5 =
        some ((if gs.whiteToMove then PColor.b else PColor.w), PKind.K) := by
      rw [makeMove_board,
        getSq_mb_ks_rook gs.board m PColor.w hbwf hb hcast hkw hec, hcornerB,
        if_pos hwt]
    have hland : cellColor (getSq (makeMove gs m).board m.startRow 6) =
        some (if gs.whiteToMove then PColor.w else PColor.b) := by
      rw [makeMove_board,
        getSq_mb_ks_king gs.board m PColor.w hbwf hb hcast hkw hec, hkw,
        if_pos hwt]
      rfl
    have hloc : (if gs.whiteToMove then (makeMove gs m).whiteKingLocation
        else (makeMove gs m).blackKingLocation) = ((m.startRow, 6) : Int × Int) := by
      rw [if_pos hwt, makeMove_wk, if_pos hkw]
      exact Prod.ext hrow hec
    have h3 := postMoveCheck_of_adjacent_king gs m m.startRow 5 6 hb.srlo
      hb.srhi (by norm_num) (by norm_num) (by norm_num) (by norm_num)
      (Or.inl (by norm_num)) hcopy hland hloc
    rw [hpost] at h3
    cases h3
  refine ⟨?_, ?_, ?_, ?_, ?_, ?_, ?_, ?_, ?_, ?_, ?_⟩
  · rw [makeMove_wk, if_pos hkw]
    exact hb.erlo
  · rw [makeMove_wk, if_pos hkw]
    exact hb.erhi
  · rw [makeMove_wk, if_pos hkw]
    exact hb.eclo
  · rw [makeMove_wk, if_pos hkw]
    exact hb.echi
  · rw [makeMove_bk, if_pos hkw]
    exact bk1
  · rw [makeMove_bk, if_pos hkw]
    exact bk2
  · rw [makeMove_bk, if_pos hkw]
    exact bk3
  · rw [makeMove_bk, if_pos hkw]
    exact bk4
  · rw [makeMove_board, makeMove_wk, if_pos hkw]
    show getSq (makeBoard gs.board m) m.endRow m.endCol
      = some (PColor.w, PKind.K)
    rw [hrow, hec, getSq_mb_ks_king gs.board m PColor.w hbwf hb hcast hkw hec,
      hkw]
  · rw [makeMove_board, makeMove_bk, if_pos hkw]
    have hne4 : gs.blackKingLocation ≠ (m.startRow, 4) := by
      intro h
      have h2 := hbc
      rw [h] at h2
      dsimp only at h2
      rw [hcell4] at h2
      simp at h2
    have hne5 : gs.blackKingLocation ≠ (m.startRow, 5) := by
      intro h
      have h2 := hbc
      rw [h] at h2
      dsimp only at h2
      rw [hemp5] at h2
      cases h2
    have hne6 : gs.blackKingLocation ≠ (m.startRow, 6) := by
      intro h
      have h2 := hbc
      rw [h] at h2
      dsimp only at h2
      rw [hemp6] at h2
      cases h2
    have hne7 : gs.blackKingLocation ≠ (m.startRow, 7) := by
      intro h
      have h2 := hbc
      rw [h] at h2
      dsimp only at h2
      exact hcorner h2
    rw [getSq_mb_ks_off gs.board m PColor.w hb hcast hkw hec
      gs.blackKingLocation.1 gs.blackKingLocation.2 bk1 bk2 bk3 bk4
      (pair_ne_split _ _ _ hne4) (pair_ne_split _ _ _ hne5)
      (pair_ne_split _ _ _ hne6) (pair_ne_split _ _ _ hne7)]
    exact hbc
  · intro i hi8 j hj8
    constructor
    · intro hW
      rw [makeMove_board] at hW
      rcases ks_king_cells gs.board m PColor.w hbwf hb hcast hkw hec
          (i : Int) (j : Int) (by omega) (by omega) (by omega) (by omega)
          PColor.w hW with ⟨hx, hy, _⟩ | ⟨hx, hy, hold⟩ | ⟨hold, hoff⟩
      · rw [makeMove_wk, if_pos hkw]
        exact Prod.ext (by rw [hrow, hx]) (by rw [hec, hy])
      · have h2 := (huniqI (i : Int) 7 (by omega) (by omega) (by norm_num)
          (by norm_num)).1 hold
        have h3 := congrArg Prod.snd (hwk4.symm.trans h2)
        norm_num at h3
      · have h2 := (huniqI (i : Int) (j : Int) (by omega) (by omega)
          (by omega) (by omega)).1 hold
        have h3 := hwk4.symm.trans h2
        have h4 := congrArg Prod.fst h3
        have h5 := congrArg Prod.snd h3
        dsimp only at h4 h5
        rcases hoff with h6 | ⟨h6, _, _, _⟩
        · exact absurd h4.symm h6
        · exact absurd h5.symm h6
    · intro hB
      rw [makeMove_board] at hB
      rcases ks_king_cells gs.board m PColor.w hbwf hb hcast hkw hec
          (i : Int) (j : Int) (by omega) (by omega) (by omega) (by omega)
          PColor.b hB with ⟨hx, hy, hcl⟩ | ⟨hx, hy, hold⟩ | ⟨hold, hoff⟩
      · simp at hcl
      · rw [hx] at hold
        exact absurd hold hcorner
      · rw [makeMove_bk, if_pos hkw]
        exact (huniqI (i : Int) (j : Int) (by omega) (by omega) (by omega)
          (by omega)).2 hold

theorem kingsOK_castle_wqs (gs : GameState) (m : Move)
    (hbwf : boardWF gs.board) (hkings : kingsOK gs)
    (hok : MoveOK gs m) (hcast : m.isCastleMove = true)
    (hkw : m.pieceMoved = some (PColor.w, PKind.K))
    (hwt : gs.whiteToMove = true) (hec : m.endCol = 2)
    (hemp3 : getSq gs.board m.startRow 3 = none)
    (hemp2 : getSq gs.board m.startRow 2 = none)
    (hpost : postMoveCheck gs m = false) :
    kingsOK (makeMove gs m) := by
  obtain ⟨wk1, wk2, wk3, wk4, bk1, bk2, bk3, bk4, hwc, hbc, huniq⟩ := hkings
  have hb := hok.boardOK
  have huniqI := kingsOK_int gs
    ⟨wk1, wk2, wk3, wk4, bk1, bk2, bk3, bk4, hwc, hbc, huniq⟩
  have hcol4 : m.startCol = 4 := hb.castle_col hcast
  have hrow : m.endRow = m.startRow := hb.castle_row hcast
  have hwkp : gs.whiteKingLocation = (m.startRow, m.startCol) := hok.wk_loc hkw
  have hwk4 : gs.whiteKingLocation = (m.startRow, 4) := by rw [hwkp, hcol4]
  have hcell4 : getSq gs.board m.startRow 4 = some (PColor.w, PKind.K) := by
    have h2 := hwc
    rw [hwk4] at h2
    exact h2
  have hcorner : getSq gs.board m.startRow 0 ≠ some (PColor.b, PKind.K) := by
    intro hcornerB
    have hcopy : getSq (makeMove gs m).board m.startRow 3 =
        some ((if gs.whiteToMove then PColor.b else PColor.w), PKind.K) := by
      rw [makeMove_board,
        getSq_mb_qs_rook gs.board m PColor.w hbwf hb hcast hkw hec, hcornerB,
        if_pos hwt]
    have hland : cellColor (getSq (makeMove gs m).board m.startRow 2) =
        some (if gs.whiteToMove then PColor.w else PColor.b) := by
      rw [makeMove_board,
        getSq_mb_qs_king gs.board m PColor.w hbwf hb hcast hkw hec, hkw,
        if_pos hwt]
      rfl
    have hloc : (if gs.whiteToMove then (makeMove gs m).whiteKingLocation
        else (makeMove gs m).blackKingLocation) = ((m.startRow, 2) : Int × Int) := by
      rw [if_pos hwt, makeMove_wk, if_pos hkw]
      exact Prod.ext hrow hec
    have h3 := postMoveCheck_of_adjacent_king gs m m.startRow 3 2 hb.srlo
      hb.srhi (by norm_num) (by norm_num) (by norm_num) (by norm_num)
      (Or.inr (by norm_num)) hcopy hland hloc
    rw [hpost] at h3
    cases h3
  refine ⟨?_, ?_, ?_, ?_, ?_, ?_, ?_, ?_, ?_, ?_, ?_⟩
  · rw [makeMove_wk, if_pos hkw]
    exact hb.erlo
  · rw [makeMove_wk, if_pos hkw]
    exact hb.erhi
  · rw [makeMove_wk, if_pos hkw]
    exact hb.eclo
  · rw [makeMove_wk, if_pos hkw]
    exact hb.echi
  · rw [makeMove_bk, if_pos hkw]
    exact bk1
  · rw [makeMove_bk, if_pos hkw]
    exact bk2
  · rw [makeMove_bk, if_pos hkw]
    exact bk3
  · rw [makeMove_bk, if_pos hkw]
    exact bk4
  · rw [makeMove_board, makeMove_wk, if_pos hkw]
    show getSq (makeBoard gs.board m) m.endRow m.endCol
      = some (PColor.w, PKind.K)
    rw [hrow, hec, getSq_mb_qs_king gs.board m PColor.w hbwf hb hcast hkw hec,
      hkw]
  · rw [makeMove_board, makeMove_bk, if_pos hkw]
    have hne4 : gs.blackKingLocation ≠ (m.startRow, 4) := by
      intro h
      have h2 := hbc
      rw [h] at h2
      dsimp only at h2
      rw [hcell4] at h2
      simp at h2
    have hne3 : gs.blackKingLocation ≠ (m.startRow, 3) := by
      intro h
      have h2 := hbc
      rw [h] at h2
      dsimp only at h2
      rw [hemp3] at h2
      cases h2
    have hne2 : gs.blackKingLocation ≠ (m.startRow, 2) := by
      intro h
      have h2 := hbc
      rw [h] at h2
      dsimp only at h2
      rw [hemp2] at h2
      cases h2
    have hne0 : gs.blackKingLocation ≠ (m.startRow, 0) := by
      intro h
      have h2 := hbc
      rw [h] at h2
      dsimp only at h2
      exact hcorner h2
    rw [getSq_mb_qs_off gs.board m PColor.w hb hcast hkw hec
      gs.blackKingLocation.1 gs.blackKingLocation.2 bk1 bk2 bk3 bk4
      (pair_ne_split _ _ _ hne4) (pair_ne_split _ _ _ hne3)
      (pair_ne_split _ _ _ hne2) (pair_ne_split _ _ _ hne0)]
    exact hbc
  · intro i hi8 j hj8
    constructor
    · intro hW
      rw [makeMove_board] at hW
      rcases qs_king_cells gs.board m PColor.w hbwf hb hcast hkw hec
          (i : Int) (j : Int) (by omega) (by omega) (by omega) (by omega)
          PColor.w hW with ⟨hx, hy, _⟩ | ⟨hx, hy, hold⟩ | ⟨hold, hoff⟩
      · rw [makeMove_wk, if_pos hkw]
        exact Prod.ext (by rw [hrow, hx]) (by rw [hec, hy])
      · have h2 := (huniqI (i : Int) 0 (by omega) (by omega) (by norm_num)
          (by norm_num)).1 hold
        have h3 := congrArg Prod.snd (hwk4.symm.trans h2)
        norm_num at h3
      · have h2 := (huniqI (i : Int) (j : Int) (by omega) (by omega)
          (by omega) (by omega)).1 hold
        have h3 := hwk4.symm.trans h2
        have h4 := congrArg Prod.fst h3
        have h5 := congrArg Prod.snd h3
        dsimp only at h4 h5
        rcases hoff with h6 | ⟨h6, _, _, _⟩
        · exact absurd h4.symm h6
        · exact absurd h5.symm h6
    · intro hB
      rw [makeMove_board] at hB
      rcases qs_king_cells gs.board m PColor.w hbwf hb hcast hkw hec
          (i : Int) (j : Int) (by omega) (by omega) (by omega) (by omega)
          PColor.b hB with ⟨hx, hy, hcl⟩ | ⟨hx, hy, hold⟩ | ⟨hold, hoff⟩
      · simp at hcl
      · rw [hx] at hold
        exact absurd hold hcorner
      · rw [makeMove_bk, if_pos hkw]
        exact (huniqI (i : Int) (j : Int) (by omega) (by omega) (by omega)
          (by omega)).2 hold

theorem kingsOK_castle_bks (gs : GameState) (m : Move)
    (hbwf : boardWF gs.board) (hkings : kingsOK gs)
    (hok : MoveOK gs m) (hcast : m.isCastleMove = true)
    (hkb : m.pieceMoved = some (PColor.b, PKind.K))
    (hwt : gs.whiteToMove = false) (hec : m.endCol = 6)
    (hemp5 : getSq gs.board m.startRow 5 = none)
    (hemp6 : getSq gs.board m.startRow 6 = none)
    (hpost : postMoveCheck gs m = false) :
    kingsOK (makeMove gs m) := by
  obtain ⟨wk1, wk2, wk3, wk4, bk1, bk2, bk3, bk4, hwc, hbc, huniq⟩ := hkings
  have hb := hok.boardOK
  have huniqI := kingsOK_int gs
    ⟨wk1, wk2, wk3, wk4, bk1, bk2, bk3, bk4, hwc, hbc, huniq⟩
  have hnw : ¬(m.pieceMoved = some (PColor.w, PKind.K)) := by
    rw [hkb]
    simp
  have hwt' : ¬(gs.whiteToMove = true) := by
    rw [hwt]
    simp
  have hcol4 : m.startCol = 4 := hb.castle_col hcast
  have hrow : m.endRow = m.startRow := hb.castle_row hcast
  have hbkp : gs.blackKingLocation = (m.startRow, m.startCol) := hok.bk_loc hkb
  have hbk4 : gs.blackKingLocation = (m.startRow, 4) := by rw [hbkp, hcol4]
  have hcell4 : getSq gs.board m.startRow 4 = some (PColor.b, PKind.K) := by
    have h2 := hbc
    rw [hbk4] at h2
    exact h2
  have hcorner : getSq gs.board m.startRow 7 ≠ some (PColor.w, PKind.K) := by
    intro hcornerW
    have hcopy : getSq (makeMove gs m).board m.startRow 5 =
        some ((if gs.whiteToMove then PColor.b else PColor.w), PKind.K) := by
      rw [makeMove_board,
        getSq_mb_ks_rook gs.board m PColor.b hbwf hb hcast hkb hec, hcornerW,
        if_neg hwt']
    have hland : cellColor (getSq (makeMove gs m).board m.startRow 6) =
        some (if gs.whiteToMove then PColor.w else PColor.b) := by
      rw [makeMove_board,
        getSq_mb_ks_king gs.board m PColor.b hbwf hb hcast hkb hec, hkb,
        if_neg hwt']
      rfl
    have hloc : (if gs.whiteToMove then (makeMove gs m).whiteKingLocation
        else (makeMove gs m).blackKingLocation) = ((m.startRow, 6) : Int × Int) := by
      rw [if_neg hwt', makeMove_bk, if_neg hnw, if_pos hkb]
      exact Prod.ext hrow hec
    have h3 := postMoveCheck_of_adjacent_king gs m m.startRow 5 6 hb.srlo
      hb.srhi (by norm_num) (by norm_num) (by norm_num) (by norm_num)
      (Or.inl (by norm_num)) hcopy hland hloc
    rw [hpost] at h3
    cases h3
  refine ⟨?_, ?_, ?_, ?_, ?_, ?_, ?_, ?_, ?_, ?_, ?_⟩
  · rw [makeMove_wk, if_neg hnw]
    exact wk1
  · rw [makeMove_wk, if_neg hnw]
    exact wk2
  · rw [makeMove_wk, if_neg hnw]
    exact wk3
  · rw [makeMove_wk, if_neg hnw]
    exact wk4
  · rw [makeMove_bk, if_neg hnw, if_pos hkb]
    exact hb.erlo
  · rw [makeMove_bk, if_neg hnw, if_pos hkb]
    exact hb.erhi
  · rw [makeMove_bk, if_neg hnw, if_pos hkb]
    exact hb.eclo
  · rw [makeMove_bk, if_neg hnw, if_pos hkb]
    exact hb.echi
  · rw [makeMove_board, makeMove_wk, if_neg hnw]
    have hne4 : gs.whiteKingLocation ≠ (m.startRow, 4) := by
      intro h
      have h2 := hwc
      rw [h] at h2
      dsimp only at h2
      rw [hcell4] at h2
      simp at h2
    have hne5 : gs.whiteKingLocation ≠ (m.startRow, 5) := by
      intro h
      have h2 := hwc
      rw [h] at h2
      dsimp only at h2
      rw [hemp5] at h2
      cases h2
    have hne6 : gs.whiteKingLocation ≠ (m.startRow, 6) := by
      intro h
      have h2 := hwc
      rw [h] at h2
      dsimp only at h2
      rw [hemp6] at h2
      cases h2
    have hne7 : gs.whiteKingLocation ≠ (m.startRow, 7) := by
      intro h
      have h2 := hwc
      rw [h] at h2
      dsimp only at h2
      exact hcorner h2
    rw [getSq_mb_ks_off gs.board m PColor.b hb hcast hkb hec
      gs.whiteKingLocation.1 gs.whiteKingLocation.2 wk1 wk2 wk3 wk4
      (pair_ne_split _ _ _ hne4) (pair_ne_split _ _ _ hne5)
      (pair_ne_split _ _ _ hne6) (pair_ne_split _ _ _ hne7)]
    exact hwc
  · rw [makeMove_board, makeMove_bk, if_neg hnw, if_pos hkb]
    show getSq (makeBoard gs.board m) m.endRow m.endCol
      = some (PColor.b, PKind.K)
    rw [hrow, hec, getSq_mb_ks_king gs.board m PColor.b hbwf hb hcast hkb hec,
      hkb]
  · intro i hi8 j hj8
    constructor
    · intro hW
      rw [makeMove_board] at hW
      rcases ks_king_cells gs.board m PColor.b hbwf hb hcast hkb hec
          (i : Int) (j : Int) (by omega) (by omega) (by omega) (by omega)
          PColor.w hW with ⟨hx, hy, hcl⟩ | ⟨hx, hy, hold⟩ | ⟨hold, hoff⟩
      · simp at hcl
      · rw [hx] at hold
        exact absurd hold hcorner
      · rw [makeMove_wk, if_neg hnw]
        exact (huniqI (i : Int) (j : Int) (by omega) (by omega) (by omega)
          (by omega)).1 hold
    · intro hB
      rw [makeMove_board] at hB
      rcases ks_king_cells gs.board m PColor.b hbwf hb hcast hkb hec
          (i : Int) (j : Int) (by omega) (by omega) (by omega) (by omega)
          PColor.b hB with ⟨hx, hy, _⟩ | ⟨hx, hy, hold⟩ | ⟨hold, hoff⟩
      · rw [makeMove_bk, if_neg hnw, if_pos hkb]
        exact Prod.ext (by rw [hrow, hx]) (by rw [hec, hy])
      · have h2 := (huniqI (i : Int) 7 (by omega) (by omega) (by norm_num)
          (by norm_num)).2 hold
        have h3 := congrArg Prod.snd (hbk4.symm.trans h2)
        norm_num at h3
      · have h2 := (huniqI (i : Int) (j : Int) (by omega) (by omega)
          (by omega) (by omega)).2 hold
        have h3 := hbk4.symm.trans h2
        have h4 := congrArg Prod.fst h3
        have h5 := congrArg Prod.snd h3
        dsimp only at h4 h5
        rcases hoff with h6 | ⟨h6, _, _, _⟩
        · exact absurd h4.symm h6
        · exact absurd h5.symm h6

theorem kingsOK_castle_bqs (gs : GameState) (m : Move)
    (hbwf : boardWF gs.board) (hkings : kingsOK gs)
    (hok : MoveOK gs m) (hcast : m.isCastleMove = true)
    (hkb : m.pieceMoved = some (PColor.b, PKind.K))
    (hwt : gs.whiteToMove = false) (hec : m.endCol = 2)
    (hemp3 : getSq gs.board m.startRow 3 = none)
    (hemp2 : getSq gs.board m.startRow 2 = none)
    (hpost : postMoveCheck gs m = false) :
    kingsOK (makeMove gs m) := by
  obtain ⟨wk1, wk2, wk3, wk4, bk1, bk2, bk3, bk4, hwc, hbc, huniq⟩ := hkings
  have hb := hok.boardOK
  have huniqI := kingsOK_int gs
    ⟨wk1, wk2, wk3, wk4, bk1, bk2, bk3, bk4, hwc, hbc, huniq⟩
  have hnw : ¬(m.pieceMoved = some (PColor.w, PKind.K)) := by
    rw [hkb]
    simp
  have hwt' : ¬(gs.whiteToMove = true) := by
    rw [hwt]
    simp
  have hcol4 : m.startCol = 4 := hb.castle_col hcast
  have hrow : m.endRow = m.startRow := hb.castle_row hcast
  have hbkp : gs.blackKingLocation = (m.startRow, m.startCol) := hok.bk_loc hkb
  have hbk4 : gs.blackKingLocation = (m.startRow, 4) := by rw [hbkp, hcol4]
  have hcell4 : getSq gs.board m.startRow 4 = some (PColor.b, PKind.K) := by
    have h2 := hbc
    rw [hbk4] at h2
    exact h2
  have hcorner : getSq gs.board m.startRow 0 ≠ some (PColor.w, PKind.K) := by
    intro hcornerW
    have hcopy : getSq (makeMove gs m).board m.startRow 3 =
        some ((if gs.whiteToMove then PColor.b else PColor.w), PKind.K) := by
      rw [makeMove_board,
        getSq_mb_qs_rook gs.board m PColor.b hbwf hb hcast hkb hec, hcornerW,
        if_neg hwt']
    have hland : cellColor (getSq (makeMove gs m).board m.startRow 2) =
        some (if gs.whiteToMove then PColor.w else PColor.b) := by
      rw [makeMove_board,
        getSq_mb_qs_king gs.board m PColor.b hbwf hb hcast hkb hec, hkb,
        if_neg hwt']
      rfl
    have hloc : (if gs.whiteToMove then (makeMove gs m).whiteKingLocation
        else (makeMove gs m).blackKingLocation) = ((m.startRow, 2) : Int × Int) := by
      rw [if_neg hwt', makeMove_bk, if_neg hnw, if_pos hkb]
      exact Prod.ext hrow hec
    have h3 := postMoveCheck_of_adjacent_king gs m m.startRow 3 2 hb.srlo
      hb.srhi (by norm_num) (by norm_num) (by norm_num) (by norm_num)
      (Or.inr (by norm_num)) hcopy hland hloc
    rw [hpost] at h3
    cases h3
  refine ⟨?_, ?_, ?_, ?_, ?_, ?_, ?_, ?_, ?_, ?_, ?_⟩
  · rw [makeMove_wk, if_neg hnw]
    exact wk1
  · rw [makeMove_wk, if_neg hnw]
    exact wk2
  · rw [makeMove_wk, if_neg hnw]
    exact wk3
  · rw [makeMove_wk, if_neg hnw]
    exact wk4
  · rw [makeMove_bk, if_neg hnw, if_pos hkb]
    exact hb.erlo
  · rw [makeMove_bk, if_neg hnw, if_pos hkb]
    exact hb.erhi
  · rw [makeMove_bk, if_neg hnw, if_pos hkb]
    exact hb.eclo
  · rw [makeMove_bk, if_neg hnw, if_pos hkb]
    exact hb.echi
  · rw [makeMove_board, makeMove_wk, if_neg hnw]
    have hne4 : gs.whiteKingLocation ≠ (m.startRow, 4) := by
      intro h
      have h2 := hwc
      rw [h] at h2
      dsimp only at h2
      rw [hcell4] at h2
      simp at h2
    have hne3 : gs.whiteKingLocation ≠ (m.startRow, 3) := by
      intro h
      have h2 := hwc
      rw [h] at h2
      dsimp only at h2
      rw [hemp3] at h2
      cases h2
    have hne2 : gs.whiteKingLocation ≠ (m.startRow, 2) := by
      intro h
      have h2 := hwc
      rw [h] at h2
      dsimp only at h2
      rw [hemp2] at h2
      cases h2
    have hne0 : gs.whiteKingLocation ≠ (m.startRow, 0) := by
      intro h
      have h2 := hwc
      rw [h] at h2
      dsimp only at h2
      exact hcorner h2
    rw [getSq_mb_qs_off gs.board m PColor.b hb hcast hkb hec
      gs.whiteKingLocation.1 gs.whiteKingLocation.2 wk1 wk2 wk3 wk4
      (pair_ne_split _ _ _ hne4) (pair_ne_split _ _ _ hne3)
      (pair_ne_split _ _ _ hne2) (pair_ne_split _ _ _ hne0)]
    exact hwc
  · rw [makeMove_board, makeMove_bk, if_neg hnw, if_pos hkb]
    show getSq (makeBoard gs.board m) m.endRow m.endCol
      = some (PColor.b, PKind.K)
    rw [hrow, hec, getSq_mb_qs_king gs.board m PColor.b hbwf hb hcast hkb hec,
      hkb]
  · intro i hi8 j hj8
    constructor
    · intro hW
      rw [makeMove_board] at hW
      rcases qs_king_cells gs.board m PColor.b hbwf hb hcast hkb hec
          (i : Int) (j : Int) (by omega) (by omega) (by omega) (by omega)
          PColor.w hW with ⟨hx, hy, hcl⟩ | ⟨hx, hy, hold⟩ | ⟨hold, hoff⟩
      · simp at hcl
      · rw [hx] at hold
        exact absurd hold hcorner
      · rw [makeMove_wk, if_neg hnw]
        exact (huniqI (i : Int) (j : Int) (by omega) (by omega) (by omega)
          (by omega)).1 hold
    · intro hB
      rw [makeMove_board] at hB
      rcases qs_king_cells gs.board m PColor.b hbwf hb hcast hkb hec
          (i : Int) (j : Int) (by omega) (by omega) (by omega) (by omega)
          PColor.b hB with ⟨hx, hy, _⟩ | ⟨hx, hy, hold⟩ | ⟨hold, hoff⟩
      · rw [makeMove_bk, if_neg hnw, if_pos hkb]
        exact Prod.ext (by rw [hrow, hx]) (by rw [hec, hy])
      · have h2 := (huniqI (i : Int) 0 (by omega) (by omega) (by norm_num)
          (by norm_num)).2 hold
        have h3 := congrArg Prod.snd (hbk4.symm.trans h2)
        norm_num at h3
      · have h2 := (huniqI (i : Int) (j : Int) (by omega) (by omega)
          (by omega) (by omega)).2 hold
        have h3 := hbk4.symm.trans h2
        have h4 := congrArg Prod.fst h3
        have h5 := congrArg Prod.snd h3
        dsimp only at h4 h5
        rcases hoff with h6 | ⟨h6, _, _, _⟩
        · exact absurd h4.symm h6
        · exact absurd h5.symm h6

theorem kingsOK_make_ep (gs : GameState) (m : Move)
    (hbwf : boardWF gs.board) (hkings : kingsOK gs) (hepo : epOK gs)
    (hok : MoveOK gs m) (hep : m.isEnPassantMove = true)
    (hg : GenFacts gs m) :
    kingsOK (makeMove gs m) := by
  obtain ⟨wk1, wk2, wk3, wk4, bk1, bk2, bk3, bk4, hwc, hbc, huniq⟩ := hkings
  have hb := hok.boardOK
  have huniqI := kingsOK_int gs
    ⟨wk1, wk2, wk3, wk4, bk1, bk2, bk3, bk4, hwc, hbc, huniq⟩
  have hnc := hg.not_castle
  obtain ⟨hpmS, heptar, hside⟩ := hg.ep_pawn hep
  have her : m.endRow = 2 ∨ m.endRow = 5 := by
    rcases hside with ⟨hwt, _⟩ | ⟨hwt, _⟩
    · exact Or.inl (epOK_white gs m.endRow m.endCol hepo hwt heptar).1
    · exact Or.inr (epOK_black gs m.endRow m.endCol hepo hwt heptar).1
  have hpp : m.isPawnPromotion = false := by
    cases hf : m.isPawnPromotion
    · rfl
    · exfalso
      rcases hg.flag.mp hf with ⟨_, h0⟩ | h7 <;> rcases her with h | h <;> omega
  have hcap : ∃ cl3, getSq gs.board m.startRow m.endCol
      = some (cl3, PKind.P) := by
    rcases hside with ⟨hwt, hr⟩ | ⟨hwt, hr⟩
    · obtain ⟨he2, _, _, hcapw, _⟩ := epOK_white gs m.endRow m.endCol hepo
        hwt heptar
      refine ⟨PColor.b, ?_⟩
      rw [show m.startRow = (3 : Int) by omega]
      exact hcapw
    · obtain ⟨he5, _, _, hcapb, _⟩ := epOK_black gs m.endRow m.endCol hepo
        hwt heptar
      refine ⟨PColor.w, ?_⟩
      rw [show m.startRow = (4 : Int) by omega]
      exact hcapb
  have hnkw : ¬(m.pieceMoved = some (PColor.w, PKind.K)) := by
    rw [hpmS]
    simp
  have hnkb : ¬(m.pieceMoved = some (PColor.b, PKind.K)) := by
    rw [hpmS]
    simp
  have hwkS : gs.whiteKingLocation ≠ (m.startRow, m.startCol) := by
    intro h
    have h2 := hwc
    rw [h] at h2
    dsimp only at h2
    rw [← hb.moved_eq] at h2
    exact hnkw h2
  have hwkE : gs.whiteKingLocation ≠ (m.endRow, m.endCol) := by
    intro h
    have h2 := hwc
    rw [h] at h2
    dsimp only at h2
    rw [hb.ep_dst hep] at h2
    cases h2
  have hwkC : gs.whiteKingLocation ≠ (m.startRow, m.endCol) := by
    intro h
    have h2 := hwc
    rw [h] at h2
    dsimp only at h2
    obtain ⟨cl3, hc3⟩ := hcap
    rw [hc3] at h2
    simp at h2
  have hbkS : gs.blackKingLocation ≠ (m.startRow, m.startCol) := by
    intro h
    have h2 := hbc
    rw [h] at h2
    dsimp only at h2
    rw [← hb.moved_eq] at h2
    exact hnkb h2
  have hbkE : gs.blackKingLocation ≠ (m.endRow, m.endCol) := by
    intro h
    have h2 := hbc
    rw [h] at h2
    dsimp only at h2
    rw [hb.ep_dst hep] at h2
    cases h2
  have hbkC : gs.blackKingLocation ≠ (m.startRow, m.endCol) := by
    intro h
    have h2 := hbc
    rw [h] at h2
    dsimp only at h2
    obtain ⟨cl3, hc3⟩ := hcap
    rw [hc3] at h2
    simp at h2
  refine ⟨?_, ?_, ?_, ?_, ?_, ?_, ?_, ?_, ?_, ?_, ?_⟩
  · rw [makeMove_wk, if_neg hnkw]
    exact wk1
  · rw [makeMove_wk, if_neg hnkw]
    exact wk2
  · rw [makeMove_wk, if_neg hnkw]
    exact wk3
  · rw [makeMove_wk, if_neg hnkw]
    exact wk4
  · rw [makeMove_bk, if_neg hnkw, if_neg hnkb]
    exact bk1
  · rw [makeMove_bk, if_neg hnkw, if_neg hnkb]
    exact bk2
  · rw [makeMove_bk, if_neg hnkw, if_neg hnkb]
    exact bk3
  · rw [makeMove_bk, if_neg hnkw, if_neg hnkb]
    exact bk4
  · rw [makeMove_board, makeMove_wk, if_neg hnkw]
    rw [getSq_mb_ep_off gs.board m hb hep hnc
      gs.whiteKingLocation.1 gs.whiteKingLocation.2 wk1 wk2 wk3 wk4
      (pair_ne_split _ _ _ hwkE) (pair_ne_split _ _ _ hwkS)
      (pair_ne_split _ _ _ hwkC)]
    exact hwc
  · rw [makeMove_board, makeMove_bk, if_neg hnkw, if_neg hnkb]
    rw [getSq_mb_ep_off gs.board m hb hep hnc
      gs.blackKingLocation.1 gs.blackKingLocation.2 bk1 bk2 bk3 bk4
      (pair_ne_split _ _ _ hbkE) (pair_ne_split _ _ _ hbkS)
      (pair_ne_split _ _ _ hbkC)]
    exact hbc
  · intro i hi8 j hj8
    constructor
    · intro hW
      rw [makeMove_board] at hW
      obtain ⟨hold, _, _, _⟩ := ep_king_cells gs.board m (sideColor gs) hbwf
        hb hep hnc hpmS hpp (i : Int) (j : Int) (by omega) (by omega)
        (by omega) (by omega) PColor.w hW
      rw [makeMove_wk, if_neg hnkw]
      exact (huniqI (i : Int) (j : Int) (by omega) (by omega) (by omega)
        (by omega)).1 hold
    · intro hB
      rw [makeMove_board] at hB
      obtain ⟨hold, _, _, _⟩ := ep_king_cells gs.board m (sideColor gs) hbwf
        hb hep hnc hpmS hpp (i : Int) (j : Int) (by omega) (by omega)
        (by omega) (by omega) PColor.b hB
      rw [makeMove_bk, if_neg hnkw, if_neg hnkb]
      exact (huniqI (i : Int) (j : Int) (by omega) (by omega) (by omega)
        (by omega)).2 hold

theorem kingsOK_make_plain (gs : GameState) (m : Move)
    (hbwf : boardWF gs.board) (hkings : kingsOK gs)
    (hok : MoveOK gs m) (hep : m.isEnPassantMove = false)
    (hnc : m.isCastleMove = false) (hg : GenFacts gs m)
    (hmem : m ∈ getAllPossibleMoves gs)
    (hsafe : oppKingSafe gs = true) :
    kingsOK (makeMove gs m) := by
  obtain ⟨wk1, wk2, wk3, wk4, bk1, bk2, bk3, bk4, hwc, hbc, huniq⟩ := hkings
  have hb := hok.boardOK
  have huniqI := kingsOK_int gs
    ⟨wk1, wk2, wk3, wk4, bk1, bk2, bk3, bk4, hwc, hbc, huniq⟩
  have hnocap := oppKingSafe_no_capture gs hsafe m hmem
  by_cases hkw : m.pieceMoved = some (PColor.w, PKind.K)
  · -- the white king itself moves
    have hwt : gs.whiteToMove = true := by
      have h2 := hg.moved_side
      rw [hkw] at h2
      unfold sideColor at h2
      by_cases hq : gs.whiteToMove = true
      · exact hq
      · rw [if_neg hq] at h2
        simp [cellColor] at h2
    have hwkp : gs.whiteKingLocation = (m.startRow, m.startCol) :=
      hok.wk_loc hkw
    have hnkb : ¬(m.pieceMoved = some (PColor.b, PKind.K)) := by
      rw [hkw]
      simp
    have hbkS : gs.blackKingLocation ≠ (m.startRow, m.startCol) := by
      intro h
      have h2 := hbc
      rw [h] at h2
      dsimp only at h2
      rw [← hb.moved_eq] at h2
      exact hnkb h2
    have hbkE : gs.blackKingLocation ≠ (m.endRow, m.endCol) := by
      intro h
      exact (hnocap.1 hwt) ⟨by rw [h], by rw [h]⟩
    refine ⟨?_, ?_, ?_, ?_, ?_, ?_, ?_, ?_, ?_, ?_, ?_⟩
    · rw [makeMove_wk, if_pos hkw]
      exact hb.erlo
    · rw [makeMove_wk, if_pos hkw]
      exact hb.erhi
    · rw [makeMove_wk, if_pos hkw]
      exact hb.eclo
    · rw [makeMove_wk, if_pos hkw]
      exact hb.echi
    · rw [makeMove_bk, if_pos hkw]
      exact bk1
    · rw [makeMove_bk, if_pos hkw]
      exact bk2
    · rw [makeMove_bk, if_pos hkw]
      exact bk3
    · rw [makeMove_bk, if_pos hkw]
      exact bk4
    · rw [makeMove_board, makeMove_wk, if_pos hkw]
      show getSq (makeBoard gs.board m) m.endRow m.endCol
        = some (PColor.w, PKind.K)
      rw [getSq_mb_plain_end_nonpawn gs.board m hbwf hb hep hnc
        (by rw [hkw]; simp [cellKind]), hkw]
    · rw [makeMove_board, makeMove_bk, if_pos hkw]
      rw [getSq_mb_plain_off gs.board m hb hep hnc
        gs.blackKingLocation.1 gs.blackKingLocation.2 bk1 bk2 bk3 bk4
        (pair_ne_split _ _ _ hbkE) (pair_ne_split _ _ _ hbkS)]
      exact hbc
    · intro i hi8 j hj8
      constructor
      · intro hW
        rw [makeMove_board] at hW
        rcases plain_king_cells gs.board m hbwf hb hep hnc
            (i : Int) (j : Int) (by omega) (by omega) (by omega) (by omega)
            PColor.w hW with ⟨hx, hy, _⟩ | ⟨hold, _, hnS⟩
        · rw [makeMove_wk, if_pos hkw]
          exact Prod.ext hx.symm hy.symm
        · have h2 := (huniqI (i : Int) (j : Int) (by omega) (by omega)
            (by omega) (by omega)).1 hold
          have h3 := hwkp.symm.trans h2
          have h4 := congrArg Prod.fst h3
          have h5 := congrArg Prod.snd h3
          dsimp only at h4 h5
          exact absurd ⟨h4.symm, h5.symm⟩ hnS
      · intro hB
        rw [makeMove_board] at hB
        rcases plain_king_cells gs.board m hbwf hb hep hnc
            (i : Int) (j : Int) (by omega) (by omega) (by omega) (by omega)
            PColor.b hB with ⟨_, _, hpm2⟩ | ⟨hold, _, _⟩
        · rw [hkw] at hpm2
          simp at hpm2
        · rw [makeMove_bk, if_pos hkw]
          exact (huniqI (i : Int) (j : Int) (by omega) (by omega) (by omega)
            (by omega)).2 hold
  · by_cases hkb : m.pieceMoved = some (PColor.b, PKind.K)
    · -- the black king itself moves
      have hwt : gs.whiteToMove = false := by
        have h2 := hg.moved_side
        rw [hkb] at h2
        unfold sideColor at h2
        by_cases hq : gs.whiteToMove = true
        · rw [if_pos hq] at h2
          simp [cellColor] at h2
        · exact Bool.eq_false_iff.mpr hq
      have hbkp : gs.blackKingLocation = (m.startRow, m.startCol) :=
        hok.bk_loc hkb
      have hwkS : gs.whiteKingLocation ≠ (m.startRow, m.startCol) := by
        intro h
        have h2 := hwc
        rw [h] at h2
        dsimp only at h2
        rw [← hb.moved_eq] at h2
        exact hkw h2
      have hwkE : gs.whiteKingLocation ≠ (m.endRow, m.endCol) := by
        intro h
        exact (hnocap.2 hwt) ⟨by rw [h], by rw [h]⟩
      refine ⟨?_, ?_, ?_, ?_, ?_, ?_, ?_, ?_, ?_, ?_, ?_⟩
      · rw [makeMove_wk, if_neg hkw]
        exact wk1
      · rw [makeMove_wk, if_neg hkw]
        exact wk2
      · rw [makeMove_wk, if_neg hkw]
        exact wk3
      · rw [makeMove_wk, if_neg hkw]
        exact wk4
      · rw [makeMove_bk, if_neg hkw, if_pos hkb]
        exact hb.erlo
      · rw [makeMove_bk, if_neg hkw, if_pos hkb]
        exact hb.erhi
      · rw [makeMove_bk, if_neg hkw, if_pos hkb]
        exact hb.eclo
      · rw [makeMove_bk, if_neg hkw, if_pos hkb]
        exact hb.echi
      · rw [makeMove_board, makeMove_wk, if_neg hkw]
        rw [getSq_mb_plain_off gs.board m hb hep hnc
          gs.whiteKingLocation.1 gs.whiteKingLocation.2 wk1 wk2 wk3 wk4
          (pair_ne_split _ _ _ hwkE) (pair_ne_split _ _ _ hwkS)]
        exact hwc
      · rw [makeMove_board, makeMove_bk, if_neg hkw, if_pos hkb]
        show getSq (makeBoard gs.board m) m.endRow m.endCol
          = some (PColor.b, PKind.K)
        rw [getSq_mb_plain_end_nonpawn gs.board m hbwf hb hep hnc
          (by rw [hkb]; simp [cellKind]), hkb]
      · intro i hi8 j hj8
        constructor
        · intro hW
          rw [makeMove_board] at hW
          rcases plain_king_cells gs.board m hbwf hb hep hnc
              (i : Int) (j : Int) (by omega) (by omega) (by omega) (by omega)
              PColor.w hW with ⟨_, _, hpm2⟩ | ⟨hold, _, _⟩
          · exact absurd hpm2 hkw
          · rw [makeMove_wk, if_neg hkw]
            exact (huniqI (i : Int) (j : Int) (by omega) (by omega)
              (by omega) (by omega)).1 hold
        · intro hB
          rw [makeMove_board] at hB
          rcases plain_king_cells gs.board m hbwf hb hep hnc
              (i : Int) (j : Int) (by omega) (by omega) (by omega) (by omega)
              PColor.b hB with ⟨hx, hy, _⟩ | ⟨hold, _, hnS⟩
          · rw [makeMove_bk, if_neg hkw, if_pos hkb]
            exact Prod.ext hx.symm hy.symm
          · have h2 := (huniqI (i : Int) (j : Int) (by omega) (by omega)
              (by omega) (by omega)).2 hold
            have h3 := hbkp.symm.trans h2
            have h4 := congrArg Prod.fst h3
            have h5 := congrArg Prod.snd h3
            dsimp only at h4 h5
            exact absurd ⟨h4.symm, h5.symm⟩ hnS
    · -- a non-king piece moves
      have hwkS : gs.whiteKingLocation ≠ (m.startRow, m.startCol) := by
        intro h
        have h2 := hwc
        rw [h] at h2
        dsimp only at h2
        rw [← hb.moved_eq] at h2
        exact hkw h2
      have hbkS : gs.blackKingLocation ≠ (m.startRow, m.startCol) := by
        intro h
        have h2 := hbc
        rw [h] at h2
        dsimp only at h2
        rw [← hb.moved_eq] at h2
        exact hkb h2
      have hwkE : gs.whiteKingLocation ≠ (m.endRow, m.endCol) := by
        intro h
        by_cases hwt : gs.whiteToMove = true
        · have h2 := hwc
          rw [h] at h2
          dsimp only at h2
          have h3 := hg.moved_side
          unfold sideColor at h3
          rw [if_pos hwt] at h3
          rcases hg.end_ok with h4 | h4
          · rw [h4] at h2
            cases h2
          · exact h4 (by rw [h2, h3]; rfl)
        · exact (hnocap.2 (Bool.eq_false_iff.mpr hwt)) ⟨by rw [h], by rw [h]⟩
      have hbkE : gs.blackKingLocation ≠ (m.endRow, m.endCol) := by
        intro h
        by_cases hwt : gs.whiteToMove = true
        · exact (hnocap.1 hwt) ⟨by rw [h], by rw [h]⟩
        · have h2 := hbc
          rw [h] at h2
          dsimp only at h2
          have h3 := hg.moved_side
          unfold sideColor at h3
          rw [if_neg hwt] at h3
          rcases hg.end_ok with h4 | h4
          · rw [h4] at h2
            cases h2
          · exact h4 (by rw [h2, h3]; rfl)
      have hnkw2 := hkw
      refine ⟨?_, ?_, ?_, ?_, ?_, ?_, ?_, ?_, ?_, ?_, ?_⟩
      · rw [makeMove_wk, if_neg hkw]
        exact wk1
      · rw [makeMove_wk, if_neg hkw]
        exact wk2
      · rw [makeMove_wk, if_neg hkw]
        exact wk3
      · rw [makeMove_wk, if_neg hkw]
        exact wk4
      · rw [makeMove_bk, if_neg hkw, if_neg hkb]
        exact bk1
      · rw [makeMove_bk, if_neg hkw, if_neg hkb]
        exact bk2
      · rw [makeMove_bk, if_neg hkw, if_neg hkb]
        exact bk3
      · rw [makeMove_bk, if_neg hkw, if_neg hkb]
        exact bk4
      · rw [makeMove_board, makeMove_wk, if_neg hkw]
        rw [getSq_mb_plain_off gs.board m hb hep hnc
          gs.whiteKingLocation.1 gs.whiteKingLocation.2 wk1 wk2 wk3 wk4
          (pair_ne_split _ _ _ hwkE) (pair_ne_split _ _ _ hwkS)]
        exact hwc
      · rw [makeMove_board, makeMove_bk, if_neg hkw, if_neg hkb]
        rw [getSq_mb_plain_off gs.board m hb hep hnc
          gs.blackKingLocation.1 gs.blackKingLocation.2 bk1 bk2 bk3 bk4
          (pair_ne_split _ _ _ hbkE) (pair_ne_split _ _ _ hbkS)]
        exact hbc
      · intro i hi8 j hj8
        constructor
        · intro hW
          rw [makeMove_board] at hW
          rcases plain_king_cells gs.board m hbwf hb hep hnc
              (i : Int) (j : Int) (by omega) (by omega) (by omega) (by omega)
              PColor.w hW with ⟨_, _, hpm2⟩ | ⟨hold, _, _⟩
          · exact absurd hpm2 hkw
          · rw [makeMove_wk, if_neg hkw]
            exact (huniqI (i : Int) (j : Int) (by omega) (by omega)
              (by omega) (by omega)).1 hold
        · intro hB
          rw [makeMove_board] at hB
          rcases plain_king_cells gs.board m hbwf hb hep hnc
              (i : Int) (j : Int) (by omega) (by omega) (by omega) (by omega)
              PColor.b hB with ⟨_, _, hpm2⟩ | ⟨hold, _, _⟩
          · exact absurd hpm2 hkb
          · rw [makeMove_bk, if_neg hkw, if_neg hkb]
            exact (huniqI (i : Int) (j : Int) (by omega) (by omega)
              (by omega) (by omega)).2 hold

theorem kingsOK_make (gs : GameState) (hwf : WF gs) :
    ∀ m ∈ (getValidMoves gs).1, kingsOK (makeMove gs m) := by
  intro m hm
  obtain ⟨hok, hpost, hgen, hcastle⟩ := getValidMoves_facts gs hwf m hm
  have hbwf := hwf.1
  have hkings := hwf.2.1
  have hepo := hwf.2.2.1
  have hsafe := hwf.2.2.2.2.2.2
  by_cases hcast : m.isCastleMove = true
  · have hpm := hcastle hcast
    have hcc := getValidMoves_castle_cond gs hwf m hm hcast
    have hcol4 : m.startCol = 4 := hok.boardOK.castle_col hcast
    rcases hok.boardOK.castle_side hcast with ⟨hec, hemp5⟩ | ⟨hec, hemp3⟩
    · have hemp6 : getSq gs.board m.startRow 6 = none := by
        rcases hcc with ⟨h1, h2, h3⟩ | ⟨h1, h2, h3, h4⟩
        · rw [hcol4] at h3
          norm_num at h3
          exact h3
        · rw [hcol4] at h1
          rw [hec] at h1
          norm_num at h1
      by_cases hwt : gs.whiteToMove = true
      · have hkw : m.pieceMoved = some (PColor.w, PKind.K) := by
          rw [hpm]
          unfold sideColor
          rw [if_pos hwt]
        exact kingsOK_castle_wks gs m hbwf hkings hok hcast hkw hwt hec
          hemp5 hemp6 hpost
      · have hwt2 : gs.whiteToMove = false := Bool.eq_false_iff.mpr hwt
        have hkb : m.pieceMoved = some (PColor.b, PKind.K) := by
          rw [hpm]
          unfold sideColor
          rw [if_neg hwt]
        exact kingsOK_castle_bks gs m hbwf hkings hok hcast hkb hwt2 hec
          hemp5 hemp6 hpost
    · have hemp2 : getSq gs.board m.startRow 2 = none := by
        rcases hcc with ⟨h1, h2, h3⟩ | ⟨h1, h2, h3, h4⟩
        · rw [hcol4] at h1
          rw [hec] at h1
          norm_num at h1
        · rw [hcol4] at h3
          norm_num at h3
          exact h3
      by_cases hwt : gs.whiteToMove = true
      · have hkw : m.pieceMoved = some (PColor.w, PKind.K) := by
          rw [hpm]
          unfold sideColor
          rw [if_pos hwt]
        exact kingsOK_castle_wqs gs m hbwf hkings hok hcast hkw hwt hec
          hemp3 hemp2 hpost
      · have hwt2 : gs.whiteToMove = false := Bool.eq_false_iff.mpr hwt
        have hkb : m.pieceMoved = some (PColor.b, PKind.K) := by
          rw [hpm]
          unfold sideColor
          rw [if_neg hwt]
        exact kingsOK_castle_bqs gs m hbwf hkings hok hcast hkb hwt2 hec
          hemp3 hemp2 hpost
  · have hnc : m.isCastleMove = false := Bool.eq_false_iff.mpr hcast
    have hg := hgen hnc
    by_cases hepq : m.isEnPassantMove = true
    · exact kingsOK_make_ep gs m hbwf hkings hepo hok hepq hg
    · have hepf : m.isEnPassantMove = false := Bool.eq_false_iff.mpr hepq
      have hsub := checkFilter_subset gs _ m hm
      rcases List.mem_append.1 hsub with h | h
      · exact kingsOK_make_plain gs m hbwf hkings hok hepf hnc hg h hsafe
      · exfalso
        rcases castleMoves_shape gs _ _ m h with rfl | rfl <;>
          simp [mkMove] at hnc

theorem oppKingSafe_inCheck (s : GameState) :
    oppKingSafe s = !(inCheck { s with whiteToMove := !s.whiteToMove }).1 := by
  cases hw : s.whiteToMove <;>
    simp [oppKingSafe, inCheck, underAttack, hw]

theorem oppKingSafe_make (gs : GameState) (m : Move) :
    oppKingSafe (makeMove gs m) = !postMoveCheck gs m := by
  rw [oppKingSafe_inCheck]
  rfl

theorem WF_make (gs : GameState) (hwf : WF gs) :
    ∀ m ∈ (getValidMoves gs).1, WF (makeMove gs m) := by
  intro m hm
  obtain ⟨hok, hpost, hgen, hcastle⟩ := getValidMoves_facts gs hwf m hm
  have hbwf := hwf.1
  refine ⟨?_, ?_, ?_, ?_, ?_, ?_, ?_⟩
  · rw [makeMove_board]
    exact boardWF_makeBoard gs.board m hbwf
  · exact kingsOK_make gs hwf m hm
  · exact epOK_make gs m hbwf hok hgen hcastle
  · refine pawnsOK_make gs m hbwf hok hwf.2.2.2.1 hgen hcastle ?_
    intro hep
    have hg := hgen (hok.boardOK.ep_not_castle hep)
    obtain ⟨hpmS, heptar, hside⟩ := hg.ep_pawn hep
    have her : m.endRow = 2 ∨ m.endRow = 5 := by
      rcases hside with ⟨hwt, _⟩ | ⟨hwt, _⟩
      · exact Or.inl (epOK_white gs m.endRow m.endCol hwf.2.2.1 hwt heptar).1
      · exact Or.inr (epOK_black gs m.endRow m.endCol hwf.2.2.1 hwt heptar).1
    have hpp : m.isPawnPromotion = false := by
      cases hf : m.isPawnPromotion
      · rfl
      · exfalso
        rcases hg.flag.mp hf with ⟨_, h0⟩ | h7 <;> rcases her with h | h <;>
          omega
    exact ⟨hpp, by omega, by omega, ⟨sideColor gs, hpmS⟩⟩
  · exact castleHomeOK_make gs m hwf.2.2.2.2.1
  · exact makeMove_log gs m
  · rw [oppKingSafe_make, hpost]
    rfl

def searchEq (ref s : GameState) : Prop :=
  s.board = ref.board ∧ s.whiteToMove = ref.whiteToMove ∧
  s.moveLog = ref.moveLog ∧
  s.whiteKingLocation = ref.whiteKingLocation ∧
  s.blackKingLocation = ref.blackKingLocation ∧
  s.currentCastlingRight = ref.currentCastlingRight ∧
  s.castleRightsLog = ref.castleRightsLog

def flagEq (ref s : GameState) : Prop :=
  searchEq ref s ∧ s.enPassantPossible = ref.enPassantPossible

theorem flagEq_refl (s : GameState) : flagEq s s :=
  ⟨⟨rfl, rfl, rfl, rfl, rfl, rfl, rfl⟩, rfl⟩

theorem flagEq_trans (a b c : GameState) (h1 : flagEq a b) (h2 : flagEq b c) :
    flagEq a c := by
  obtain ⟨⟨x1, x2, x3, x4, x5, x6, x7⟩, x8⟩ := h1
  obtain ⟨⟨y1, y2, y3, y4, y5, y6, y7⟩, y8⟩ := h2
  exact ⟨⟨y1.trans x1, y2.trans x2, y3.trans x3, y4.trans x4, y5.trans x5,
    y6.trans x6, y7.trans x7⟩, y8.trans x8⟩

theorem flagEq_symm (a b : GameState) (h : flagEq a b) : flagEq b a := by
  obtain ⟨⟨x1, x2, x3, x4, x5, x6, x7⟩, x8⟩ := h
  exact ⟨⟨x1.symm, x2.symm, x3.symm, x4.symm, x5.symm, x6.symm, x7.symm⟩,
    x8.symm⟩

theorem makeMove_congr (ref s : GameState) (m : Move) (h : searchEq ref s) :
    flagEq (makeMove ref m) (makeMove s m) := by
  obtain ⟨hb, hw, hml, hwk, hbk, hcr, hlog⟩ := h
  unfold flagEq searchEq makeMove
  dsimp only
  rw [hb, hw, hml, hwk, hbk, hcr, hlog]
  exact ⟨⟨rfl, rfl, rfl, rfl, rfl, rfl, rfl⟩, rfl⟩

theorem undoMove_congr (ref s : GameState) (h : flagEq ref s) :
    flagEq (undoMove ref) (undoMove s) := by
  obtain ⟨⟨hb, hw, hml, hwk, hbk, hcr, hlog⟩, hep⟩ := h
  unfold undoMove
  rw [hml]
  rcases hq : ref.moveLog.getLast? with _ | mv
  · exact ⟨⟨hb, hw, hml, hwk, hbk, hcr, hlog⟩, hep⟩
  · unfold flagEq searchEq undoBody
    dsimp only
    rw [hb, hw, hml, hwk, hbk, hcr, hlog, hep]
    exact ⟨⟨rfl, rfl, rfl, rfl, rfl, rfl, rfl⟩, rfl⟩

theorem underAttack_val_congr (ref s : GameState) (r c : Int)
    (hb : s.board = ref.board) (hw : s.whiteToMove = ref.whiteToMove)
    (hep : s.enPassantPossible = ref.enPassantPossible) :
    underAttack s r c = underAttack ref r c := by
  unfold underAttack squareUnderAttack
  dsimp only
  rw [gAPM_congr { s with whiteToMove := !s.whiteToMove }
    { ref with whiteToMove := !ref.whiteToMove } hb (by dsimp only; rw [hw])
    hep]

theorem inCheck_val_congr (ref s : GameState) (h : flagEq ref s) :
    (inCheck s).1 = (inCheck ref).1 := by
  obtain ⟨⟨hb, hw, hml, hwk, hbk, hcr, hlog⟩, hep⟩ := h
  unfold inCheck
  rw [hw, hwk, hbk]
  by_cases hq : ref.whiteToMove = true
  · rw [if_pos hq, if_pos hq]
    show underAttack s _ _ = underAttack ref _ _
    exact underAttack_val_congr ref s _ _ hb hw hep
  · rw [if_neg hq, if_neg hq]
    show underAttack s _ _ = underAttack ref _ _
    exact underAttack_val_congr ref s _ _ hb hw hep

theorem getCastleMoves_congr (ref s : GameState) (r c : Int)
    (h : flagEq ref s) :
    getCastleMoves s r c = getCastleMoves ref r c := by
  obtain ⟨⟨hb, hw, hml, hwk, hbk, hcr, hlog⟩, hep⟩ := h
  unfold getCastleMoves getKingSideCastleMoves getQueenSideCastleMoves
  rw [hb, hw, hcr,
    underAttack_val_congr ref s r c hb hw hep,
    underAttack_val_congr ref s r (c+1) hb hw hep,
    underAttack_val_congr ref s r (c+2) hb hw hep,
    underAttack_val_congr ref s r (c-1) hb hw hep,
    underAttack_val_congr ref s r (c-2) hb hw hep]

theorem checkFilter_state_cons (gs : GameState) (a : Move) (rest : List Move) :
    (checkFilter gs (a :: rest)).2
      = undoMove (makeMove (checkFilter gs rest).2 a) := by
  show (let p := checkFilter gs rest
        let gs2 := makeMove p.2 a
        let gs3 := { gs2 with whiteToMove := !gs2.whiteToMove }
        let q := inCheck gs3
        let gs5 := { q.2 with whiteToMove := !(q.2).whiteToMove }
        let gs6 := undoMove gs5
        (if q.1 then p.1 else a :: p.1, gs6)).2
      = undoMove (makeMove (checkFilter gs rest).2 a)
  dsimp only
  rw [inCheck_state, Bool.not_not]

theorem checkFilter_fst_cons (gs : GameState) (a : Move) (rest : List Move) :
    (checkFilter gs (a :: rest)).1
      = if (inCheck { makeMove (checkFilter gs rest).2 a with
            whiteToMove :=
              !(makeMove (checkFilter gs rest).2 a).whiteToMove }).1
        then (checkFilter gs rest).1 else a :: (checkFilter gs rest).1 := rfl

theorem checkFilter_congr (ref s : GameState) (h : flagEq ref s)
    (l : List Move) :
    (checkFilter s l).1 = (checkFilter ref l).1 ∧
      flagEq (checkFilter ref l).2 (checkFilter s l).2 := by
  induction l with
  | nil => exact ⟨rfl, h⟩
  | cons a rest ih =>
    obtain ⟨ih1, ih2⟩ := ih
    have hmk := makeMove_congr _ _ a ih2.1
    have hflip : flagEq
        { makeMove (checkFilter ref rest).2 a with
          whiteToMove := !(makeMove (checkFilter ref rest).2 a).whiteToMove }
        { makeMove (checkFilter s rest).2 a with
          whiteToMove := !(makeMove (checkFilter s rest).2 a).whiteToMove } := by
      obtain ⟨⟨hb, hw, hml, hwk, hbk, hcr, hlog⟩, hep⟩ := hmk
      exact ⟨⟨hb, congrArg (fun b => !b) hw, hml, hwk, hbk, hcr, hlog⟩, hep⟩
    constructor
    · rw [checkFilter_fst_cons, checkFilter_fst_cons,
        inCheck_val_congr _ _ hflip, ih1]
    · rw [checkFilter_state_cons, checkFilter_state_cons]
      exact undoMove_congr _ _ hmk

theorem getValidMoves_list_congr (ref s : GameState) (h : flagEq ref s) :
    (getValidMoves s).1 = (getValidMoves ref).1 := by
  obtain ⟨⟨hb, hw, hml, hwk, hbk, hcr, hlog⟩, hep⟩ := h
  have hlists : getAllPossibleMoves s ++ getCastleMoves s
      (if s.whiteToMove then s.whiteKingLocation else s.blackKingLocation).1
      (if s.whiteToMove then s.whiteKingLocation else s.blackKingLocation).2
      = getAllPossibleMoves ref ++ getCastleMoves ref
      (if ref.whiteToMove then ref.whiteKingLocation
       else ref.blackKingLocation).1
      (if ref.whiteToMove then ref.whiteKingLocation
       else ref.blackKingLocation).2 := by
    rw [gAPM_congr s ref hb hw hep, hw, hwk, hbk,
      getCastleMoves_congr ref s _ _
        ⟨⟨hb, hw, hml, hwk, hbk, hcr, hlog⟩, hep⟩]
  show (checkFilter s (getAllPossibleMoves s ++ getCastleMoves s
      (if s.whiteToMove then s.whiteKingLocation else s.blackKingLocation).1
      (if s.whiteToMove then s.whiteKingLocation
       else s.blackKingLocation).2)).1
    = (checkFilter ref (getAllPossibleMoves ref ++ getCastleMoves ref
      (if ref.whiteToMove then ref.whiteKingLocation
       else ref.blackKingLocation).1
      (if ref.whiteToMove then ref.whiteKingLocation
       else ref.blackKingLocation).2)).1
  rw [hlists]
  exact (checkFilter_congr ref s
    ⟨⟨hb, hw, hml, hwk, hbk, hcr, hlog⟩, hep⟩ _).1

theorem getValidMoves_self_flagEq (gs : GameState) (hwf : WF gs) :
    flagEq gs (getValidMoves gs).2 := by
  have hepE := WF_epE gs hwf
  have hl : ∀ m ∈ getAllPossibleMoves gs ++
      getCastleMoves gs
        (if gs.whiteToMove then gs.whiteKingLocation
         else gs.blackKingLocation).1
        (if gs.whiteToMove then gs.whiteKingLocation
         else gs.blackKingLocation).2, MoveOK gs m := by
    intro m hm
    rcases List.mem_append.1 hm with h | h
    · exact getAllPossibleMoves_ok gs hwf m h
    · exact castleMoves_ok gs hwf _ _ rfl m h
  have hcc := (checkFilter_core gs hwf.1 hwf.2.2.2.2.2.1 hepE _ hl).1
  obtain ⟨hb, hw, hml, hwk, hbk, hcm, hsm, hcr, hlog⟩ := hcc
  rw [getValidMoves_eq gs]
  dsimp only
  cases hE : (checkFilter gs (getAllPossibleMoves gs ++
      getCastleMoves gs
        (if gs.whiteToMove then gs.whiteKingLocation
         else gs.blackKingLocation).1
        (if gs.whiteToMove then gs.whiteKingLocation
         else gs.blackKingLocation).2)).1.isEmpty
  · simp only [Bool.false_eq_true, if_false]
    exact ⟨⟨hb, hw, hml, hwk, hbk, rfl, hlog⟩, rfl⟩
  · simp only [if_true]
    cases hq : (inCheck (checkFilter gs (getAllPossibleMoves gs ++
        getCastleMoves gs
          (if gs.whiteToMove then gs.whiteKingLocation
           else gs.blackKingLocation).1
          (if gs.whiteToMove then gs.whiteKingLocation
           else gs.blackKingLocation).2)).2).1
    · simp only [Bool.false_eq_true, if_false]
      exact ⟨⟨hb, hw, hml, hwk, hbk, rfl, hlog⟩, rfl⟩
    · simp only [if_true]
      exact ⟨⟨hb, hw, hml, hwk, hbk, rfl, hlog⟩, rfl⟩

theorem WF_flagEq (ref s : GameState) (h : flagEq ref s) (hwf : WF ref) :
    WF s := by
  obtain ⟨⟨hb, hw, hml, hwk, hbk, hcr, hlog⟩, hep⟩ := h
  refine ⟨?_, ?_, ?_, ?_, ?_, ?_, ?_⟩
  · rw [hb]
    exact hwf.1
  · have h2 := hwf.2.1
    unfold kingsOK at h2 ⊢
    rw [hwk, hbk, hb]
    exact h2
  · have h2 := hwf.2.2.1
    unfold epOK epOKb at h2 ⊢
    rw [hep, hw, hb]
    exact h2
  · have h2 := hwf.2.2.2.1
    unfold pawnsOK at h2 ⊢
    rw [hb]
    exact h2
  · have h2 := hwf.2.2.2.2.1
    unfold castleHomeOK at h2 ⊢
    rw [hcr, hwk, hbk]
    exact h2
  · rw [hlog, hcr]
    exact hwf.2.2.2.2.2.1
  · have h2 := hwf.2.2.2.2.2.2
    unfold oppKingSafe at h2 ⊢
    rw [hw, hwk, hbk]
    by_cases hq : ref.whiteToMove = true
    · rw [if_pos hq] at h2 ⊢
      rw [underAttack_val_congr { ref with whiteToMove := false }
        { s with whiteToMove := false,
                 whiteKingLocation := ref.whiteKingLocation,
                 blackKingLocation := ref.blackKingLocation }
        ref.blackKingLocation.1 ref.blackKingLocation.2 hb rfl hep]
      exact h2
    · rw [if_neg hq] at h2 ⊢
      rw [underAttack_val_congr { ref with whiteToMove := true }
        { s with whiteToMove := true,
                 whiteKingLocation := ref.whiteKingLocation,
                 blackKingLocation := ref.blackKingLocation }
        ref.whiteKingLocation.1 ref.whiteKingLocation.2 hb rfl hep]
      exact h2

theorem searchEq_trans (a b c : GameState) (h1 : searchEq a b)
    (h2 : searchEq b c) : searchEq a c := by
  obtain ⟨x1, x2, x3, x4, x5, x6, x7⟩ := h1
  obtain ⟨y1, y2, y3, y4, y5, y6, y7⟩ := h2
  exact ⟨y1.trans x1, y2.trans x2, y3.trans x3, y4.trans x4, y5.trans x5,
    y6.trans x6, y7.trans x7⟩

theorem undoMove_searchEq_congr (ref s : GameState) (h : searchEq ref s) :
    searchEq (undoMove ref) (undoMove s) := by
  obtain ⟨hb, hw, hml, hwk, hbk, hcr, hlog⟩ := h
  unfold undoMove
  rw [hml]
  rcases hq : ref.moveLog.getLast? with _ | mv
  · exact ⟨hb, hw, hml, hwk, hbk, hcr, hlog⟩
  · unfold searchEq undoBody
    dsimp only
    rw [hb, hw, hml, hwk, hbk, hcr, hlog]
    exact ⟨rfl, rfl, rfl, rfl, rfl, rfl, rfl⟩

theorem searchEq_undo_make (g : GameState) (mv : Move) (hwf : WF g)
    (hok : MoveOK g mv) : searchEq g (undoMove (makeMove g mv)) := by
  have mu := make_undo_core g mv hwf.1 hok hwf.2.2.2.2.2.1
  exact ⟨mu.1, mu.2.1, mu.2.2.2.2.2.2.1, mu.2.2.1, mu.2.2.2.1,
    mu.2.2.2.2.1, mu.2.2.2.2.2.1⟩

theorem negaMaxABLoop_restore (d : Nat) :
    ∀ maxD alpha beta tm g l mx nm r,
      WF g → l = (getValidMoves g).1 →
      negaMaxABLoop d maxD alpha beta tm g l mx nm = some r →
      searchEq g r.2.1 ∧
        (r.2.1.enPassantPossible = g.enPassantPossible ∨
         r.2.1.enPassantPossible = none) := by
  induction d with
  | zero =>
    intro maxD alpha beta tm g l mx nm r hwf hl h3
    simp only [negaMaxABLoop] at h3
    rcases hs : scoreBoard g with _ | v
    · rw [hs] at h3
      simp at h3
    · rw [hs] at h3
      simp only [Option.map_some'] at h3
      obtain rfl := Option.some.inj h3
      exact ⟨(flagEq_refl g).1, Or.inl rfl⟩
  | succ d ih =>
    intro maxD alpha beta tm g l mx nm r hwf hl h3
    simp only [negaMaxABLoop] at h3
    have inner : ∀ moves : List Move, ∀ t alpha2 mx2 nm2 r2,
        searchEq g t →
        (t.enPassantPossible = g.enPassantPossible ∨
          t.enPassantPossible = none) →
        (∀ m ∈ moves, m ∈ (getValidMoves g).1) →
        negaMaxABInner
          (fun a g2 l2 n2 =>
            negaMaxABLoop d maxD (-beta) (-a) (-tm) g2 l2 (-CHECKMATE) n2)
          (decide (d + 1 = maxD)) beta alpha2 t moves mx2 nm2 = some r2 →
        searchEq g r2.2.1 ∧
          (r2.2.1.enPassantPossible = g.enPassantPossible ∨
           r2.2.1.enPassantPossible = none) := by
      intro moves
      induction moves with
      | nil =>
        intro t alpha2 mx2 nm2 r2 ht hte hmv h4
        simp only [negaMaxABInner] at h4
        obtain rfl := Option.some.inj h4
        exact ⟨ht, hte⟩
      | cons mv rest ihm =>
        intro t alpha2 mx2 nm2 r2 ht hte hmv h4
        simp only [negaMaxABInner] at h4
        have hmem : mv ∈ (getValidMoves g).1 := hmv mv (List.mem_cons_self _ _)
        have hokg : MoveOK g mv := (getValidMoves_facts g hwf mv hmem).1
        have hfl1 : flagEq (makeMove g mv) (makeMove t mv) :=
          makeMove_congr g t mv ht
        have hWFg1 : WF (makeMove t mv) :=
          WF_flagEq _ _ hfl1 (WF_make g hwf mv hmem)
        have hflp2 : flagEq (makeMove t mv)
            (getValidMoves (makeMove t mv)).2 :=
          getValidMoves_self_flagEq _ hWFg1
        have hWFp2 : WF (getValidMoves (makeMove t mv)).2 :=
          WF_flagEq _ _ hflp2 hWFg1
        have hlst : (getValidMoves (makeMove t mv)).1
            = (getValidMoves (getValidMoves (makeMove t mv)).2).1 :=
          (getValidMoves_list_congr _ _ hflp2).symm
        rcases hc : negaMaxABLoop d maxD (-beta) (-alpha2) (-tm)
            (getValidMoves (makeMove t mv)).2
            (getValidMoves (makeMove t mv)).1
            (-CHECKMATE) nm2 with _ | res
        · rw [hc] at h4
          simp at h4
        · obtain ⟨sc, g3, nm1⟩ := res
          rw [hc] at h4
          dsimp only at h4
          have hres := ih maxD (-beta) (-alpha2) (-tm)
            (getValidMoves (makeMove t mv)).2
            (getValidMoves (makeMove t mv)).1
            (-CHECKMATE) nm2 (sc, g3, nm1) hWFp2 hlst hc
          have hg3s : searchEq (makeMove g mv) g3 :=
            searchEq_trans _ _ _ (searchEq_trans _ _ _ hfl1.1 hflp2.1) hres.1
          have hg3log : g3.moveLog.getLast? = some mv := by
            rw [hres.1.2.2.1, hflp2.1.2.2.1]
            show (t.moveLog ++ [mv]).getLast? = some mv
            simp
          have hundo : undoMove g3 = undoBody g3 mv := by
            unfold undoMove
            rw [hg3log]
          have hA : searchEq g (undoMove g3) :=
            searchEq_trans _ _ _ (searchEq_undo_make g mv hwf hokg)
              (undoMove_searchEq_congr _ _ hg3s)
          have hB : (undoMove g3).enPassantPossible = g.enPassantPossible ∨
              (undoMove g3).enPassantPossible = none := by
            rw [hundo]
            unfold undoBody
            dsimp only
            split_ifs with h1 h2
            · exact Or.inr rfl
            · left
              have hgf : GenFacts g mv :=
                (getValidMoves_facts g hwf mv hmem).2.2.1
                  (hokg.boardOK.ep_not_castle h2)
              rw [(hgf.ep_pawn h2).2.1]
            · have hg1ep : (makeMove t mv).enPassantPossible = none := by
                rw [makeMove_ep]
                rw [if_neg h1]
              rcases hres.2 with he | he
              · right
                rw [he, hflp2.2, hg1ep]
              · exact Or.inr he
          have hstep : ∀ (C : Prop) (_ : Decidable C) (X A : Int)
              (Y : Option Move),
              (if C then some (X, undoMove g3, Y)
               else negaMaxABInner
                (fun a g2 l2 n2 =>
                  negaMaxABLoop d maxD (-beta) (-a) (-tm) g2 l2 (-CHECKMATE) n2)
                (decide (d + 1 = maxD)) beta A (undoMove g3) rest X Y)
                = some r2 →
              searchEq g r2.2.1 ∧
                (r2.2.1.enPassantPossible = g.enPassantPossible ∨
                 r2.2.1.enPassantPossible = none) := by
            intro C hC X A Y h5
            split_ifs at h5 with hc5
            · obtain rfl := Option.some.inj h5
              exact ⟨hA, hB⟩
            · exact ihm (undoMove g3) A X Y r2 hA hB
                (fun m hm => hmv m (List.mem_cons_of_mem mv hm)) h5
          exact hstep _ _ _ _ _ h4
    subst hl
    exact inner (getValidMoves g).1 g alpha mx nm r (flagEq_refl g).1
      (Or.inl rfl) (fun m hm => hm) h3

/-- C7 (amended): on a reachable state, when `findBestMove` returns, the
search has restored the board, the side to move, the move log, both king
locations, the current castling rights and the castle-rights log to their
pre-call values; the en-passant target and the mate flags are not restored
in general. -/
theorem claim_C7_core_restored (gs : GameState) (hwf : WF gs)
    (nm : Option Move) (gs1 : GameState)
    (h : findBestMove gs (getValidMoves gs).1 = some (nm, gs1)) :
    gs1.board = gs.board ∧ gs1.whiteToMove = gs.whiteToMove ∧
    gs1.moveLog = gs.moveLog ∧
    gs1.whiteKingLocation = gs.whiteKingLocation ∧
    gs1.blackKingLocation = gs.blackKingLocation ∧
    gs1.currentCastlingRight = gs.currentCastlingRight ∧
    gs1.castleRightsLog = gs.castleRightsLog := by
  unfold findBestMove at h
  rcases hc : negaMaxABLoop DEPTH DEPTH (-CHECKMATE) CHECKMATE
      (if gs.whiteToMove then 1 else -1) gs (getValidMoves gs).1
      (-CHECKMATE) none with _ | res
  · rw [hc] at h
    exact Option.noConfusion h
  · obtain ⟨sc, g1, nm1⟩ := res
    rw [hc] at h
    have h2 := Option.some.inj h
    have hg : g1 = gs1 := congrArg Prod.snd h2
    have hres := negaMaxABLoop_restore DEPTH DEPTH (-CHECKMATE) CHECKMATE
      (if gs.whiteToMove then 1 else -1) gs (getValidMoves gs).1
      (-CHECKMATE) none (sc, g1, nm1) hwf rfl hc
    rw [← hg]
    exact hres.1

/-- Witness for C7 (amended): `epState` is well-formed, `findBestMove` on it
returns, and each of the seven restored fields of the returned state equals
its pre-call value. -/
theorem claim_C7_witness :
    WF epState ∧
    (findBestMove epState (getValidMoves epState).1).map
        (fun x => x.2.board) = some epState.board ∧
    (findBestMove epState (getValidMoves epState).1).map
        (fun x => x.2.whiteToMove) = some epState.whiteToMove ∧
    (findBestMove epState (getValidMoves epState).1).map
        (fun x => x.2.moveLog) = some epState.moveLog ∧
    (findBestMove epState (getValidMoves epState).1).map
        (fun x => x.2.whiteKingLocation) = some epState.whiteKingLocation ∧
    (findBestMove epState (getValidMoves epState).1).map
        (fun x => x.2.blackKingLocation) = some epState.blackKingLocation ∧
    (findBestMove epState (getValidMoves epState).1).map
        (fun x => x.2.currentCastlingRight)
      = some epState.currentCastlingRight ∧
    (findBestMove epState (getValidMoves epState).1).map
        (fun x => x.2.castleRightsLog) = some epState.castleRightsLog := by
  have hwf : WF epState := by
    unfold WF
    refine ⟨?_, ?_, ?_, ?_, ?_, ?_, ?_⟩
    · unfold boardWF
      decide
    · unfold kingsOK
      exact ⟨by decide, by decide, by decide, by decide, by decide, by decide,
        by decide, by decide, by decide, by decide, by decide⟩
    · unfold epOK epOKb
      decide
    · unfold pawnsOK
      decide
    · unfold castleHomeOK
      decide
    · decide
    · unfold oppKingSafe
      decide
  rcases hq : findBestMove epState (getValidMoves epState).1 with _ | p
  · exact absurd hq (by decide)
  · obtain ⟨nm, gs1⟩ := p
    have hcore := claim_C7_core_restored epState hwf nm gs1 hq
    simp only [Option.map_some']
    exact ⟨hwf, congrArg some hcore.1, congrArg some hcore.2.1,
      congrArg some hcore.2.2.1, congrArg some hcore.2.2.2.1,
      congrArg some hcore.2.2.2.2.1, congrArg some hcore.2.2.2.2.2.1,
      congrArg some hcore.2.2.2.2.2.2⟩
